import Mathlib

/-!
# TechHub e-commerce back end: order placement, cancellation and reviews

A shallow embedding of the route handlers of `backend/routes/orders.js`,
`backend/routes/admin.js` and `backend/routes/reviews.js`, of the add-to-cart
and update handlers of `backend/routes/cart.js`, the create-intent handler of
`backend/routes/payment.js` and the pagination of `backend/routes/products.js`,
together with the parts of `backend/models/Product.js` (slug, discount
percentage) and `backend/models/Review.js` they use, and of the form and the
totals of the pages `src/pages/Checkout.jsx` and `src/pages/Cart.jsx`.

Conventions of the embedding.

* The document database is an explicit state `Db`.  The `Product` and `Cart`
  collections are finite maps keyed by the MongoDB `_id` (resp. the owning
  user), written as functions into `Option`; `Order` and `Review` documents are
  kept in insertion order and an order's `_id` is its position.
* JavaScript numbers holding money are rationals, and every arithmetic
  operation on them (the totals of an order and of the pages, the discount
  percentage) rounds its exact result to the nearest binary64 number
  (`toBinary64`).  Stock levels are integers (a `$inc` can take them below
  zero); line quantities are naturals.  The mean of the ratings and the number
  of pages are computed in exact arithmetic.
* A handler is a function from the state and the request to a response and the
  next state.  An exception thrown inside a `try` block is the response of the
  `catch` block.  The `auth` / `adminMiddleware` layers have already run: a
  handler receives the authenticated user.
* Database calls succeed unless a definition says otherwise
  (`placeOrderWithFaults`), and a request runs without interruption unless it
  is scheduled explicitly (`Server`).
-/

namespace TechHub

abbrev ProductId := Nat
abbrev UserId := Nat
abbrev OrderId := Nat

/-- A document of the `Product` collection (`models/Product.js`), restricted to
the fields the handlers read or write. -/
structure Product where
  name : String
  sku : String
  price : ℚ
  originalPrice : ℚ
  quantity : Int
  inStock : Bool
  isActive : Bool
  images : List String
  ratingAverage : ℚ
  ratingCount : Nat
deriving DecidableEq

/-- A cart line: product reference, quantity and the price captured when the
line was added (`cart.addItem(productId, quantity, product.price)`). -/
structure CartItem where
  product : ProductId
  quantity : Nat
  price : ℚ
deriving DecidableEq

/-- A user's cart document. -/
structure Cart where
  items : List CartItem
deriving DecidableEq

/-- A line of an order, as built at `orders.js` lines 98-105. -/
structure OrderItem where
  product : ProductId
  name : String
  price : ℚ
  quantity : Nat
  sku : String
  image : String
deriving DecidableEq

/-- The `status` enum of an order: `pending`, `processing`, `shipped`,
`delivered`, `cancelled`. -/
inductive OrderStatus where
  | pending
  | processing
  | shipped
  | delivered
  | cancelled
deriving DecidableEq

/-- An address object of a request body; an absent field is `none`. -/
structure Address where
  name : Option String
  email : Option String
  phone : Option String
  street : Option String
  city : Option String
  state : Option String
  zipCode : Option String
  country : Option String
deriving DecidableEq

/-- The JSON body of `POST /api/orders`. -/
structure OrderBody where
  shippingAddress : Address
  billingAddress : Option Address
  paymentMethod : Option String
  paymentIntentId : Option String
deriving DecidableEq

/-- A document of the `Order` collection. -/
structure Order where
  user : UserId
  items : List OrderItem
  shippingAddress : Address
  billingAddress : Address
  subtotal : ℚ
  tax : ℚ
  shipping : ℚ
  total : ℚ
  paymentMethod : String
  paymentIntentId : String
  paymentStatus : String
  status : OrderStatus
deriving DecidableEq

/-- A document of the `Review` collection (`models/Review.js`). -/
structure Review where
  product : ProductId
  user : UserId
  order : OrderId
  rating : Int
  title : String
  comment : String
  pros : List String
  cons : List String
  isApproved : Bool
  helpfulVotes : Nat
deriving DecidableEq

/-- The database state. -/
structure Db where
  products : ProductId → Option Product
  carts : UserId → Option Cart
  orders : List Order
  reviews : List Review

/-- What a handler sends back: the HTTP status and the `message` of the JSON
envelope (empty when the envelope has none). -/
structure Response where
  status : Nat
  message : String
deriving DecidableEq

/-- The response of the generic `catch` block of the order and review routes. -/
def serverError : Response := ⟨500, "Server error"⟩

/-! ## JavaScript numbers

A JavaScript number is an IEEE 754 binary64 number and every arithmetic
operation on numbers returns the binary64 number nearest to the exact result.
Numbers are given as rationals and each operation rounds its exact result. -/

/-- Rounding to the nearest integer, a tie going to the even neighbour. -/
def roundHalfEven (x : ℚ) : ℤ :=
  if x - ⌊x⌋ < 1 / 2 then ⌊x⌋
  else if 1 / 2 < x - ⌊x⌋ then ⌊x⌋ + 1
  else if ⌊x⌋ % 2 = 0 then ⌊x⌋ else ⌊x⌋ + 1

/-- The binary64 number nearest to `q` (53 significant bits, round to nearest,
ties to even), for `q` in the range of normal numbers. -/
def toBinary64 (q : ℚ) : ℚ :=
  if q = 0 then 0
  else if q < 0 then
    -((roundHalfEven (-q / 2 ^ (Int.log 2 (-q) - 52)) : ℚ) * 2 ^ (Int.log 2 (-q) - 52))
  else (roundHalfEven (q / 2 ^ (Int.log 2 q - 52)) : ℚ) * 2 ^ (Int.log 2 q - 52)

/-- JavaScript `a + b` on numbers. -/
def jsAdd (a b : ℚ) : ℚ := toBinary64 (a + b)

/-- JavaScript `a * b` on numbers. -/
def jsMul (a b : ℚ) : ℚ := toBinary64 (a * b)

/-- JavaScript `a - b` on numbers. -/
def jsSub (a b : ℚ) : ℚ := toBinary64 (a - b)

/-- JavaScript `a / b` on numbers, for a divisor other than zero. -/
def jsDiv (a b : ℚ) : ℚ := toBinary64 (a / b)

/-! ## Request validation (express-validator chains) -/

/-- `body(f).notEmpty()`: an absent field is validated as the empty string. -/
def notEmpty (v : Option String) : Bool :=
  v.getD "" != ""

/-- The `isIn` list of `paymentMethod`, `orders.js` line 56. -/
def paymentMethods : List String :=
  ["credit_card", "debit_card", "paypal", "bank_transfer"]

/-- The validation chain of `POST /api/orders`, `orders.js` lines 48-57.  The
`isEmail` check of the validator library is a parameter. -/
def validateOrderBody (isEmail : String → Bool) (b : OrderBody) : Bool :=
  notEmpty b.shippingAddress.name &&
  isEmail (b.shippingAddress.email.getD "") &&
  notEmpty b.shippingAddress.phone &&
  notEmpty b.shippingAddress.street &&
  notEmpty b.shippingAddress.city &&
  notEmpty b.shippingAddress.state &&
  notEmpty b.shippingAddress.zipCode &&
  notEmpty b.shippingAddress.country &&
  paymentMethods.contains (b.paymentMethod.getD "") &&
  notEmpty b.paymentIntentId

/-! ## `POST /api/orders` -/

/-- `populate('items.product')`: every line is paired with the product document
its reference resolves to, `none` (JavaScript `null`) when that product has been
deleted. -/
def populate (db : Db) (items : List CartItem) : List (CartItem × Option Product) :=
  items.map fun item => (item, db.products item.product)

/-- The availability loop, `orders.js` lines 82-89.  The result is the response
that ends the request, if any.  Reading `item.product.inStock` of a `null`
product throws, which the `catch` block turns into a 500. -/
def verifyAvailable : List (CartItem × Option Product) → Option Response
  | [] => none
  | (_, none) :: _ => some serverError
  | (item, some p) :: rest =>
    if !p.inStock || p.quantity < (item.quantity : Int) then
      some ⟨400, p.name ++ " is no longer available in the requested quantity"⟩
    else verifyAvailable rest

/-- `cart.items.reduce((total, item) => total + (item.price * item.quantity), 0)`,
`orders.js` line 92. -/
def calcSubtotal (items : List CartItem) : ℚ :=
  items.foldl (fun total item => jsAdd total (jsMul item.price (item.quantity : ℚ))) 0

/-- `subtotal * 0.08`, line 93; the literal `0.08` is the binary64 number
nearest to 8/100. -/
def calcTax (subtotal : ℚ) : ℚ :=
  jsMul subtotal (toBinary64 (8 / 100))

/-- `subtotal > 100 ? 0 : 15`, line 94. -/
def calcShipping (subtotal : ℚ) : ℚ :=
  if subtotal > 100 then 0 else 15

/-- One element of `orderItems`, lines 98-105; `none` stands for the exception
thrown when the populated product is `null`. -/
def toOrderItem : CartItem × Option Product → Option OrderItem
  | (_, none) => none
  | (item, some p) =>
    some { product := item.product
           name := p.name
           price := item.price
           quantity := item.quantity
           sku := p.sku
           image := p.images.head?.getD "" }

/-- `Product.findByIdAndUpdate(id, { $inc: { quantity: d } })`: adds `d` to the
quantity of the product with that id, if there is one.  No `save` hook runs, so
`inStock` is left as it is. -/
def incQuantity (products : ProductId → Option Product) (id : ProductId) (d : Int) :
    ProductId → Option Product :=
  fun i => if i = id then (products i).map fun p => { p with quantity := p.quantity + d }
           else products i

/-- The stock loop of order placement, lines 123-128. -/
def decrementStock (products : ProductId → Option Product) (items : List CartItem) :
    ProductId → Option Product :=
  items.foldl (fun ps item => incQuantity ps item.product (-(item.quantity : Int))) products

/-- Modelled from the spec: `Cart.clearCart` of `models/Cart.js`, which is not
among the sources; the cart is "cleared on successful order placement or
explicit clear", that is, its item list becomes empty. -/
def Cart.clearCart (_c : Cart) : Cart :=
  { items := [] }

/-- Modelled from the spec: the `status` a new `Order` document gets from the
schema of `models/Order.js`, which is not among the sources; the status enum
starts at `pending`. -/
def initialOrderStatus : OrderStatus := OrderStatus.pending

/-- The array `orderItems`, `orders.js` lines 98-105: `cart.items.map` over the
populated lines, stopping at the first exception. -/
def buildOrderItems : List (CartItem × Option Product) → Option (List OrderItem)
  | [] => some []
  | x :: xs =>
    match toOrderItem x with
    | none => none
    | some oi => (buildOrderItems xs).map fun ois => oi :: ois

/-- The document handed to `Order.create`, `orders.js` lines 91-120: the totals
of lines 92-95 and the fields of lines 108-120. -/
def placedOrder (user : UserId) (body : OrderBody) (cart : Cart)
    (orderItems : List OrderItem) : Order :=
  let subtotal := calcSubtotal cart.items
  let tax := calcTax subtotal
  let shipping := calcShipping subtotal
  let total := jsAdd (jsAdd subtotal tax) shipping
  { user := user
    items := orderItems
    shippingAddress := body.shippingAddress
    billingAddress := body.billingAddress.getD body.shippingAddress
    subtotal := subtotal
    tax := tax
    shipping := shipping
    total := total
    paymentMethod := body.paymentMethod.getD ""
    paymentIntentId := body.paymentIntentId.getD ""
    paymentStatus := "completed"
    status := initialOrderStatus }

/-- The handler of `POST /api/orders`, `orders.js` lines 58-148, for the
authenticated user `user`. -/
def placeOrder (isEmail : String → Bool) (db : Db) (user : UserId) (body : OrderBody) :
    Response × Db :=
  if !validateOrderBody isEmail body then (⟨400, "Validation failed"⟩, db)
  else
    match db.carts user with
    | none => (⟨400, "Cart is empty"⟩, db)
    | some cart =>
      if cart.items.length = 0 then (⟨400, "Cart is empty"⟩, db)
      else
        match verifyAvailable (populate db cart.items) with
        | some r => (r, db)
        | none =>
          match buildOrderItems (populate db cart.items) with
          | none => (serverError, db)
          | some orderItems =>
            (⟨201, "Order created successfully"⟩,
              { db with
                orders := db.orders ++ [placedOrder user body cart orderItems]
                products := decrementStock db.products cart.items
                carts := fun u => if u = user then some cart.clearCart else db.carts u })

/-! ## `PUT /api/orders/:id/cancel` -/

/-- Modelled from the spec: `order.canBeCancelled()` of `models/Order.js`, which
is not among the sources; the "order status permits cancellation (not already
shipped/delivered/cancelled)", so `cancelled` is "reachable from
`pending`/`processing` only". -/
def Order.canBeCancelled (o : Order) : Bool :=
  match o.status with
  | OrderStatus.pending => true
  | OrderStatus.processing => true
  | OrderStatus.shipped => false
  | OrderStatus.delivered => false
  | OrderStatus.cancelled => false

/-- The restore loop of cancellation, `orders.js` lines 255-260. -/
def restoreStock (products : ProductId → Option Product) (items : List OrderItem) :
    ProductId → Option Product :=
  items.foldl (fun ps item => incQuantity ps item.product (item.quantity : Int)) products

/-- `Order.findOne({ _id: id, user: user })`. -/
def findOrderOfUser (db : Db) (id : OrderId) (user : UserId) : Option Order :=
  (db.orders[id]?).filter fun o => o.user = user

/-- The handler of `PUT /api/orders/:id/cancel`, `orders.js` lines 230-274. -/
def cancelOrder (db : Db) (user : UserId) (id : OrderId) : Response × Db :=
  match findOrderOfUser db id user with
  | none => (⟨404, "Order not found"⟩, db)
  | some order =>
    if !order.canBeCancelled then (⟨400, "Order cannot be cancelled"⟩, db)
    else
      (⟨200, "Order cancelled successfully"⟩,
        { db with
          orders := db.orders.set id { order with status := OrderStatus.cancelled }
          products := restoreStock db.products order.items })

/-! ## `PUT /api/admin/orders/:id/status` -/

/-- The array `validStatuses`, `admin.js` line 193. -/
def validStatuses : List String :=
  ["pending", "processing", "shipped", "delivered", "cancelled"]

/-- The enum value a status string of the request body denotes. -/
def OrderStatus.ofString (s : String) : Option OrderStatus :=
  if s = "pending" then some OrderStatus.pending
  else if s = "processing" then some OrderStatus.processing
  else if s = "shipped" then some OrderStatus.shipped
  else if s = "delivered" then some OrderStatus.delivered
  else if s = "cancelled" then some OrderStatus.cancelled
  else none

/-- The handler of `PUT /api/admin/orders/:id/status`, `admin.js` lines
190-226: `Order.findByIdAndUpdate(id, { status })` after the membership test. -/
def adminUpdateOrderStatus (db : Db) (id : OrderId) (status : String) : Response × Db :=
  if !validStatuses.contains status then (⟨400, "Invalid status"⟩, db)
  else
    match OrderStatus.ofString status, db.orders[id]? with
    | some st, some order =>
      (⟨200, ""⟩, { db with orders := db.orders.set id { order with status := st } })
    | _, _ => (⟨404, "Order not found"⟩, db)

/-- The handler of `DELETE /api/admin/products/:id`, `admin.js` lines 124-146. -/
def adminDeleteProduct (db : Db) (id : ProductId) : Response × Db :=
  match db.products id with
  | none => (⟨404, "Product not found"⟩, db)
  | some _ =>
    (⟨200, "Product deleted successfully"⟩,
      { db with products := fun i => if i = id then none else db.products i })

/-! ## Reviews -/

/-- `Math.round`: the nearest integer, halves rounded up. -/
def mathRound (x : ℚ) : ℤ :=
  ⌊x + 1 / 2⌋

/-- `Review.calcAverageRating(productId)`, `models/Review.js` lines 102-127,
run on the review collection `reviews`. -/
def calcAverageRating (reviews : List Review) (productId : ProductId)
    (products : ProductId → Option Product) : ProductId → Option Product :=
  let stats := reviews.filter fun r => r.product = productId && r.isApproved
  if stats.length > 0 then
    let averageRating : ℚ := (stats.map fun r => (r.rating : ℚ)).sum / (stats.length : ℚ)
    fun i =>
      if i = productId then
        (products i).map fun p =>
          { p with ratingAverage := (mathRound (averageRating * 10) : ℚ) / 10
                   ratingCount := stats.length }
      else products i
  else
    fun i =>
      if i = productId then
        (products i).map fun p => { p with ratingAverage := 0, ratingCount := 0 }
      else products i

/-- The JSON body of `POST /api/reviews`. -/
structure ReviewBody where
  productId : ProductId
  orderId : OrderId
  rating : Int
  title : String
  comment : String
  pros : Option (List String)
  cons : Option (List String)
deriving DecidableEq

/-- The characters matched by the white-space class of JavaScript regular
expressions. -/
def isJsSpace (c : Char) : Bool :=
  [0x9, 0xa, 0xb, 0xc, 0xd, 0x20, 0xa0, 0x1680, 0x2028, 0x2029, 0x202f, 0x205f, 0x3000,
    0xfeff].contains c.toNat ||
  (decide (0x2000 ≤ c.toNat) && decide (c.toNat ≤ 0x200a))

/-- The `trim()` sanitizer of the validation chains: leading and trailing white
space removed. -/
def jsTrim (s : String) : String :=
  String.mk ((s.data.dropWhile isJsSpace).reverse.dropWhile isJsSpace).reverse

/-- The validation chain of `POST /api/reviews`, `reviews.js` lines 133-139
(the two ids are well-formed by their type). -/
def validateReviewBody (b : ReviewBody) : Bool :=
  decide (1 ≤ b.rating) && decide (b.rating ≤ 5) &&
  decide (5 ≤ (jsTrim b.title).length) && decide ((jsTrim b.title).length ≤ 100) &&
  decide (10 ≤ (jsTrim b.comment).length) && decide ((jsTrim b.comment).length ≤ 1000) &&
  (b.pros.map fun l => decide (l.length ≤ 5)).getD true &&
  (b.cons.map fun l => decide (l.length ≤ 5)).getD true

/-- `Review.findOne({ product: productId, user: user })`. -/
def findReview (db : Db) (productId : ProductId) (user : UserId) : Option Review :=
  db.reviews.find? fun r => r.product = productId && r.user = user

/-- The handler of `POST /api/reviews`, `reviews.js` lines 140-232.  Saving the
review runs the `post('save')` hook, which recomputes the product rating. -/
def createReview (db : Db) (user : UserId) (body : ReviewBody) : Response × Db :=
  if !validateReviewBody body then (⟨400, "Validation failed"⟩, db)
  else
    match db.products body.productId with
    | none => (⟨404, "Product not found"⟩, db)
    | some _ =>
      match (db.orders[body.orderId]?).filter
          fun o => o.user = user && o.status = OrderStatus.delivered with
      | none => (⟨400, "Order not found or not eligible for review"⟩, db)
      | some order =>
        match order.items.find? fun item => item.product = body.productId with
        | none => (⟨400, "Product not found in this order"⟩, db)
        | some _ =>
          match findReview db body.productId user with
          | some _ => (⟨400, "You have already reviewed this product"⟩, db)
          | none =>
            let review : Review :=
              { product := body.productId
                user := user
                order := body.orderId
                rating := body.rating
                title := jsTrim body.title
                comment := jsTrim body.comment
                pros := body.pros.getD []
                cons := body.cons.getD []
                isApproved := true
                helpfulVotes := 0 }
            let reviews := db.reviews ++ [review]
            (⟨201, "Review created successfully"⟩,
              { db with
                reviews := reviews
                products := calcAverageRating reviews body.productId db.products })

/-- The handler of `PUT /api/reviews/:id/helpful`, `reviews.js` lines 277-305;
`review.save()` runs the `post('save')` hook as well. -/
def markReviewHelpful (db : Db) (id : Nat) : Response × Db :=
  match db.reviews[id]? with
  | none => (⟨404, "Review not found"⟩, db)
  | some review =>
    let reviews := db.reviews.set id { review with helpfulVotes := review.helpfulVotes + 1 }
    (⟨200, "Review marked as helpful"⟩,
      { db with
        reviews := reviews
        products := calcAverageRating reviews review.product db.products })

/-! ## Sequences of requests -/

/-- The requests of the order, admin and review routes modelled here.  They
include every route that writes the `Order` or the `Review` collection. -/
inductive Request where
  | placeOrder (user : UserId) (body : OrderBody)
  | cancelOrder (user : UserId) (id : OrderId)
  | adminUpdateOrderStatus (id : OrderId) (status : String)
  | adminDeleteProduct (id : ProductId)
  | createReview (user : UserId) (body : ReviewBody)
  | markReviewHelpful (id : Nat)

/-- Serving one request. -/
def handle (isEmail : String → Bool) (db : Db) : Request → Response × Db
  | Request.placeOrder user body => placeOrder isEmail db user body
  | Request.cancelOrder user id => cancelOrder db user id
  | Request.adminUpdateOrderStatus id status => adminUpdateOrderStatus db id status
  | Request.adminDeleteProduct id => adminDeleteProduct db id
  | Request.createReview user body => createReview db user body
  | Request.markReviewHelpful id => markReviewHelpful db id

/-- The state after serving the requests one after the other. -/
def run (isEmail : String → Bool) (db : Db) (reqs : List Request) : Db :=
  reqs.foldl (fun d r => (handle isEmail d r).2) db

/-! ## `GET /api/orders/:id` -/

/-- The handler of `GET /api/orders/:id`, `orders.js` lines 194-225.  It reads
only; the success envelope has no message. -/
def getOrder (db : Db) (user : UserId) (id : OrderId) : Response :=
  match findOrderOfUser db id user with
  | none => ⟨404, "Order not found"⟩
  | some _ => ⟨200, ""⟩

/-! ## `POST /api/orders` when a stock update fails -/

/-- The stock loop of `orders.js` lines 123-128 when the database may fail:
`fails i` tells whether the `i`-th call of `Product.findByIdAndUpdate` throws
(calls are counted from the first argument on).  The result is the product
collection at the moment the loop stops and whether it ran to its end. -/
def stockLoop (fails : Nat → Bool) :
    Nat → (ProductId → Option Product) → List CartItem → (ProductId → Option Product) × Bool
  | _, products, [] => (products, true)
  | i, products, item :: rest =>
    if fails i then (products, false)
    else stockLoop fails (i + 1) (incQuantity products item.product (-(item.quantity : Int))) rest

/-- The handler of `POST /api/orders` with failing stock updates.  An exception
of the loop is thrown after `Order.create` has stored the order and is caught
at line 141: the response is the 500 and `cart.clearCart()` is not reached. -/
def placeOrderWithFaults (isEmail : String → Bool) (fails : Nat → Bool) (db : Db)
    (user : UserId) (body : OrderBody) : Response × Db :=
  if !validateOrderBody isEmail body then (⟨400, "Validation failed"⟩, db)
  else
    match db.carts user with
    | none => (⟨400, "Cart is empty"⟩, db)
    | some cart =>
      if cart.items.length = 0 then (⟨400, "Cart is empty"⟩, db)
      else
        match verifyAvailable (populate db cart.items) with
        | some r => (r, db)
        | none =>
          match buildOrderItems (populate db cart.items) with
          | none => (serverError, db)
          | some orderItems =>
            match stockLoop fails 0 db.products cart.items with
            | (products, true) =>
              (⟨201, "Order created successfully"⟩,
                { db with
                  orders := db.orders ++ [placedOrder user body cart orderItems]
                  products := products
                  carts := fun u => if u = user then some cart.clearCart else db.carts u })
            | (products, false) =>
              (serverError,
                { db with
                  orders := db.orders ++ [placedOrder user body cart orderItems]
                  products := products })

/-! ## Interleaved order placements

Every `await` of a handler gives other requests the chance to run.  The
handler of `POST /api/orders` is cut at `await Order.create`: what comes before
reads the cart with its populated products and checks it, what comes after
writes. -/

/-- The local variables of a `POST /api/orders` request that has passed the
checks of lines 60-89 and built `orderItems` (lines 91-105). -/
structure PendingOrder where
  user : UserId
  body : OrderBody
  cart : Cart
  orderItems : List OrderItem

/-- The first part of the handler, lines 60-105: it ends with a response or
with the request suspended before its writes. -/
def beginOrder (isEmail : String → Bool) (db : Db) (user : UserId) (body : OrderBody) :
    Except Response PendingOrder :=
  if !validateOrderBody isEmail body then Except.error ⟨400, "Validation failed"⟩
  else
    match db.carts user with
    | none => Except.error ⟨400, "Cart is empty"⟩
    | some cart =>
      if cart.items.length = 0 then Except.error ⟨400, "Cart is empty"⟩
      else
        match verifyAvailable (populate db cart.items) with
        | some r => Except.error r
        | none =>
          match buildOrderItems (populate db cart.items) with
          | none => Except.error serverError
          | some orderItems => Except.ok ⟨user, body, cart, orderItems⟩

/-- The second part of the handler, lines 107-140, run on the database as it is
when the request resumes. -/
def finishOrder (db : Db) (p : PendingOrder) : Response × Db :=
  (⟨201, "Order created successfully"⟩,
    { db with
      orders := db.orders ++ [placedOrder p.user p.body p.cart p.orderItems]
      products := decrementStock db.products p.cart.items
      carts := fun u => if u = p.user then some p.cart.clearCart else db.carts u })

/-- What the server does next: a request arrives and runs its first part, or
the suspended request of a user runs its second part. -/
inductive Event where
  | arrive (user : UserId) (body : OrderBody)
  | resume (user : UserId)

/-- The database, the suspended requests and the responses sent so far. -/
structure Server where
  db : Db
  suspended : UserId → Option PendingOrder
  responses : List (UserId × Response)

/-- One event. -/
def Server.step (isEmail : String → Bool) (s : Server) : Event → Server
  | Event.arrive user body =>
    match beginOrder isEmail s.db user body with
    | Except.error r => { s with responses := s.responses ++ [(user, r)] }
    | Except.ok p => { s with suspended := fun u => if u = user then some p else s.suspended u }
  | Event.resume user =>
    match s.suspended user with
    | none => s
    | some p =>
      { db := (finishOrder s.db p).2
        suspended := fun u => if u = user then none else s.suspended u
        responses := s.responses ++ [(user, (finishOrder s.db p).1)] }

/-- A server with no request in flight. -/
def Server.idle (db : Db) : Server :=
  { db := db, suspended := fun _ => none, responses := [] }

/-- The events of a schedule, one after the other. -/
def Server.run (isEmail : String → Bool) (s : Server) (events : List Event) : Server :=
  events.foldl (Server.step isEmail) s

/-! ## `POST /api/cart/add` -/

/-- The JSON body of `POST /api/cart/add`. -/
structure CartAddBody where
  productId : ProductId
  quantity : Int
deriving DecidableEq

/-- The validation chain of `POST /api/cart/add`, `cart.js` lines 72-73:
`isInt({ min: 1, max: 50 })` (the product id is well-formed by its type). -/
def validateCartAdd (b : CartAddBody) : Bool :=
  decide (1 ≤ b.quantity) && decide (b.quantity ≤ 50)

/-- Modelled from the spec: `Cart.addItem` of `models/Cart.js`, which is not
among the sources; a cart is a "collection of (product reference, quantity,
price-at-add-time) tuples", and adding an item puts such a tuple into it. -/
def Cart.addItem (c : Cart) (productId : ProductId) (quantity : Nat) (price : ℚ) : Cart :=
  { items := c.items ++ [⟨productId, quantity, price⟩] }

/-- The handler of `POST /api/cart/add`, `cart.js` lines 74-135. -/
def addToCart (db : Db) (user : UserId) (body : CartAddBody) : Response × Db :=
  if !validateCartAdd body then (⟨400, "Validation failed"⟩, db)
  else
    match db.products body.productId with
    | none => (⟨404, "Product not found"⟩, db)
    | some product =>
      if !product.isActive || !product.inStock then (⟨400, "Product is not available"⟩, db)
      else if product.quantity < body.quantity then
        (⟨400, "Only " ++ toString product.quantity ++ " items available in stock"⟩, db)
      else
        let cart := (db.carts user).getD { items := [] }
        (⟨200, "Item added to cart successfully"⟩,
          { db with
            carts := fun u =>
              if u = user then
                some (cart.addItem body.productId body.quantity.toNat product.price)
              else db.carts u })

/-! ## The `auth` middleware and the payment routes -/

/-- The `auth` middleware that each of `orders.js`, `cart.js`, `reviews.js` and
`payment.js` defines (e.g. `orders.js` lines 12-41).  `token` is the
`Authorization` header without its `Bearer ` part, `verify` is `jwt.verify`
followed by reading `decoded.id` (`none` when it throws) and `userExists` is
`User.findById`. -/
def auth (verify : String → Option UserId) (userExists : UserId → Bool)
    (token : Option String) : Except Response UserId :=
  match token with
  | none => Except.error ⟨401, "No token, authorization denied"⟩
  | some t =>
    if t = "" then Except.error ⟨401, "No token, authorization denied"⟩
    else
      match verify t with
      | none => Except.error ⟨401, "Token is not valid"⟩
      | some id =>
        if userExists id then Except.ok id else Except.error ⟨401, "Token is not valid"⟩

/-- The JSON body of `POST /api/payment/create-intent`. -/
structure PaymentIntentBody where
  amount : Int
  currency : Option String
deriving DecidableEq

/-- The validation chain of `POST /api/payment/create-intent`, `payment.js`
lines 58-59. -/
def validatePaymentIntent (b : PaymentIntentBody) : Bool :=
  decide (1 ≤ b.amount) &&
  (b.currency.map fun c => ["usd", "eur", "gbp"].contains c).getD true

/-- The handler of `POST /api/payment/create-intent`, `payment.js` lines 60-103.
`stripe` is the module variable of lines 10-19: the client, or `none` when
`STRIPE_SECRET_KEY` is missing or does not start with `sk_`.  The client maps
the amount in cents and the currency to the id of the created intent, or to
`none` when the call throws. -/
def createPaymentIntent (stripe : Option (Int → String → Option String))
    (body : PaymentIntentBody) : Response :=
  match stripe with
  | none => ⟨503, "Payment service is not available. Please configure Stripe keys."⟩
  | some client =>
    if !validatePaymentIntent body then ⟨400, "Validation failed"⟩
    else
      match client (body.amount * 100) (body.currency.getD "usd") with
      | none => ⟨500, "Payment processing error"⟩
      | some _ => ⟨200, ""⟩

/-! ## The response statements of the route files -/

/-- The route handlers of `orders.js`, `cart.js`, `reviews.js`, `products.js`,
`admin.js` and `payment.js`, in the order of the files. -/
inductive Route where
  | ordersCreate
  | ordersList
  | ordersGet
  | ordersCancel
  | cartGet
  | cartAdd
  | cartUpdate
  | cartRemove
  | cartClear
  | reviewsOfProduct
  | reviewsCreate
  | reviewsOfUser
  | reviewsHelpful
  | productsList
  | productsCategories
  | productsBrands
  | productsFeatured
  | productsGet
  | productsBySlug
  | productsRelated
  | adminDashboard
  | adminProducts
  | adminUpdateProduct
  | adminDeleteProduct
  | adminOrders
  | adminUpdateOrderStatus
  | adminUsers
  | paymentCreateIntent
  | paymentConfirm
  | paymentWebhook
deriving DecidableEq

/-- Whether the route runs the `auth` middleware of its file. -/
def Route.usesAuth : Route → Bool
  | Route.ordersCreate => true
  | Route.ordersList => true
  | Route.ordersGet => true
  | Route.ordersCancel => true
  | Route.cartGet => true
  | Route.cartAdd => true
  | Route.cartUpdate => true
  | Route.cartRemove => true
  | Route.cartClear => true
  | Route.reviewsCreate => true
  | Route.reviewsOfUser => true
  | Route.reviewsHelpful => true
  | Route.paymentCreateIntent => true
  | Route.paymentConfirm => true
  | _ => false

/-- The statuses of the three response statements of `auth`. -/
def authStatuses : List Nat := [401, 401, 401]

/-- The statuses of the response statements in the body of each handler, in
source order; a `res.json` without `res.status` sends 200. -/
def Route.handlerStatuses : Route → List Nat
  | Route.ordersCreate => [400, 400, 400, 201, 500]
  | Route.ordersList => [200, 500]
  | Route.ordersGet => [404, 200, 404, 500]
  | Route.ordersCancel => [404, 400, 200, 500]
  | Route.cartGet => [200, 500]
  | Route.cartAdd => [400, 404, 400, 400, 200, 500]
  | Route.cartUpdate => [400, 404, 400, 404, 200, 404, 500]
  | Route.cartRemove => [404, 200, 500]
  | Route.cartClear => [404, 200, 500]
  | Route.reviewsOfProduct => [200, 500]
  | Route.reviewsCreate => [400, 404, 400, 400, 400, 201, 400, 500]
  | Route.reviewsOfUser => [200, 500]
  | Route.reviewsHelpful => [404, 200, 500]
  | Route.productsList => [400, 200, 500]
  | Route.productsCategories => [200, 500]
  | Route.productsBrands => [200, 500]
  | Route.productsFeatured => [200, 500]
  | Route.productsGet => [404, 200, 404, 500]
  | Route.productsBySlug => [404, 200, 500]
  | Route.productsRelated => [404, 200, 500]
  | Route.adminDashboard => [200, 500]
  | Route.adminProducts => [200, 500]
  | Route.adminUpdateProduct => [404, 200, 500]
  | Route.adminDeleteProduct => [404, 200, 500]
  | Route.adminOrders => [200, 500]
  | Route.adminUpdateOrderStatus => [400, 404, 200, 500]
  | Route.adminUsers => [200, 500]
  | Route.paymentCreateIntent => [503, 400, 200, 500]
  | Route.paymentConfirm => [400, 200, 400, 500]
  | Route.paymentWebhook => [400, 200]

/-- The statuses a request to the route can be answered with by the code of the
route file: those of `auth`, when the route uses it, and those of the handler. -/
def Route.responseStatuses (r : Route) : List Nat :=
  (if r.usesAuth then authStatuses else []) ++ r.handlerStatuses

/-- The HTTP statuses the specification lists. -/
def conventionalStatuses : List Nat := [200, 201, 400, 401, 404, 500]

/-! ## The product model: the slug -/

/-- `String.prototype.toLowerCase` on one character, as far as the slug can
tell: the ASCII capital letters, and the two other characters whose lower case
contains an ASCII character (the Kelvin sign becomes `k`, the dotted capital I
becomes `i` followed by a combining dot).  The lower case of any other
character lies outside ASCII, as the character itself, and the slug drops
both; such a character is left as it is. -/
def jsLowerChar (c : Char) : List Char :=
  if 65 ≤ c.toNat ∧ c.toNat ≤ 90 then [Char.ofNat (c.toNat + 32)]
  else if c.toNat = 0x212a then ['k']
  else if c.toNat = 0x130 then ['i', Char.ofNat 0x307]
  else [c]

/-- `toLowerCase()`. -/
def toLowerCase (s : String) : String :=
  String.mk (s.data.flatMap jsLowerChar)

/-- The characters of the class `[a-z0-9 -]`, which the first `replace` of the
slug hook keeps. -/
def isSlugSource (c : Char) : Bool :=
  (decide (97 ≤ c.toNat) && decide (c.toNat ≤ 122)) ||
  (decide (48 ≤ c.toNat) && decide (c.toNat ≤ 57)) ||
  c == ' ' || c == '-'

/-- `replace(/p+/g, r)` for a character class `p`: every maximal run of
characters of the class is replaced by the single character `r`. -/
def replaceRuns (p : Char → Bool) (r : Char) : List Char → List Char
  | [] => []
  | [c] => if p c then [r] else [c]
  | c :: d :: cs =>
    if p c then
      if p d then replaceRuns p r (d :: cs) else r :: replaceRuns p r (d :: cs)
    else c :: replaceRuns p r (d :: cs)

/-- The slug that the `pre('save')` hook of `models/Product.js` (lines 157-167)
assigns for a name: `toLowerCase()`, then three calls of `replace` (every
character outside the class `[a-z0-9 -]` is removed, every run of white space
becomes one hyphen, every run of hyphens becomes one hyphen) and `trim('-')`,
which is `trim()` since `String.prototype.trim` takes no argument; the schema
option `lowercase: true` of `slug` lower-cases the assigned value. -/
def generateSlug (name : String) : String :=
  toLowerCase (jsTrim (String.mk
    (replaceRuns (fun c => c == '-') '-'
      (replaceRuns isJsSpace '-' ((toLowerCase name).data.filter isSlugSource)))))

/-! ## `GET /api/products`: pagination -/

/-- The `pagination` object of the response of `GET /api/products`, without the
length of the page itself. -/
structure Pagination where
  current : Int
  total : Int
  totalCount : Nat
  hasNext : Bool
  hasPrev : Bool
deriving DecidableEq

/-- `skip`, `products.js` line 104. -/
def paginationSkip (pageNum limitNum : Int) : Int :=
  (pageNum - 1) * limitNum

/-- The pagination info of `products.js` lines 117-131, for the parsed `page`
and `limit` and the count `total` of the matching documents. -/
def paginationInfo (pageNum limitNum : Int) (total : Nat) : Pagination :=
  let totalPages : Int := ⌈(total : ℚ) / (limitNum : ℚ)⌉
  { current := pageNum
    total := totalPages
    totalCount := total
    hasNext := decide (pageNum < totalPages)
    hasPrev := decide (pageNum > 1) }

/-! ## `PUT /api/cart/update` -/

/-- The JSON body of `PUT /api/cart/update`. -/
structure CartUpdateBody where
  productId : ProductId
  quantity : Int
deriving DecidableEq

/-- The validation chain of `PUT /api/cart/update`, `cart.js` lines 142-143:
`isInt({ min: 0, max: 50 })`. -/
def validateCartUpdate (b : CartUpdateBody) : Bool :=
  decide (0 ≤ b.quantity) && decide (b.quantity ≤ 50)

/-- The handler of `PUT /api/cart/update`, `cart.js` lines 144-207.  The method
`cart.updateItemQuantity` of `models/Cart.js` is not among the sources and is a
parameter: it returns the updated cart or throws an error with a message.  The
`catch` block answers 404 for the message "Item not found in cart" and 500 for
any other. -/
def updateCart (updateItemQuantity : Cart → ProductId → Int → Except String Cart) (db : Db)
    (user : UserId) (body : CartUpdateBody) : Response × Db :=
  if !validateCartUpdate body then (⟨400, "Validation failed"⟩, db)
  else
    match db.products body.productId with
    | none => (⟨404, "Product not found"⟩, db)
    | some product =>
      if decide (body.quantity > 0) && decide (product.quantity < body.quantity) then
        (⟨400, "Only " ++ toString product.quantity ++ " items available in stock"⟩, db)
      else
        match db.carts user with
        | none => (⟨404, "Cart not found"⟩, db)
        | some cart =>
          match updateItemQuantity cart body.productId body.quantity with
          | Except.error message =>
            if message = "Item not found in cart" then (⟨404, "Item not found in cart"⟩, db)
            else (serverError, db)
          | Except.ok cart' =>
            (⟨200, "Cart updated successfully"⟩,
              { db with carts := fun u => if u = user then some cart' else db.carts u })

/-! ## The checkout and cart pages -/

/-- The state `shippingAddress` of the checkout form, `Checkout.jsx` lines
21-30. -/
structure ShippingForm where
  fullName : String
  email : String
  phone : String
  address : String
  city : String
  state : String
  zipCode : String
  country : String
deriving DecidableEq

/-- The state `billingAddress` of the checkout form, `Checkout.jsx` lines
31-38. -/
structure BillingForm where
  fullName : String
  address : String
  city : String
  state : String
  zipCode : String
  country : String
deriving DecidableEq

/-- The state of the checkout form. -/
structure CheckoutForm where
  shippingAddress : ShippingForm
  billingAddress : BillingForm
  useSameAddress : Bool
deriving DecidableEq

/-- `validateForm`, `Checkout.jsx` lines 83-97. -/
def validateForm (f : CheckoutForm) : Bool :=
  if f.shippingAddress.fullName = "" || f.shippingAddress.email = "" ||
      f.shippingAddress.address = "" || f.shippingAddress.city = "" ||
      f.shippingAddress.state = "" || f.shippingAddress.zipCode = "" then false
  else if !f.useSameAddress &&
      (f.billingAddress.fullName = "" || f.billingAddress.address = "" ||
        f.billingAddress.city = "" || f.billingAddress.state = "" ||
        f.billingAddress.zipCode = "") then false
  else true

/-- The shipping form object as the server reads it: the keys `name` and
`street`, which the object does not have, are absent. -/
def ShippingForm.toAddress (a : ShippingForm) : Address :=
  { name := none
    email := some a.email
    phone := some a.phone
    street := none
    city := some a.city
    state := some a.state
    zipCode := some a.zipCode
    country := some a.country }

/-- The billing form object as the server reads it. -/
def BillingForm.toAddress (a : BillingForm) : Address :=
  { name := none
    email := none
    phone := none
    street := none
    city := some a.city
    state := some a.state
    zipCode := some a.zipCode
    country := some a.country }

/-- The fields of `orderData`, `Checkout.jsx` lines 150-165, that the handler
of `POST /api/orders` reads (`shippingAddress`, `billingAddress`,
`paymentMethod`, `paymentIntentId`); `paymentIntentId` is
`result.paymentIntent.id`. -/
def orderData (f : CheckoutForm) (paymentIntentId : String) : OrderBody :=
  { shippingAddress := f.shippingAddress.toAddress
    billingAddress :=
      some (if f.useSameAddress then f.shippingAddress.toAddress
            else f.billingAddress.toAddress)
    paymentMethod := some "stripe"
    paymentIntentId := some paymentIntentId }

/-- The `subtotal` of the cart page and of the checkout page (`Cart.jsx` line
12, `Checkout.jsx` line 41): `cart.reduce` over the cart lines with their
populated products, at the current price of each product. -/
def pageSubtotal (cart : List (CartItem × Product)) : ℚ :=
  cart.foldl (fun sum item => jsAdd sum (jsMul item.2.price (item.1.quantity : ℚ))) 0

/-- `subtotal * 0.08`, `Cart.jsx` line 13 and `Checkout.jsx` line 42. -/
def pageTax (subtotal : ℚ) : ℚ :=
  jsMul subtotal (toBinary64 (8 / 100))

/-- `subtotal > 50 ? 0 : 9.99`, `Cart.jsx` line 14 and `Checkout.jsx` line 43;
the literal `9.99` is the binary64 number nearest to 999/100. -/
def pageShipping (subtotal : ℚ) : ℚ :=
  if subtotal > 50 then 0 else toBinary64 (999 / 100)

/-- `subtotal + tax + shipping`, `Cart.jsx` line 15 and `Checkout.jsx` line 44;
the checkout page sends it as the `amount` of the payment intent. -/
def pageTotal (cart : List (CartItem × Product)) : ℚ :=
  jsAdd (jsAdd (pageSubtotal cart) (pageTax (pageSubtotal cart)))
    (pageShipping (pageSubtotal cart))

/-! ## The discount percentage -/

/-- The virtual `discountPercentage` of `models/Product.js`, lines 176-181, in
binary64 arithmetic: `Math.round(((originalPrice - price) / originalPrice) * 100)`
when `originalPrice` is truthy and greater than `price`, and 0 otherwise. -/
def Product.discountPercentage (p : Product) : Int :=
  if p.originalPrice ≠ 0 ∧ p.originalPrice > p.price then
    mathRound (jsMul (jsDiv (jsSub p.originalPrice p.price) p.originalPrice) 100)
  else 0

/-! ## Concrete data used in the examples -/

/-- A complete shipping address. -/
def sampleAddress : Address :=
  { name := some "Ann Lee", email := some "ann@example.com", phone := some "555-0100",
    street := some "1 Main St", city := some "Springfield", state := some "IL",
    zipCode := some "62701", country := some "US" }

/-- A request body that passes the validation chain of `POST /api/orders`. -/
def sampleBody : OrderBody :=
  { shippingAddress := sampleAddress, billingAddress := none,
    paymentMethod := some "credit_card", paymentIntentId := some "pi_1" }

/-- An `isEmail` check for the examples: it accepts the address of
`sampleAddress`. -/
def sampleIsEmail (s : String) : Bool := s == "ann@example.com"

/-- An active product with five units in stock at the price 10. -/
def productA : Product :=
  { name := "Product A", sku := "SKU-A", price := 10, originalPrice := 0, quantity := 5,
    inStock := true, isActive := true, images := [], ratingAverage := 0, ratingCount := 0 }

/-- One product (id 1, five in stock) and user 7 whose cart holds two of it at
the captured price 10. -/
def dbScenario : Db :=
  { products := fun i => if i = 1 then some productA else none
    carts := fun u => if u = 7 then some { items := [⟨1, 2, 10⟩] } else none
    orders := []
    reviews := [] }

/-- Product 1 has been deleted by the administrator while the cart of user 7
still refers to it; the second line asks for five units of product 2, of which
one is in stock. -/
def dbDangling : Db :=
  { products := fun i => if i = 2 then some { productA with quantity := 1 } else none
    carts := fun u => if u = 7 then some { items := [⟨1, 1, 10⟩, ⟨2, 5, 10⟩] } else none
    orders := []
    reviews := [] }

/-- The cart of user 7 asks for six units of product 1, of which five are in
stock. -/
def dbExcess : Db :=
  { products := fun i => if i = 1 then some productA else none
    carts := fun u => if u = 7 then some { items := [⟨1, 6, 10⟩] } else none
    orders := []
    reviews := [] }

/-- Product 1 has been deactivated (`isActive = false`) with five units left;
the cart of user 7 holds one unit of it. -/
def dbInactive : Db :=
  { products := fun i => if i = 1 then some { productA with isActive := false } else none
    carts := fun u => if u = 7 then some { items := [⟨1, 1, 10⟩] } else none
    orders := []
    reviews := [] }

/-- User 7 has a cart without lines. -/
def dbEmptyCart : Db :=
  { products := fun i => if i = 1 then some productA else none
    carts := fun u => if u = 7 then some { items := [] } else none
    orders := []
    reviews := [] }

/-- The order of the scenario once stored, with a given owner and status. -/
def sampleOrder (user : UserId) (status : OrderStatus) : Order :=
  { user := user
    items := [{ product := 1, name := "Product A", price := 10, quantity := 2,
                sku := "SKU-A", image := "" }]
    shippingAddress := sampleAddress
    billingAddress := sampleAddress
    subtotal := 20
    tax := toBinary64 (8 / 5)
    shipping := 15
    total := toBinary64 (183 / 5)
    paymentMethod := "credit_card"
    paymentIntentId := "pi_1"
    paymentStatus := "completed"
    status := status }

/-- Three units of product 1 in stock and one order (id 0) of user 7 for two
units, in the given status. -/
def dbWithOrder (status : OrderStatus) : Db :=
  { products := fun i => if i = 1 then some { productA with quantity := 3 } else none
    carts := fun _ => none
    orders := [sampleOrder 7 status]
    reviews := [] }

/-- The scenario state after the catalog price of product 1 has been raised
to 99. -/
def dbRepriced : Db :=
  { products := fun i => if i = 1 then some { productA with price := 99 } else none
    carts := fun u => if u = 7 then some { items := [⟨1, 2, 10⟩] } else none
    orders := []
    reviews := [] }

/-- A review request of product 1, bought with order 0, that passes the
validation chain of `POST /api/reviews`. -/
def sampleReviewBody : ReviewBody :=
  { productId := 1, orderId := 0, rating := 5, title := "  Great laptop ",
    comment := "Works well, fast delivery.", pros := none, cons := none }

/-- A stored review of product 1 by user 7. -/
def sampleReview : Review :=
  { product := 1, user := 7, order := 0, rating := 4, title := "Good value",
    comment := "Does what it says.", pros := [], cons := [], isApproved := true,
    helpfulVotes := 0 }

/-- User 7 has a delivered order (id 0) for product 1 and has reviewed that
product. -/
def dbReviewed : Db :=
  { products := fun i => if i = 1 then some productA else none
    carts := fun _ => none
    orders := [sampleOrder 7 OrderStatus.delivered]
    reviews := [sampleReview] }

/-- As `dbReviewed`, after the administrator has deleted product 1. -/
def dbReviewedDeleted : Db :=
  { products := fun _ => none
    carts := fun _ => none
    orders := [sampleOrder 7 OrderStatus.delivered]
    reviews := [sampleReview] }

/-- Order 0 of user 7 is still pending and product 1 has been deleted. -/
def dbPendingDeleted : Db :=
  { products := fun _ => none
    carts := fun _ => none
    orders := [sampleOrder 7 OrderStatus.pending]
    reviews := [] }

/-- Three reviews of product 1, the second one not approved, and a review of
product 2. -/
def sampleReviews : List Review :=
  [{ sampleReview with rating := 4 },
   { sampleReview with user := 8, rating := 1, isApproved := false },
   { sampleReview with user := 9, rating := 5 },
   { sampleReview with product := 2, rating := 2 }]

/-- User 7 has a cart of two lines: one unit of product 1 and two units of
product 2; both products have five units in stock. -/
def dbTwoLines : Db :=
  { products := fun i => if i = 1 ∨ i = 2 then some productA else none
    carts := fun u => if u = 7 then some { items := [⟨1, 1, 10⟩, ⟨2, 2, 10⟩] } else none
    orders := []
    reviews := [] }

/-- One unit of product 1 is left; users 7 and 8 each have one unit of it in
their cart. -/
def dbRace : Db :=
  { products := fun i => if i = 1 then some { productA with quantity := 1 } else none
    carts := fun u => if u = 7 ∨ u = 8 then some { items := [⟨1, 1, 10⟩] } else none
    orders := []
    reviews := [] }

/-- The schedule in which the requests of users 7 and 8 both run their checks
before either of them writes. -/
def raceSchedule : List Event :=
  [Event.arrive 7 sampleBody, Event.arrive 8 sampleBody, Event.resume 7, Event.resume 8]

/-- Two units of product 1 are in stock, flagged `inStock`, and the cart of
user 7 holds both. -/
def dbSellOut : Db :=
  { products := fun i => if i = 1 then some { productA with quantity := 2 } else none
    carts := fun u => if u = 7 then some { items := [⟨1, 2, 10⟩] } else none
    orders := []
    reviews := [] }

/-- Product 1 is sold out and flagged so (`inStock = false`), and user 7 has a
pending order (id 0) for two units of it. -/
def dbSoldOutWithOrder : Db :=
  { products := fun i =>
      if i = 1 then some { productA with quantity := 0, inStock := false } else none
    carts := fun _ => none
    orders := [sampleOrder 7 OrderStatus.pending]
    reviews := [] }

/-- Five units of product 1 are in stock and the cart of user 7 has two lines
for it, of three units each. -/
def dbDuplicateLines : Db :=
  { products := fun i => if i = 1 then some productA else none
    carts := fun u => if u = 7 then some { items := [⟨1, 3, 10⟩, ⟨1, 3, 10⟩] } else none
    orders := []
    reviews := [] }

/-- A stand-in for `cart.updateItemQuantity` in the examples: it throws "Item not
found in cart" when the cart has no line for the product, removes the line for
a quantity of 0 and sets the quantity of the line otherwise. -/
def sampleUpdateItemQuantity (cart : Cart) (productId : ProductId) (quantity : Int) :
    Except String Cart :=
  if cart.items.any (fun l => l.product = productId) then
    if quantity ≤ 0 then
      Except.ok { items := cart.items.filter fun l => l.product ≠ productId }
    else
      Except.ok { items := cart.items.map fun l =>
        if l.product = productId then { l with quantity := quantity.toNat } else l }
  else Except.error "Item not found in cart"

/-- A checkout form filled in as the page asks: every field that `validateForm`
looks at is non-empty, the billing address is the shipping address. -/
def sampleForm : CheckoutForm :=
  { shippingAddress :=
      { fullName := "Ann Lee", email := "ann@example.com", phone := "555-0100",
        address := "1 Main St", city := "Springfield", state := "IL", zipCode := "62701",
        country := "US" }
    billingAddress :=
      { fullName := "Ann Lee", address := "", city := "", state := "", zipCode := "",
        country := "US" }
    useSameAddress := true }

/-- The cart of the scenario as the pages hold it: two units of product A, whose
current price is the captured price 10. -/
def scenarioPageCart : List (CartItem × Product) :=
  [(⟨1, 2, 10⟩, productA)]

/-- A product reduced from 40 to 17. -/
def productReduced : Product :=
  { productA with price := 17, originalPrice := 40 }

/-! ## Specification vocabulary -/

/-- The total quantity of product `i` over the lines of a cart. -/
def orderedQuantity (items : List CartItem) (i : ProductId) : Nat :=
  ((items.filter fun l => l.product = i).map fun l => l.quantity).sum

/-- The total quantity of product `i` over the lines of an order. -/
def restoredQuantity (items : List OrderItem) (i : ProductId) : Nat :=
  ((items.filter fun l => l.product = i).map fun l => l.quantity).sum

/-- The two product collections agree on everything but the `price` field. -/
def SameUpToPrice (ps qs : ProductId → Option Product) : Prop :=
  ∀ i, (ps i).map (fun p => { p with price := 0 }) = (qs i).map (fun p => { p with price := 0 })

/-- At most one review per (user, product) pair. -/
def UniqueReviews (db : Db) : Prop :=
  (db.reviews.map fun r => (r.user, r.product)).Nodup

/-- The request passes the checks that `POST /api/reviews` makes before it looks
for an existing review: valid body, existing product, a delivered order of the
user, and a line of that order for the product. -/
def ReviewChecksPass (db : Db) (user : UserId) (body : ReviewBody) : Prop :=
  validateReviewBody body = true ∧
  db.products body.productId ≠ none ∧
  ∃ order, db.orders[body.orderId]? = some order ∧ order.user = user ∧
    order.status = OrderStatus.delivered ∧
    ∃ item ∈ order.items, item.product = body.productId

/-- The request names a delivered order of the user that has a line for the
reviewed product. -/
def EligibleOrder (db : Db) (user : UserId) (body : ReviewBody) : Prop :=
  ∃ order, db.orders[body.orderId]? = some order ∧ order.user = user ∧
    order.status = OrderStatus.delivered ∧
    ∃ item ∈ order.items, item.product = body.productId

/-- The ratings of the approved reviews of a product. -/
def approvedRatings (reviews : List Review) (productId : ProductId) : List Int :=
  (reviews.filter fun r => r.product = productId && r.isApproved).map fun r => r.rating

/-- The arithmetic mean of a list of ratings. -/
def meanRating (ratings : List Int) : ℚ :=
  (ratings.map fun (r : Int) => (r : ℚ)).sum / (ratings.length : ℚ)

/-- Every product has `inStock` exactly when its quantity is positive. -/
def StockFlagConsistent (db : Db) : Prop :=
  ∀ i p, db.products i = some p → p.inStock = decide (0 < p.quantity)

/-- No product has a negative quantity. -/
def NonNegativeStock (db : Db) : Prop :=
  ∀ i p, db.products i = some p → 0 ≤ p.quantity

/-- No cart has two lines for the same product. -/
def DistinctLines (db : Db) : Prop :=
  ∀ u cart, db.carts u = some cart → (cart.items.map fun l => l.product).Nodup

/-- The request is an order placement or a cancellation. -/
def Request.isPlacementOrCancellation : Request → Bool
  | Request.placeOrder _ _ => true
  | Request.cancelOrder _ _ => true
  | _ => false

/-- The characters a slug may consist of: `a`-`z`, `0`-`9` and the hyphen. -/
def isSlugChar (c : Char) : Bool :=
  (decide (97 ≤ c.toNat) && decide (c.toNat ≤ 122)) ||
  (decide (48 ≤ c.toNat) && decide (c.toNat ≤ 57)) ||
  c == '-'

/-- The characters of the slug after the three calls of `replace`, before the
trailing `trim` and the lower-casing of the schema. -/
def slugChars (name : String) : List Char :=
  replaceRuns (fun c => c == '-') '-'
    (replaceRuns isJsSpace '-' ((toLowerCase name).data.filter isSlugSource))

/-- The sum of price times quantity over lines given as (price, quantity), as
JavaScript computes it: a `reduce` from 0 in which every product and every
addition is rounded to binary64. -/
def jsSum (lines : List (ℚ × ℚ)) : ℚ :=
  lines.foldl (fun total x => jsAdd total (jsMul x.1 x.2)) 0

/-! ## Lemmas on the helpers of order placement -/

theorem verifyAvailable_status {lines : List (CartItem × Option Product)} {r : Response}
    (h : verifyAvailable lines = some r) : r.status = 400 ∨ r.status = 500 := by
  induction lines with
  | nil => simp [verifyAvailable] at h
  | cons x xs ih =>
    obtain ⟨item, _ | p⟩ := x
    · simp [verifyAvailable, serverError] at h
      subst h; right; rfl
    · simp only [verifyAvailable] at h
      split at h
      · simp at h
        subst h; left; rfl
      · exact ih h

theorem buildOrderItems_of_verified {lines : List (CartItem × Option Product)}
    (h : verifyAvailable lines = none) : ∃ ois, buildOrderItems lines = some ois := by
  induction lines with
  | nil => exact ⟨[], rfl⟩
  | cons x xs ih =>
    obtain ⟨item, _ | p⟩ := x
    · simp [verifyAvailable] at h
    · simp only [verifyAvailable] at h
      split at h
      · simp at h
      · obtain ⟨ois, hois⟩ := ih h
        simp [buildOrderItems, toOrderItem, hois]

/-- Inversion of a successful `POST /api/orders`. -/
theorem placeOrder_success_inv {isEmail : String → Bool} {db : Db} {user : UserId}
    {body : OrderBody} (h : (placeOrder isEmail db user body).1.status = 201) :
    ∃ cart orderItems,
      validateOrderBody isEmail body = true ∧
      db.carts user = some cart ∧ cart.items ≠ [] ∧
      verifyAvailable (populate db cart.items) = none ∧
      buildOrderItems (populate db cart.items) = some orderItems ∧
      placeOrder isEmail db user body =
        (⟨201, "Order created successfully"⟩,
          { db with
            orders := db.orders ++ [placedOrder user body cart orderItems]
            products := decrementStock db.products cart.items
            carts := fun u => if u = user then some cart.clearCart else db.carts u }) := by
  unfold placeOrder at h ⊢
  by_cases hv : validateOrderBody isEmail body = true
  · simp only [hv, Bool.not_true, Bool.false_eq_true, if_false] at h ⊢
    cases hc : db.carts user with
    | none => simp [hc] at h
    | some cart =>
      simp only [hc] at h ⊢
      by_cases hl : cart.items.length = 0
      · simp [hl] at h
      · simp only [hl, if_false] at h ⊢
        cases hva : verifyAvailable (populate db cart.items) with
        | some r =>
          simp only [hva] at h
          rcases verifyAvailable_status hva with h4 | h5 <;> omega
        | none =>
          obtain ⟨ois, hois⟩ := buildOrderItems_of_verified hva
          simp only [hva, hois] at h ⊢
          refine ⟨cart, ois, trivial, rfl, ?_, hva, hois, rfl⟩
          intro hnil
          exact hl (by simp [hnil])
  · simp [hv] at h

/-- A request that does not end in 201 leaves the state as it was. -/
theorem placeOrder_state_of_not_created {isEmail : String → Bool} {db : Db} {user : UserId}
    {body : OrderBody} (h : (placeOrder isEmail db user body).1.status ≠ 201) :
    (placeOrder isEmail db user body).2 = db := by
  unfold placeOrder at h ⊢
  split
  · rfl
  · split
    · rfl
    · split
      · rfl
      · split
        · rfl
        · split
          · rfl
          · rename_i h1 h2 h3 h4 h5
            simp [*] at h

theorem decrementStock_apply (items : List CartItem) (products : ProductId → Option Product)
    (i : ProductId) :
    decrementStock products items i =
      (products i).map fun p =>
        { p with quantity := p.quantity - (orderedQuantity items i : Int) } := by
  induction items generalizing products with
  | nil => cases h : products i <;> simp [decrementStock, orderedQuantity, h]
  | cons l ls ih =>
    have hstep : decrementStock products (l :: ls) =
        decrementStock (incQuantity products l.product (-(l.quantity : Int))) ls := rfl
    rw [hstep, ih]
    by_cases hi : l.product = i
    · subst hi
      cases h : products l.product with
      | none => simp [incQuantity, h]
      | some p =>
        simp only [incQuantity, h, if_true, Option.map_some', orderedQuantity, List.filter_cons,
          decide_True, List.map_cons, List.sum_cons, Nat.cast_add]
        congr 2
        ring
    · have hi2 : ¬ i = l.product := fun e => hi e.symm
      simp [incQuantity, hi, hi2, orderedQuantity, List.filter_cons]

theorem orderedQuantity_eq_zero {items : List CartItem} {i : ProductId}
    (h : ∀ l ∈ items, l.product ≠ i) : orderedQuantity items i = 0 := by
  have : (items.filter fun l => l.product = i) = [] := by
    rw [List.filter_eq_nil_iff]
    intro l hl
    simpa using h l hl
  simp [orderedQuantity, this]

theorem verifyAvailable_of_excess {db : Db} {items : List CartItem} {item : CartItem}
    {p : Product} (hi : item ∈ items) (hp : db.products item.product = some p)
    (hq : p.quantity < (item.quantity : Int)) :
    ∃ r, verifyAvailable (populate db items) = some r ∧
      ((∀ l ∈ items, db.products l.product ≠ none) → r.status = 400) := by
  induction items with
  | nil => simp at hi
  | cons l ls ih =>
    cases hl : db.products l.product with
    | none =>
      refine ⟨serverError, by simp [populate, verifyAvailable, hl], ?_⟩
      intro hall
      exact absurd hl (hall l (List.mem_cons_self _ _))
    | some q =>
      by_cases hbad : (!q.inStock || decide (q.quantity < (l.quantity : Int))) = true
      · exact ⟨⟨400, q.name ++ " is no longer available in the requested quantity"⟩,
          by simp only [populate, List.map_cons, hl, verifyAvailable, hbad, if_true],
          fun _ => rfl⟩
      · have hmem : item ∈ ls := by
          rcases List.mem_cons.mp hi with rfl | h
          · rw [hp] at hl
            cases hl
            simp [hq] at hbad
          · exact h
        obtain ⟨r, hr, hst⟩ := ih hmem
        refine ⟨r, ?_, fun hall => hst fun l' hl' => hall l' (List.mem_cons_of_mem _ hl')⟩
        simp only [populate, List.map_cons, hl, verifyAvailable, hbad] at hr ⊢
        simpa using hr

/-! ## Rounding to binary64 -/

theorem roundHalfEven_eq {x : ℚ} {m : ℤ} (h1 : (m : ℚ) - 1 / 2 < x) (h2 : x < (m : ℚ) + 1 / 2) :
    roundHalfEven x = m := by
  unfold roundHalfEven
  by_cases hx : (m : ℚ) ≤ x
  · have hf : ⌊x⌋ = m := by
      rw [Int.floor_eq_iff]
      constructor
      · exact hx
      · linarith
    rw [hf, if_pos (by linarith)]
  · have hf : ⌊x⌋ = m - 1 := by
      rw [Int.floor_eq_iff]
      push_cast
      constructor
      · linarith
      · linarith
    push_neg at hx
    rw [hf]
    push_cast
    rw [if_neg (by linarith), if_pos (by linarith)]
    ring

theorem toBinary64_eq (q : ℚ) (e m : ℤ) (h1 : (2 : ℚ) ^ e ≤ q) (h2 : q < (2 : ℚ) ^ (e + 1))
    (h3 : (m : ℚ) - 1 / 2 < q / 2 ^ (e - 52)) (h4 : q / 2 ^ (e - 52) < (m : ℚ) + 1 / 2) :
    toBinary64 q = (m : ℚ) * 2 ^ (e - 52) := by
  have hq : 0 < q := lt_of_lt_of_le (by positivity) h1
  have hlog : Int.log 2 q = e := by
    apply le_antisymm
    · have := (@Int.lt_zpow_iff_log_lt ℚ _ _ 2 (by norm_num) (e + 1) q hq).mp (by simpa using h2)
      omega
    · exact (@Int.zpow_le_iff_le_log ℚ _ _ 2 (by norm_num) e q hq).mp (by simpa using h1)
  unfold toBinary64
  rw [if_neg (ne_of_gt hq), if_neg (not_lt.mpr hq.le), hlog, roundHalfEven_eq h3 h4]

theorem toBinary64_eq_of_tie (q : ℚ) (e n : ℤ) (h1 : (2 : ℚ) ^ e ≤ q)
    (h2 : q < (2 : ℚ) ^ (e + 1)) (h3 : q / 2 ^ (e - 52) = (n : ℚ) + 1 / 2)
    (hodd : n % 2 = 1) : toBinary64 q = ((n : ℚ) + 1) * 2 ^ (e - 52) := by
  have hq : 0 < q := lt_of_lt_of_le (by positivity) h1
  have hlog : Int.log 2 q = e := by
    apply le_antisymm
    · have := (@Int.lt_zpow_iff_log_lt ℚ _ _ 2 (by norm_num) (e + 1) q hq).mp (by simpa using h2)
      omega
    · exact (@Int.zpow_le_iff_le_log ℚ _ _ 2 (by norm_num) e q hq).mp (by simpa using h1)
  have hfl : ⌊(n : ℚ) + 1 / 2⌋ = n := by
    rw [Int.floor_eq_iff]
    constructor <;> linarith
  have hr : roundHalfEven ((n : ℚ) + 1 / 2) = n + 1 := by
    unfold roundHalfEven
    rw [hfl, if_neg (by norm_num), if_neg (by norm_num), if_neg (by omega)]
  unfold toBinary64
  rw [if_neg (ne_of_gt hq), if_neg (not_lt.mpr hq.le), hlog, h3, hr]
  push_cast
  rfl

theorem roundHalfEven_le_of_le {x : ℚ} {m : ℤ} (h : x ≤ (m : ℚ)) : roundHalfEven x ≤ m := by
  have hfl : (⌊x⌋ : ℚ) ≤ x := Int.floor_le x
  have hfm : ⌊x⌋ ≤ m := by exact_mod_cast hfl.trans h
  unfold roundHalfEven
  split
  · exact hfm
  · rename_i h1
    have hlt : (⌊x⌋ : ℚ) < (m : ℚ) := by linarith
    have hlt' : ⌊x⌋ < m := by exact_mod_cast hlt
    split
    · omega
    · split
      · exact hfm
      · omega

theorem roundHalfEven_nonneg {x : ℚ} (h : 0 ≤ x) : 0 ≤ roundHalfEven x := by
  have hf : 0 ≤ ⌊x⌋ := Int.floor_nonneg.mpr h
  unfold roundHalfEven
  split
  · exact hf
  · split
    · omega
    · split
      · exact hf
      · omega

theorem roundHalfEven_abs_sub_le (x : ℚ) : |(roundHalfEven x : ℚ) - x| ≤ 1 / 2 := by
  have h1 : (⌊x⌋ : ℚ) ≤ x := Int.floor_le x
  have h2 : x < (⌊x⌋ : ℚ) + 1 := Int.lt_floor_add_one x
  rw [abs_le]
  unfold roundHalfEven
  split
  · constructor <;> linarith
  · split
    · push_cast
      constructor <;> linarith
    · split
      · constructor <;> linarith
      · push_cast
        constructor <;> linarith

theorem toBinary64_of_pos {q : ℚ} (hq : 0 < q) :
    toBinary64 q =
      (roundHalfEven (q / 2 ^ (Int.log 2 q - 52)) : ℚ) * 2 ^ (Int.log 2 q - 52) := by
  unfold toBinary64
  rw [if_neg (ne_of_gt hq), if_neg (not_lt.mpr hq.le)]

theorem zpow_log_le {q : ℚ} (hq : 0 < q) : (2 : ℚ) ^ Int.log 2 q ≤ q := by
  have := @Int.zpow_log_le_self ℚ _ _ 2 q (by norm_num) hq
  simpa using this

theorem lt_zpow_log_succ (q : ℚ) : q < (2 : ℚ) ^ (Int.log 2 q + 1) := by
  have := @Int.lt_zpow_succ_log_self ℚ _ _ 2 (by norm_num) q
  simpa using this

theorem toBinary64_nonneg {q : ℚ} (h : 0 ≤ q) : 0 ≤ toBinary64 q := by
  rcases h.eq_or_lt with h0 | hpos
  · rw [← h0]
    simp [toBinary64]
  · rw [toBinary64_of_pos hpos]
    have hy : (0 : ℚ) ≤ q / 2 ^ (Int.log 2 q - 52) := by positivity
    have : (0 : ℚ) ≤ (roundHalfEven (q / 2 ^ (Int.log 2 q - 52)) : ℚ) := by
      exact_mod_cast roundHalfEven_nonneg hy
    positivity

/-- Rounding to binary64 does not pass a binary64 number: a number that is at
most `r` is rounded to a number that is at most `r`. -/
theorem toBinary64_le_of_le {q r : ℚ} (hq : 0 ≤ q) (hqr : q ≤ r) (hr : toBinary64 r = r) :
    toBinary64 q ≤ r := by
  rcases hq.eq_or_lt with h0 | hpos
  · rw [← h0]
    simp only [toBinary64, if_true]
    linarith
  · have hrpos : 0 < r := lt_of_lt_of_le hpos hqr
    have hlog : Int.log 2 q ≤ Int.log 2 r := Int.log_mono_right hpos hqr
    rw [toBinary64_of_pos hpos]
    have hpw : (0 : ℚ) < 2 ^ (Int.log 2 q - 52) := by positivity
    rcases hlog.eq_or_lt with heq | hlt
    · rw [toBinary64_of_pos hrpos, ← heq] at hr
      have hle : q / 2 ^ (Int.log 2 q - 52) ≤
          ((roundHalfEven (r / 2 ^ (Int.log 2 q - 52)) : ℤ) : ℚ) := by
        rw [div_le_iff₀ hpw, hr]
        exact hqr
      have := roundHalfEven_le_of_le hle
      calc (roundHalfEven (q / 2 ^ (Int.log 2 q - 52)) : ℚ) * 2 ^ (Int.log 2 q - 52)
          ≤ (roundHalfEven (r / 2 ^ (Int.log 2 q - 52)) : ℚ) * 2 ^ (Int.log 2 q - 52) := by
            apply mul_le_mul_of_nonneg_right _ hpw.le
            exact_mod_cast this
        _ = r := hr
    · have h1 : q < (2 : ℚ) ^ (Int.log 2 q + 1) := lt_zpow_log_succ q
      have h2 : (2 : ℚ) ^ (Int.log 2 q + 1) ≤ 2 ^ Int.log 2 r :=
        zpow_le_zpow_right₀ (by norm_num) (by omega)
      have h3 : (2 : ℚ) ^ Int.log 2 r ≤ r := zpow_log_le hrpos
      have hsplit : (2 : ℚ) ^ (Int.log 2 q + 1) =
          9007199254740992 * 2 ^ (Int.log 2 q - 52) := by
        rw [show (9007199254740992 : ℚ) = 2 ^ (53 : ℤ) by norm_num,
          ← zpow_add₀ (by norm_num : (2 : ℚ) ≠ 0)]
        congr 1
        ring
      have hle : q / 2 ^ (Int.log 2 q - 52) ≤ ((9007199254740992 : ℤ) : ℚ) := by
        rw [div_le_iff₀ hpw]
        push_cast
        rw [← hsplit]
        exact h1.le
      have := roundHalfEven_le_of_le hle
      calc (roundHalfEven (q / 2 ^ (Int.log 2 q - 52)) : ℚ) * 2 ^ (Int.log 2 q - 52)
          ≤ ((9007199254740992 : ℤ) : ℚ) * 2 ^ (Int.log 2 q - 52) := by
            apply mul_le_mul_of_nonneg_right _ hpw.le
            exact_mod_cast this
        _ = 2 ^ (Int.log 2 q + 1) := by
            rw [hsplit]
            norm_cast
        _ ≤ r := h2.trans h3

/-- The relative error of rounding to binary64 is at most `2 ^ (-53)`. -/
theorem toBinary64_abs_sub_le {q : ℚ} (hq : 0 < q) : |toBinary64 q - q| ≤ q / 2 ^ 53 := by
  have hpw : (0 : ℚ) < 2 ^ (Int.log 2 q - 52) := by positivity
  have herr := roundHalfEven_abs_sub_le (q / 2 ^ (Int.log 2 q - 52))
  have hsplit : (2 : ℚ) ^ Int.log 2 q = 2 ^ (52 : ℤ) * 2 ^ (Int.log 2 q - 52) := by
    rw [← zpow_add₀ (by norm_num : (2 : ℚ) ≠ 0)]
    congr 1
    ring
  have hlow : (2 : ℚ) ^ (52 : ℤ) * 2 ^ (Int.log 2 q - 52) ≤ q := by
    rw [← hsplit]
    exact zpow_log_le hq
  have heq : toBinary64 q - q =
      ((roundHalfEven (q / 2 ^ (Int.log 2 q - 52)) : ℚ) - q / 2 ^ (Int.log 2 q - 52)) *
        2 ^ (Int.log 2 q - 52) := by
    rw [toBinary64_of_pos hq]
    field_simp
  rw [heq, abs_mul, abs_of_pos hpw]
  have h1 : |(roundHalfEven (q / 2 ^ (Int.log 2 q - 52)) : ℚ) - q / 2 ^ (Int.log 2 q - 52)| *
      2 ^ (Int.log 2 q - 52) ≤ 1 / 2 * 2 ^ (Int.log 2 q - 52) :=
    mul_le_mul_of_nonneg_right herr hpw.le
  have h2 : (1 : ℚ) / 2 * 2 ^ (Int.log 2 q - 52) ≤ q / 2 ^ 53 := by
    rw [le_div_iff₀ (by positivity)]
    have : (2 : ℚ) ^ (52 : ℤ) = 2 ^ 52 := by norm_cast
    rw [this] at hlow
    nlinarith
  exact h1.trans h2

theorem toBinary64_one : toBinary64 1 = 1 := by
  rw [toBinary64_eq 1 0 4503599627370496 (by norm_num) (by norm_num) (by norm_num)
    (by norm_num)]
  norm_num

theorem toBinary64_hundred : toBinary64 100 = 100 := by
  rw [toBinary64_eq 100 6 7036874417766400 (by norm_num) (by norm_num) (by norm_num)
    (by norm_num)]
  norm_num

theorem toBinary64_bounds {q : ℚ} (hq : 0 ≤ q) :
    q * (1 - 1 / 2 ^ 53) ≤ toBinary64 q ∧ toBinary64 q ≤ q * (1 + 1 / 2 ^ 53) := by
  rcases hq.eq_or_lt with h0 | hpos
  · rw [← h0]
    simp [toBinary64]
  · have h := abs_le.mp (toBinary64_abs_sub_le hpos)
    constructor
    · have : q * (1 - 1 / 2 ^ 53) = q - q / 2 ^ 53 := by ring
      rw [this]
      linarith [h.1]
    · have : q * (1 + 1 / 2 ^ 53) = q + q / 2 ^ 53 := by ring
      rw [this]
      linarith [h.2]

theorem calcSubtotal_eq_jsSum (items : List CartItem) :
    calcSubtotal items = jsSum (items.map fun l => (l.price, (l.quantity : ℚ))) := by
  simp [calcSubtotal, jsSum, List.foldl_map]

theorem jsSum_foldl_nonneg (lines : List (ℚ × ℚ)) (a : ℚ) (ha : 0 ≤ a)
    (h : ∀ x ∈ lines, 0 ≤ x.1 ∧ 0 ≤ x.2) :
    0 ≤ lines.foldl (fun total x => jsAdd total (jsMul x.1 x.2)) a := by
  induction lines generalizing a with
  | nil => simpa using ha
  | cons x xs ih =>
    have hx := h x (List.mem_cons_self _ _)
    have ht : 0 ≤ jsMul x.1 x.2 := toBinary64_nonneg (mul_nonneg hx.1 hx.2)
    simp only [List.foldl_cons]
    exact ih _ (toBinary64_nonneg (add_nonneg ha ht)) fun y hy => h y (List.mem_cons_of_mem _ hy)

/-- The rounded sum against the exact sum: after `k - 1` rounded operations
behind the accumulator, every further line adds one factor `1 ± 2 ^ (-53)`. -/
theorem jsSum_foldl_bounds (lines : List (ℚ × ℚ)) (a e : ℚ) (k : ℕ) (hk : 1 ≤ k)
    (he : 0 ≤ e) (hlo : e * (1 - 1 / 2 ^ 53) ^ k ≤ a) (hhi : a ≤ e * (1 + 1 / 2 ^ 53) ^ k)
    (h : ∀ x ∈ lines, 0 ≤ x.1 ∧ 0 ≤ x.2) :
    (e + (lines.map fun x => x.1 * x.2).sum) * (1 - 1 / 2 ^ 53) ^ (k + lines.length) ≤
        lines.foldl (fun total x => jsAdd total (jsMul x.1 x.2)) a ∧
      lines.foldl (fun total x => jsAdd total (jsMul x.1 x.2)) a ≤
        (e + (lines.map fun x => x.1 * x.2).sum) * (1 + 1 / 2 ^ 53) ^ (k + lines.length) := by
  induction lines generalizing a e k with
  | nil =>
    simp only [List.map_nil, List.sum_nil, add_zero, List.length_nil, List.foldl_nil]
    exact ⟨hlo, hhi⟩
  | cons x xs ih =>
    have hx := h x (List.mem_cons_self _ _)
    have hp : 0 ≤ x.1 * x.2 := mul_nonneg hx.1 hx.2
    have hu0 : (0 : ℚ) ≤ 1 - 1 / 2 ^ 53 := by norm_num
    have hu1 : (1 : ℚ) - 1 / 2 ^ 53 ≤ 1 := by norm_num
    have hv1 : (1 : ℚ) ≤ 1 + 1 / 2 ^ 53 := by norm_num
    have hv0 : (0 : ℚ) ≤ 1 + 1 / 2 ^ 53 := by norm_num
    have hpowlo : (1 - 1 / 2 ^ 53 : ℚ) ^ k ≤ 1 - 1 / 2 ^ 53 := by
      calc (1 - 1 / 2 ^ 53 : ℚ) ^ k ≤ (1 - 1 / 2 ^ 53) ^ 1 :=
            pow_le_pow_of_le_one hu0 hu1 hk
        _ = 1 - 1 / 2 ^ 53 := pow_one _
    have hpowhi : (1 + 1 / 2 ^ 53 : ℚ) ≤ (1 + 1 / 2 ^ 53) ^ k := by
      calc (1 + 1 / 2 ^ 53 : ℚ) = (1 + 1 / 2 ^ 53) ^ 1 := (pow_one _).symm
        _ ≤ (1 + 1 / 2 ^ 53) ^ k := pow_le_pow_right₀ hv1 hk
    have hpk0 : (0 : ℚ) ≤ (1 - 1 / 2 ^ 53) ^ k := pow_nonneg hu0 k
    have ha : 0 ≤ a := le_trans (mul_nonneg he hpk0) hlo
    have ht := toBinary64_bounds hp
    have ht0 : 0 ≤ toBinary64 (x.1 * x.2) := toBinary64_nonneg hp
    have hs := toBinary64_bounds (add_nonneg ha ht0)
    have hlo' : (e + x.1 * x.2) * (1 - 1 / 2 ^ 53) ^ (k + 1) ≤
        jsAdd a (jsMul x.1 x.2) := by
      unfold jsAdd jsMul
      have h1 : x.1 * x.2 * (1 - 1 / 2 ^ 53) ^ k ≤ x.1 * x.2 * (1 - 1 / 2 ^ 53) :=
        mul_le_mul_of_nonneg_left hpowlo hp
      have h2 : (e + x.1 * x.2) * (1 - 1 / 2 ^ 53) ^ k ≤ a + toBinary64 (x.1 * x.2) := by
        linarith [ht.1]
      calc (e + x.1 * x.2) * (1 - 1 / 2 ^ 53) ^ (k + 1)
          = (e + x.1 * x.2) * (1 - 1 / 2 ^ 53) ^ k * (1 - 1 / 2 ^ 53) := by ring
        _ ≤ (a + toBinary64 (x.1 * x.2)) * (1 - 1 / 2 ^ 53) :=
            mul_le_mul_of_nonneg_right h2 hu0
        _ ≤ toBinary64 (a + toBinary64 (x.1 * x.2)) := hs.1
    have hhi' : jsAdd a (jsMul x.1 x.2) ≤ (e + x.1 * x.2) * (1 + 1 / 2 ^ 53) ^ (k + 1) := by
      unfold jsAdd jsMul
      have h1 : x.1 * x.2 * (1 + 1 / 2 ^ 53) ≤ x.1 * x.2 * (1 + 1 / 2 ^ 53) ^ k :=
        mul_le_mul_of_nonneg_left hpowhi hp
      have h2 : a + toBinary64 (x.1 * x.2) ≤ (e + x.1 * x.2) * (1 + 1 / 2 ^ 53) ^ k := by
        linarith [ht.2]
      calc toBinary64 (a + toBinary64 (x.1 * x.2))
          ≤ (a + toBinary64 (x.1 * x.2)) * (1 + 1 / 2 ^ 53) := hs.2
        _ ≤ (e + x.1 * x.2) * (1 + 1 / 2 ^ 53) ^ k * (1 + 1 / 2 ^ 53) :=
            mul_le_mul_of_nonneg_right h2 hv0
        _ = (e + x.1 * x.2) * (1 + 1 / 2 ^ 53) ^ (k + 1) := by ring
    have := ih (jsAdd a (jsMul x.1 x.2)) (e + x.1 * x.2) (k + 1) (by omega)
      (add_nonneg he hp) hlo' hhi' fun y hy => h y (List.mem_cons_of_mem _ hy)
    simp only [List.foldl_cons, List.map_cons, List.sum_cons, List.length_cons]
    have e1 : e + (x.1 * x.2 + (xs.map fun x => x.1 * x.2).sum) =
        e + x.1 * x.2 + (xs.map fun x => x.1 * x.2).sum := by ring
    have e2 : k + (xs.length + 1) = k + 1 + xs.length := by omega
    rw [e1, e2]
    exact this

/-- The sum of price times quantity as JavaScript computes it lies within the
relative error `(1 ± 2 ^ (-53)) ^ (n + 1)` of the exact sum, `n` being the
number of lines, when no price and no quantity is negative. -/
theorem jsSum_bounds (lines : List (ℚ × ℚ)) (h : ∀ x ∈ lines, 0 ≤ x.1 ∧ 0 ≤ x.2) :
    (lines.map fun x => x.1 * x.2).sum * (1 - 1 / 2 ^ 53) ^ (lines.length + 1) ≤ jsSum lines ∧
    jsSum lines ≤ (lines.map fun x => x.1 * x.2).sum * (1 + 1 / 2 ^ 53) ^ (lines.length + 1) := by
  have := jsSum_foldl_bounds lines 0 0 1 le_rfl le_rfl (by simp) (by simp) h
  simpa [jsSum, add_comm] using this

theorem toBinary64_twenty : toBinary64 20 = 20 := by
  rw [toBinary64_eq 20 4 5629499534213120 (by norm_num) (by norm_num) (by norm_num)
    (by norm_num)]
  norm_num

theorem toBinary64_tax_rate : toBinary64 (8 / 100) = 5764607523034235 / 2 ^ 56 := by
  rw [toBinary64_eq _ (-4) 5764607523034235 (by norm_num) (by norm_num) (by norm_num)
    (by norm_num)]
  norm_num

theorem toBinary64_eight_fifths : toBinary64 (8 / 5) = 7205759403792794 / 2 ^ 52 := by
  rw [toBinary64_eq _ 0 7205759403792794 (by norm_num) (by norm_num) (by norm_num)
    (by norm_num)]
  norm_num

theorem toBinary64_scenario_sum :
    toBinary64 (20 + toBinary64 (8 / 5)) = 6079859496950170 / 2 ^ 48 := by
  rw [toBinary64_eight_fifths,
    toBinary64_eq _ 4 6079859496950170 (by norm_num) (by norm_num) (by norm_num) (by norm_num)]
  norm_num

theorem toBinary64_scenario_total : toBinary64 (183 / 5) = 5150992073805005 / 2 ^ 47 := by
  rw [toBinary64_eq _ 5 5150992073805005 (by norm_num) (by norm_num) (by norm_num)
    (by norm_num)]
  norm_num

/-- The totals of the scenario, one line of price 10 and quantity 2: the sum is
20, the tax is the binary64 number written 1.6 and the total with the shipping
fee 15 is the binary64 number written 36.6. -/
theorem scenario_totals :
    jsSum [(10, 2)] = 20 ∧
    jsMul 20 (toBinary64 (8 / 100)) = toBinary64 (8 / 5) ∧
    jsAdd (jsAdd 20 (toBinary64 (8 / 5))) 15 = toBinary64 (183 / 5) := by
  have htax : toBinary64 (20 * (5764607523034235 / 2 ^ 56)) = 7205759403792794 / 2 ^ 52 := by
    rw [toBinary64_eq _ 0 7205759403792794 (by norm_num) (by norm_num) (by norm_num)
      (by norm_num)]
    norm_num
  have htot : toBinary64 (6079859496950170 / 2 ^ 48 + 15) = 5150992073805005 / 2 ^ 47 := by
    rw [toBinary64_eq _ 5 5150992073805005 (by norm_num) (by norm_num) (by norm_num)
      (by norm_num)]
    norm_num
  refine ⟨?_, ?_, ?_⟩
  · simp only [jsSum, List.foldl_cons, List.foldl_nil, jsMul, jsAdd]
    norm_num [toBinary64_twenty]
  · unfold jsMul
    rw [toBinary64_tax_rate, htax, toBinary64_eight_fifths]
  · unfold jsAdd
    rw [toBinary64_scenario_sum, htot, toBinary64_scenario_total]

/-- Rounding at the threshold of free shipping: for the lines of prices 1.65,
19.09 and 2.9 (as binary64 numbers) and quantities 1, 5 and 1 the exact sum of
price times quantity is below 100, the sum as JavaScript computes it is
100.00000000000001, and the shipping fee decided on it is 0. -/
theorem jsSum_rounds_above_threshold :
    toBinary64 1.65 = 7430939385161318 / 2 ^ 52 ∧
    toBinary64 19.09 = 5373357305406423 / 2 ^ 48 ∧
    toBinary64 2.9 = 6530219459687219 / 2 ^ 51 ∧
    (7430939385161318 / 2 ^ 52 * 1 + 5373357305406423 / 2 ^ 48 * 5 +
      6530219459687219 / 2 ^ 51 * 1 : ℚ) < 100 ∧
    jsSum [(7430939385161318 / 2 ^ 52, 1), (5373357305406423 / 2 ^ 48, 5),
      (6530219459687219 / 2 ^ 51, 1)] = 7036874417766401 / 2 ^ 46 ∧
    (100 : ℚ) < 7036874417766401 / 2 ^ 46 ∧
    calcShipping (7036874417766401 / 2 ^ 46) = 0 := by
  have a1 : toBinary64 1.65 = 7430939385161318 / 2 ^ 52 := by
    rw [toBinary64_eq _ 0 7430939385161318 (by norm_num) (by norm_num) (by norm_num)
      (by norm_num)]
    norm_num
  have a2 : toBinary64 19.09 = 5373357305406423 / 2 ^ 48 := by
    rw [toBinary64_eq _ 4 5373357305406423 (by norm_num) (by norm_num) (by norm_num)
      (by norm_num)]
    norm_num
  have a3 : toBinary64 2.9 = 6530219459687219 / 2 ^ 51 := by
    rw [toBinary64_eq _ 1 6530219459687219 (by norm_num) (by norm_num) (by norm_num)
      (by norm_num)]
    norm_num
  have b1 : toBinary64 (7430939385161318 / 2 ^ 52 * 1) = 7430939385161318 / 2 ^ 52 := by
    rw [toBinary64_eq _ 0 7430939385161318 (by norm_num) (by norm_num) (by norm_num)
      (by norm_num)]
    norm_num
  have b2 : toBinary64 (0 + 7430939385161318 / 2 ^ 52) = 7430939385161318 / 2 ^ 52 := by
    rw [toBinary64_eq _ 0 7430939385161318 (by norm_num) (by norm_num) (by norm_num)
      (by norm_num)]
    norm_num
  have b3 : toBinary64 (5373357305406423 / 2 ^ 48 * 5) = 6716696631758029 / 2 ^ 46 := by
    rw [toBinary64_eq _ 6 6716696631758029 (by norm_num) (by norm_num) (by norm_num)
      (by norm_num)]
    norm_num
  have b4 : toBinary64 (7430939385161318 / 2 ^ 52 + 6716696631758029 / 2 ^ 46) =
      6832805059651175 / 2 ^ 46 := by
    rw [toBinary64_eq _ 6 6832805059651175 (by norm_num) (by norm_num) (by norm_num)
      (by norm_num)]
    norm_num
  have b5 : toBinary64 (6530219459687219 / 2 ^ 51 * 1) = 6530219459687219 / 2 ^ 51 := by
    rw [toBinary64_eq _ 1 6530219459687219 (by norm_num) (by norm_num) (by norm_num)
      (by norm_num)]
    norm_num
  have b6 : toBinary64 (6832805059651175 / 2 ^ 46 + 6530219459687219 / 2 ^ 51) =
      7036874417766401 / 2 ^ 46 := by
    rw [toBinary64_eq _ 6 7036874417766401 (by norm_num) (by norm_num) (by norm_num)
      (by norm_num)]
    norm_num
  refine ⟨a1, a2, a3, by norm_num, ?_, by norm_num, ?_⟩
  · simp only [jsSum, List.foldl_cons, List.foldl_nil, jsMul, jsAdd]
    rw [b1, b2, b3, b4, b5, b6]
  · unfold calcShipping
    norm_num

/-- The totals of an order against exact arithmetic: with a subtotal that is not
negative, the tax lies within the relative error `(1 ± 2 ^ (-53)) ^ 2` of
`0.08 * subtotal`, and the total within the same error of
`subtotal + tax + shipping`. -/
theorem order_totals_bounds {subtotal : ℚ} (hs : 0 ≤ subtotal) :
    0.08 * subtotal * (1 - 1 / 2 ^ 53) ^ 2 ≤ calcTax subtotal ∧
    calcTax subtotal ≤ 0.08 * subtotal * (1 + 1 / 2 ^ 53) ^ 2 ∧
    (subtotal + calcTax subtotal + calcShipping subtotal) * (1 - 1 / 2 ^ 53) ^ 2 ≤
      jsAdd (jsAdd subtotal (calcTax subtotal)) (calcShipping subtotal) ∧
    jsAdd (jsAdd subtotal (calcTax subtotal)) (calcShipping subtotal) ≤
      (subtotal + calcTax subtotal + calcShipping subtotal) * (1 + 1 / 2 ^ 53) ^ 2 := by
  have hu0 : (0 : ℚ) ≤ 1 - 1 / 2 ^ 53 := by norm_num
  have hv0 : (0 : ℚ) ≤ 1 + 1 / 2 ^ 53 := by norm_num
  have hr := toBinary64_bounds (by norm_num : (0 : ℚ) ≤ 8 / 100)
  have hr0 : 0 ≤ toBinary64 (8 / 100) := toBinary64_nonneg (by norm_num)
  have ht := toBinary64_bounds (mul_nonneg hs hr0)
  have htax0 : 0 ≤ calcTax subtotal := toBinary64_nonneg (mul_nonneg hs hr0)
  have hship0 : 0 ≤ calcShipping subtotal := by
    unfold calcShipping
    split <;> norm_num
  have h1 := toBinary64_bounds (add_nonneg hs htax0)
  have h10 : 0 ≤ toBinary64 (subtotal + calcTax subtotal) :=
    toBinary64_nonneg (add_nonneg hs htax0)
  have h2 := toBinary64_bounds (add_nonneg h10 hship0)
  have e08 : (0.08 : ℚ) = 8 / 100 := by norm_num
  refine ⟨?_, ?_, ?_, ?_⟩
  · calc 0.08 * subtotal * (1 - 1 / 2 ^ 53) ^ 2
        = subtotal * (8 / 100 * (1 - 1 / 2 ^ 53)) * (1 - 1 / 2 ^ 53) := by
          rw [e08]
          ring
      _ ≤ subtotal * toBinary64 (8 / 100) * (1 - 1 / 2 ^ 53) :=
          mul_le_mul_of_nonneg_right (mul_le_mul_of_nonneg_left hr.1 hs) hu0
      _ ≤ calcTax subtotal := ht.1
  · calc calcTax subtotal ≤ subtotal * toBinary64 (8 / 100) * (1 + 1 / 2 ^ 53) := ht.2
      _ ≤ subtotal * (8 / 100 * (1 + 1 / 2 ^ 53)) * (1 + 1 / 2 ^ 53) :=
          mul_le_mul_of_nonneg_right (mul_le_mul_of_nonneg_left hr.2 hs) hv0
      _ = 0.08 * subtotal * (1 + 1 / 2 ^ 53) ^ 2 := by
          rw [e08]
          ring
  · unfold jsAdd
    have h3 : (subtotal + calcTax subtotal + calcShipping subtotal) * (1 - 1 / 2 ^ 53) ≤
        toBinary64 (subtotal + calcTax subtotal) + calcShipping subtotal := by
      have : calcShipping subtotal * (1 - 1 / 2 ^ 53) ≤ calcShipping subtotal := by
        nlinarith
      linarith [h1.1]
    calc (subtotal + calcTax subtotal + calcShipping subtotal) * (1 - 1 / 2 ^ 53) ^ 2
        = (subtotal + calcTax subtotal + calcShipping subtotal) * (1 - 1 / 2 ^ 53) *
            (1 - 1 / 2 ^ 53) := by ring
      _ ≤ (toBinary64 (subtotal + calcTax subtotal) + calcShipping subtotal) *
            (1 - 1 / 2 ^ 53) := mul_le_mul_of_nonneg_right h3 hu0
      _ ≤ _ := h2.1
  · unfold jsAdd
    have h3 : toBinary64 (subtotal + calcTax subtotal) + calcShipping subtotal ≤
        (subtotal + calcTax subtotal + calcShipping subtotal) * (1 + 1 / 2 ^ 53) := by
      have : calcShipping subtotal ≤ calcShipping subtotal * (1 + 1 / 2 ^ 53) := by
        nlinarith
      linarith [h1.2]
    calc toBinary64 (toBinary64 (subtotal + calcTax subtotal) + calcShipping subtotal)
        ≤ (toBinary64 (subtotal + calcTax subtotal) + calcShipping subtotal) *
            (1 + 1 / 2 ^ 53) := h2.2
      _ ≤ (subtotal + calcTax subtotal + calcShipping subtotal) * (1 + 1 / 2 ^ 53) *
            (1 + 1 / 2 ^ 53) := mul_le_mul_of_nonneg_right h3 hv0
      _ = _ := by ring

/-! ## Order placement: totals, rejection, effects -/

/-- C1: when `POST /api/orders` succeeds, the order it creates has as subtotal
the sum of price times quantity over the cart lines, as tax 0.08 times the
subtotal, as shipping 0 if the subtotal exceeds 100 and 15 otherwise, and as
total subtotal + tax + shipping, each computed as JavaScript computes it, every
operation rounded to binary64; when no captured price is negative, the subtotal
lies within the relative error `(1 ± 2 ^ (-53)) ^ (n + 1)` of the exact sum over
the `n` lines, and tax and total within `(1 ± 2 ^ (-53)) ^ 2` of the exact
product and sum; for the cart with the single line of price 10 and quantity 2
the stored numbers are 20, 15 and the binary64 numbers written 1.60 and
36.60. -/
theorem placeOrder_totals (isEmail : String → Bool) (db : Db) (user : UserId)
    (body : OrderBody) (h : (placeOrder isEmail db user body).1.status = 201) :
    ∃ cart order,
      db.carts user = some cart ∧
      (placeOrder isEmail db user body).2.orders = db.orders ++ [order] ∧
      order.subtotal = jsSum (cart.items.map fun l => (l.price, (l.quantity : ℚ))) ∧
      order.tax = jsMul order.subtotal (toBinary64 0.08) ∧
      order.shipping = (if order.subtotal > 100 then 0 else 15) ∧
      order.total = jsAdd (jsAdd order.subtotal order.tax) order.shipping ∧
      ((∀ l ∈ cart.items, 0 ≤ l.price) →
        (cart.items.map fun l => l.price * (l.quantity : ℚ)).sum *
            (1 - 1 / 2 ^ 53) ^ (cart.items.length + 1) ≤ order.subtotal ∧
        order.subtotal ≤ (cart.items.map fun l => l.price * (l.quantity : ℚ)).sum *
            (1 + 1 / 2 ^ 53) ^ (cart.items.length + 1) ∧
        0.08 * order.subtotal * (1 - 1 / 2 ^ 53) ^ 2 ≤ order.tax ∧
        order.tax ≤ 0.08 * order.subtotal * (1 + 1 / 2 ^ 53) ^ 2 ∧
        (order.subtotal + order.tax + order.shipping) * (1 - 1 / 2 ^ 53) ^ 2 ≤ order.total ∧
        order.total ≤ (order.subtotal + order.tax + order.shipping) * (1 + 1 / 2 ^ 53) ^ 2) ∧
      ((cart.items.map fun l => (l.price, l.quantity)) = [(10, 2)] →
        order.subtotal = 20 ∧ order.tax = toBinary64 1.60 ∧ order.shipping = 15 ∧
          order.total = toBinary64 36.60) := by
  obtain ⟨cart, ois, -, hc, -, -, -, heq⟩ := placeOrder_success_inv h
  have e08 : (0.08 : ℚ) = 8 / 100 := by norm_num
  refine ⟨cart, placedOrder user body cart ois, hc, by rw [heq], ?_, ?_, rfl, rfl, ?_, ?_⟩
  · exact calcSubtotal_eq_jsSum cart.items
  · rw [e08]
    rfl
  · intro hpos
    have hlines : ∀ x ∈ cart.items.map fun l => (l.price, (l.quantity : ℚ)),
        0 ≤ x.1 ∧ 0 ≤ x.2 := by
      intro x hx
      obtain ⟨l, hl, rfl⟩ := List.mem_map.mp hx
      exact ⟨hpos l hl, Nat.cast_nonneg _⟩
    have hb := jsSum_bounds _ hlines
    rw [← calcSubtotal_eq_jsSum, List.map_map, List.length_map] at hb
    have hs0 : 0 ≤ calcSubtotal cart.items := by
      rw [calcSubtotal_eq_jsSum]
      exact jsSum_foldl_nonneg _ 0 le_rfl hlines
    have ht := order_totals_bounds hs0
    exact ⟨hb.1, hb.2, ht.1, ht.2.1, ht.2.2.1, ht.2.2.2⟩
  · intro hcart
    have hsub : calcSubtotal cart.items = 20 := by
      rw [calcSubtotal_eq_jsSum]
      have hmap : (cart.items.map fun l => (l.price, (l.quantity : ℚ))) =
          ((cart.items.map fun l => (l.price, l.quantity)).map
            fun (x : ℚ × ℕ) => (x.1, (x.2 : ℚ))) := by
        simp [List.map_map, Function.comp_def]
      rw [hmap, hcart]
      exact scenario_totals.1
    have e160 : (1.60 : ℚ) = 8 / 5 := by norm_num
    have e366 : (36.60 : ℚ) = 183 / 5 := by norm_num
    have htax : calcTax 20 = toBinary64 (8 / 5) := scenario_totals.2.1
    have hship : calcShipping 20 = 15 := by
      unfold calcShipping
      norm_num
    refine ⟨hsub, ?_, ?_, ?_⟩
    · show calcTax (calcSubtotal cart.items) = _
      rw [hsub, htax, e160]
    · show calcShipping (calcSubtotal cart.items) = _
      rw [hsub, hship]
    · show jsAdd (jsAdd (calcSubtotal cart.items) (calcTax (calcSubtotal cart.items)))
        (calcShipping (calcSubtotal cart.items)) = _
      rw [hsub, htax, hship, e366]
      exact scenario_totals.2.2

/-- The scenario of the specification: the cart of user 7 holds two units at the
captured price 10 and the order goes through. -/
theorem placeOrder_totals_witness :
    (placeOrder sampleIsEmail dbScenario 7 sampleBody).1.status = 201 ∧
    ∃ cart order,
      dbScenario.carts 7 = some cart ∧
      (placeOrder sampleIsEmail dbScenario 7 sampleBody).2.orders =
        dbScenario.orders ++ [order] ∧
      order.subtotal = jsSum (cart.items.map fun l => (l.price, (l.quantity : ℚ))) ∧
      order.tax = jsMul order.subtotal (toBinary64 0.08) ∧
      order.shipping = (if order.subtotal > 100 then 0 else 15) ∧
      order.total = jsAdd (jsAdd order.subtotal order.tax) order.shipping ∧
      ((∀ l ∈ cart.items, 0 ≤ l.price) →
        (cart.items.map fun l => l.price * (l.quantity : ℚ)).sum *
            (1 - 1 / 2 ^ 53) ^ (cart.items.length + 1) ≤ order.subtotal ∧
        order.subtotal ≤ (cart.items.map fun l => l.price * (l.quantity : ℚ)).sum *
            (1 + 1 / 2 ^ 53) ^ (cart.items.length + 1) ∧
        0.08 * order.subtotal * (1 - 1 / 2 ^ 53) ^ 2 ≤ order.tax ∧
        order.tax ≤ 0.08 * order.subtotal * (1 + 1 / 2 ^ 53) ^ 2 ∧
        (order.subtotal + order.tax + order.shipping) * (1 - 1 / 2 ^ 53) ^ 2 ≤ order.total ∧
        order.total ≤ (order.subtotal + order.tax + order.shipping) * (1 + 1 / 2 ^ 53) ^ 2) ∧
      ((cart.items.map fun l => (l.price, l.quantity)) = [(10, 2)] →
        order.subtotal = 20 ∧ order.tax = toBinary64 1.60 ∧ order.shipping = 15 ∧
          order.total = toBinary64 36.60) :=
  ⟨by decide, placeOrder_totals sampleIsEmail dbScenario 7 sampleBody (by decide)⟩

/-- C2, at the failing input: the second cart line asks for five units of a
product with one in stock, yet the answer is the 500 of the `catch` block and
not a 400, because the first line refers to a deleted product and reading its
`inStock` throws.  No order is stored. -/
theorem placeOrder_excess_not_400 :
    dbDangling.carts 7 = some { items := [⟨1, 1, 10⟩, ⟨2, 5, 10⟩] } ∧
    dbDangling.products 1 = none ∧
    (dbDangling.products 2).map (fun p => p.quantity) = some 1 ∧
    (placeOrder sampleIsEmail dbDangling 7 sampleBody).1 = ⟨500, "Server error"⟩ ∧
    (placeOrder sampleIsEmail dbDangling 7 sampleBody).2.orders = [] := by
  decide

/-- What the availability loop guarantees: when some line of the user's cart
asks for more than the current quantity of its product, `POST /api/orders`
changes nothing (same products, orders and carts), the response is an error,
and it is a 400 whenever every cart line still refers to an existing product. -/
theorem placeOrder_rejects_excess (isEmail : String → Bool) (db : Db) (user : UserId)
    (body : OrderBody) (cart : Cart) (item : CartItem) (p : Product)
    (hc : db.carts user = some cart) (hi : item ∈ cart.items)
    (hp : db.products item.product = some p) (hq : p.quantity < (item.quantity : Int)) :
    (placeOrder isEmail db user body).2 = db ∧
    ((placeOrder isEmail db user body).1.status = 400 ∨
      (placeOrder isEmail db user body).1.status = 500) ∧
    ((∀ l ∈ cart.items, db.products l.product ≠ none) →
      (placeOrder isEmail db user body).1.status = 400) := by
  obtain ⟨r, hr, h400⟩ := @verifyAvailable_of_excess db _ _ _ hi hp hq
  have hne : cart.items.length ≠ 0 := by
    intro h0
    rw [List.length_eq_zero] at h0
    rw [h0] at hi
    simp at hi
  have hresp : (placeOrder isEmail db user body).1 = ⟨400, "Validation failed"⟩ ∨
      (placeOrder isEmail db user body).1 = r := by
    unfold placeOrder
    by_cases hv : validateOrderBody isEmail body = true
    · right
      simp [hv, hc, hne, hr]
    · left
      simp [hv]
  have hst : (placeOrder isEmail db user body).1.status = 400 ∨
      (placeOrder isEmail db user body).1.status = 500 := by
    rcases hresp with h | h
    · left; rw [h]
    · rw [h]; exact verifyAvailable_status hr
  refine ⟨placeOrder_state_of_not_created ?_, hst, ?_⟩
  · rcases hst with h | h <;> omega
  · intro hall
    rcases hresp with h | h
    · rw [h]
    · rw [h]; exact h400 hall

/-- A cart asking for six units of a product with five in stock. -/
theorem placeOrder_rejects_excess_witness :
    (placeOrder sampleIsEmail dbExcess 7 sampleBody).2 = dbExcess ∧
    ((placeOrder sampleIsEmail dbExcess 7 sampleBody).1.status = 400 ∨
      (placeOrder sampleIsEmail dbExcess 7 sampleBody).1.status = 500) ∧
    ((∀ l ∈ ({ items := [⟨1, 6, 10⟩] } : Cart).items, dbExcess.products l.product ≠ none) →
      (placeOrder sampleIsEmail dbExcess 7 sampleBody).1.status = 400) :=
  placeOrder_rejects_excess sampleIsEmail dbExcess 7 sampleBody { items := [⟨1, 6, 10⟩] }
    ⟨1, 6, 10⟩ productA (by decide) (by decide) (by decide) (by decide)

/-- C3: after a successful `POST /api/orders` the user's cart has no items, and
every product's quantity is its previous quantity minus the total quantity of
that product over the cart lines (all its other fields are as before); a
product that no cart line refers to is unchanged. -/
theorem placeOrder_clears_cart_and_decrements (isEmail : String → Bool) (db : Db)
    (user : UserId) (body : OrderBody)
    (h : (placeOrder isEmail db user body).1.status = 201) :
    ∃ cart, db.carts user = some cart ∧
      (∃ cart', (placeOrder isEmail db user body).2.carts user = some cart' ∧
        cart'.items = []) ∧
      (∀ i, (placeOrder isEmail db user body).2.products i =
        (db.products i).map fun p =>
          { p with quantity := p.quantity - (orderedQuantity cart.items i : Int) }) ∧
      (∀ i, (∀ l ∈ cart.items, l.product ≠ i) →
        (placeOrder isEmail db user body).2.products i = db.products i) := by
  obtain ⟨cart, ois, -, hc, -, -, -, heq⟩ := placeOrder_success_inv h
  refine ⟨cart, hc, ⟨cart.clearCart, by simp [heq], rfl⟩, ?_, ?_⟩
  · intro i
    rw [heq]
    exact decrementStock_apply cart.items db.products i
  · intro i hi
    rw [heq]
    show decrementStock db.products cart.items i = db.products i
    rw [decrementStock_apply, orderedQuantity_eq_zero hi]
    cases db.products i <;> simp

/-- The scenario order: two units leave the stock of product 1. -/
theorem placeOrder_clears_cart_and_decrements_witness :
    (placeOrder sampleIsEmail dbScenario 7 sampleBody).1.status = 201 ∧
    ∃ cart, dbScenario.carts 7 = some cart ∧
      (∃ cart', (placeOrder sampleIsEmail dbScenario 7 sampleBody).2.carts 7 = some cart' ∧
        cart'.items = []) ∧
      (∀ i, (placeOrder sampleIsEmail dbScenario 7 sampleBody).2.products i =
        (dbScenario.products i).map fun p =>
          { p with quantity := p.quantity - (orderedQuantity cart.items i : Int) }) ∧
      (∀ i, (∀ l ∈ cart.items, l.product ≠ i) →
        (placeOrder sampleIsEmail dbScenario 7 sampleBody).2.products i =
          dbScenario.products i) :=
  ⟨by decide,
    placeOrder_clears_cart_and_decrements sampleIsEmail dbScenario 7 sampleBody (by decide)⟩

/-- C8, at the failing input: product 1 is inactive but in stock, and the order
for it is accepted: 201, one order stored, the stock taken from 5 to 4 and the
cart emptied. -/
theorem placeOrder_accepts_inactive :
    (dbInactive.products 1).map (fun p => (p.isActive, p.inStock, p.quantity)) =
      some (false, true, 5) ∧
    (placeOrder sampleIsEmail dbInactive 7 sampleBody).1 =
      ⟨201, "Order created successfully"⟩ ∧
    (placeOrder sampleIsEmail dbInactive 7 sampleBody).2.orders.length = 1 ∧
    ((placeOrder sampleIsEmail dbInactive 7 sampleBody).2.products 1).map
      (fun p => p.quantity) = some 4 ∧
    (placeOrder sampleIsEmail dbInactive 7 sampleBody).2.carts 7 = some { items := [] } := by
  decide

/-- C9: when the user has no cart, or a cart with zero items, a request with a
valid body is answered 400 "Cart is empty" and the state is unchanged: no order
is created and no product quantity changes. -/
theorem placeOrder_empty_cart (isEmail : String → Bool) (db : Db) (user : UserId)
    (body : OrderBody) (hv : validateOrderBody isEmail body = true)
    (hc : db.carts user = none ∨ ∃ cart, db.carts user = some cart ∧ cart.items.length = 0) :
    placeOrder isEmail db user body = (⟨400, "Cart is empty"⟩, db) := by
  unfold placeOrder
  rcases hc with hc | ⟨cart, hc, h0⟩
  · simp [hv, hc]
  · simp [hv, hc, h0]

/-- A user without a cart document (user 8) and a user whose cart has no lines
(user 7), each with a valid body. -/
theorem placeOrder_empty_cart_witness :
    placeOrder sampleIsEmail dbEmptyCart 8 sampleBody =
      (⟨400, "Cart is empty"⟩, dbEmptyCart) ∧
    placeOrder sampleIsEmail dbEmptyCart 7 sampleBody =
      (⟨400, "Cart is empty"⟩, dbEmptyCart) :=
  ⟨placeOrder_empty_cart sampleIsEmail dbEmptyCart 8 sampleBody (by decide)
      (Or.inl (by decide)),
    placeOrder_empty_cart sampleIsEmail dbEmptyCart 7 sampleBody (by decide)
      (Or.inr ⟨{ items := [] }, by decide, by decide⟩)⟩

/-! ## Cancellation and the order status -/

theorem restoreStock_apply (items : List OrderItem) (products : ProductId → Option Product)
    (i : ProductId) :
    restoreStock products items i =
      (products i).map fun p =>
        { p with quantity := p.quantity + (restoredQuantity items i : Int) } := by
  induction items generalizing products with
  | nil => cases h : products i <;> simp [restoreStock, restoredQuantity, h]
  | cons l ls ih =>
    have hstep : restoreStock products (l :: ls) =
        restoreStock (incQuantity products l.product (l.quantity : Int)) ls := rfl
    rw [hstep, ih]
    by_cases hi : l.product = i
    · subst hi
      cases h : products l.product with
      | none => simp [incQuantity, h]
      | some p =>
        simp only [incQuantity, h, if_true, Option.map_some', restoredQuantity, List.filter_cons,
          decide_True, List.map_cons, List.sum_cons, Nat.cast_add]
        congr 2
        ring
    · have hi2 : ¬ i = l.product := fun e => hi e.symm
      simp [incQuantity, hi, hi2, restoredQuantity, List.filter_cons]

theorem restoredQuantity_eq_zero {items : List OrderItem} {i : ProductId}
    (h : ∀ l ∈ items, l.product ≠ i) : restoredQuantity items i = 0 := by
  have : (items.filter fun l => l.product = i) = [] := by
    rw [List.filter_eq_nil_iff]
    intro l hl
    simpa using h l hl
  simp [restoredQuantity, this]

theorem findOrderOfUser_owner {db : Db} {id : OrderId} {user : UserId} {order : Order}
    (ho : db.orders[id]? = some order) (hu : order.user = user) :
    findOrderOfUser db id user = some order := by
  simp [findOrderOfUser, ho, Option.filter, hu]

theorem findOrderOfUser_other {db : Db} {id : OrderId} {user : UserId} {order : Order}
    (ho : db.orders[id]? = some order) (hu : order.user ≠ user) :
    findOrderOfUser db id user = none := by
  simp [findOrderOfUser, ho, Option.filter, hu]

/-- What a cancellation by the owner of a cancellable order returns. -/
theorem cancelOrder_of_cancellable {db : Db} {user : UserId} {id : OrderId} {order : Order}
    (ho : db.orders[id]? = some order) (hu : order.user = user)
    (hcan : order.canBeCancelled = true) :
    cancelOrder db user id =
      (⟨200, "Order cancelled successfully"⟩,
        { db with
          orders := db.orders.set id { order with status := OrderStatus.cancelled }
          products := restoreStock db.products order.items }) := by
  simp [cancelOrder, findOrderOfUser_owner ho hu, hcan]

/-- What a cancellation by the owner of an order that cannot be cancelled returns. -/
theorem cancelOrder_of_not_cancellable {db : Db} {user : UserId} {id : OrderId}
    {order : Order} (ho : db.orders[id]? = some order) (hu : order.user = user)
    (hcan : order.canBeCancelled = false) :
    cancelOrder db user id = (⟨400, "Order cannot be cancelled"⟩, db) := by
  simp [cancelOrder, findOrderOfUser_owner ho hu, hcan]

/-- C4: for an order owned by the requesting user whose status permits
cancellation, `PUT /api/orders/:id/cancel` answers 200, sets the order's status
to `cancelled`, and adds to every product's quantity exactly the quantity of
that product over the order's lines; products without a line in the order are
unchanged. -/
theorem cancelOrder_restores_stock (db : Db) (user : UserId) (id : OrderId) (order : Order)
    (ho : db.orders[id]? = some order) (hu : order.user = user)
    (hcan : order.canBeCancelled = true) :
    (cancelOrder db user id).1 = ⟨200, "Order cancelled successfully"⟩ ∧
    (cancelOrder db user id).2.orders[id]? =
      some { order with status := OrderStatus.cancelled } ∧
    (∀ i, (cancelOrder db user id).2.products i =
      (db.products i).map fun p =>
        { p with quantity := p.quantity + (restoredQuantity order.items i : Int) }) ∧
    (∀ i, (∀ l ∈ order.items, l.product ≠ i) →
      (cancelOrder db user id).2.products i = db.products i) := by
  have hlt : id < db.orders.length := by
    rcases Nat.lt_or_ge id db.orders.length with h | h
    · exact h
    · rw [List.getElem?_eq_none h] at ho
      cases ho
  rw [cancelOrder_of_cancellable ho hu hcan]
  refine ⟨rfl, ?_, ?_, ?_⟩
  · simp [List.getElem?_set_self hlt]
  · intro i
    exact restoreStock_apply order.items db.products i
  · intro i hi
    show restoreStock db.products order.items i = db.products i
    rw [restoreStock_apply, restoredQuantity_eq_zero hi]
    cases db.products i <;> simp

/-- User 7 cancels the pending order 0: the two units return to product 1. -/
theorem cancelOrder_restores_stock_witness :
    (cancelOrder (dbWithOrder OrderStatus.pending) 7 0).1 =
      ⟨200, "Order cancelled successfully"⟩ ∧
    (cancelOrder (dbWithOrder OrderStatus.pending) 7 0).2.orders[0]? =
      some { sampleOrder 7 OrderStatus.pending with status := OrderStatus.cancelled } ∧
    (∀ i, (cancelOrder (dbWithOrder OrderStatus.pending) 7 0).2.products i =
      ((dbWithOrder OrderStatus.pending).products i).map fun p =>
        { p with quantity := p.quantity +
            (restoredQuantity (sampleOrder 7 OrderStatus.pending).items i : Int) }) ∧
    (∀ i, (∀ l ∈ (sampleOrder 7 OrderStatus.pending).items, l.product ≠ i) →
      (cancelOrder (dbWithOrder OrderStatus.pending) 7 0).2.products i =
        (dbWithOrder OrderStatus.pending).products i) :=
  cancelOrder_restores_stock (dbWithOrder OrderStatus.pending) 7 0
    (sampleOrder 7 OrderStatus.pending) rfl rfl rfl

/-- C5, as stated, fails: order 0 is shipped and belongs to user 7; the cancel
request of user 8 is answered 404, not 400. -/
theorem cancelOrder_shipped_other_user :
    (dbWithOrder OrderStatus.shipped).orders.map (fun o => (o.user, o.status)) =
      [(7, OrderStatus.shipped)] ∧
    (cancelOrder (dbWithOrder OrderStatus.shipped) 8 0).1 = ⟨404, "Order not found"⟩ := by
  decide

/-- C5 (amended): for an order owned by the requesting user whose status is
`shipped`, `delivered` or `cancelled`, the cancel request is answered 400
"Order cannot be cancelled" and the state is unchanged (the order's status and
every product's quantity); and once the owner has cancelled a cancellable
order, cancelling it again is rejected in the same way, so that the stock is
restored only once. -/
theorem cancelOrder_rejected (db : Db) (user : UserId) (id : OrderId) (order : Order)
    (ho : db.orders[id]? = some order) (hu : order.user = user) :
    ((order.status = OrderStatus.shipped ∨ order.status = OrderStatus.delivered ∨
        order.status = OrderStatus.cancelled) →
      cancelOrder db user id = (⟨400, "Order cannot be cancelled"⟩, db)) ∧
    (order.canBeCancelled = true →
      cancelOrder (cancelOrder db user id).2 user id =
        (⟨400, "Order cannot be cancelled"⟩, (cancelOrder db user id).2)) := by
  constructor
  · intro hst
    apply cancelOrder_of_not_cancellable ho hu
    rcases hst with h | h | h <;> simp [Order.canBeCancelled, h]
  · intro hcan
    have hlt : id < db.orders.length := by
      rcases Nat.lt_or_ge id db.orders.length with h | h
      · exact h
      · rw [List.getElem?_eq_none h] at ho
        cases ho
    rw [cancelOrder_of_cancellable ho hu hcan]
    refine @cancelOrder_of_not_cancellable _ user id
      { order with status := OrderStatus.cancelled } ?_ hu rfl
    simp [List.getElem?_set_self hlt]

/-- User 7 asks to cancel the own order 0 when it is delivered, and asks twice
when it is pending. -/
theorem cancelOrder_rejected_witness :
    cancelOrder (dbWithOrder OrderStatus.delivered) 7 0 =
      (⟨400, "Order cannot be cancelled"⟩, dbWithOrder OrderStatus.delivered) ∧
    cancelOrder (cancelOrder (dbWithOrder OrderStatus.pending) 7 0).2 7 0 =
      (⟨400, "Order cannot be cancelled"⟩,
        (cancelOrder (dbWithOrder OrderStatus.pending) 7 0).2) :=
  ⟨(cancelOrder_rejected (dbWithOrder OrderStatus.delivered) 7 0
      (sampleOrder 7 OrderStatus.delivered) rfl rfl).1 (Or.inr (Or.inl rfl)),
    (cancelOrder_rejected (dbWithOrder OrderStatus.pending) 7 0
      (sampleOrder 7 OrderStatus.pending) rfl rfl).2 rfl⟩

/-- C10, as stated, fails: the admin route takes a delivered order back to
`pending` and a shipped order to `cancelled`. -/
theorem adminUpdateOrderStatus_leaves_state_machine :
    (adminUpdateOrderStatus (dbWithOrder OrderStatus.delivered) 0 "pending").1.status = 200 ∧
    (adminUpdateOrderStatus (dbWithOrder OrderStatus.delivered) 0 "pending").2.orders.map
      (fun o => o.status) = [OrderStatus.pending] ∧
    (adminUpdateOrderStatus (dbWithOrder OrderStatus.shipped) 0 "cancelled").1.status = 200 ∧
    (adminUpdateOrderStatus (dbWithOrder OrderStatus.shipped) 0 "cancelled").2.orders.map
      (fun o => o.status) = [OrderStatus.cancelled] := by
  decide

theorem validStatuses_iff_ofString (s : String) :
    validStatuses.contains s = true ↔ ∃ st, OrderStatus.ofString s = some st := by
  simp only [validStatuses, List.contains_eq_any_beq, List.any_cons, List.any_nil,
    Bool.or_false, Bool.or_eq_true, beq_iff_eq, OrderStatus.ofString]
  constructor
  · rintro (h | h | h | h | h) <;> subst h <;> simp
  · rintro ⟨st, h⟩
    by_cases h1 : s = "pending"
    · exact Or.inl h1
    by_cases h2 : s = "processing"
    · exact Or.inr (Or.inl h2)
    by_cases h3 : s = "shipped"
    · exact Or.inr (Or.inr (Or.inl h3))
    by_cases h4 : s = "delivered"
    · exact Or.inr (Or.inr (Or.inr (Or.inl h4)))
    by_cases h5 : s = "cancelled"
    · exact Or.inr (Or.inr (Or.inr (Or.inr h5)))
    simp [h1, h2, h3, h4, h5] at h

/-- C10 (amended): a user cancellation changes the status of an order only from
`pending` or `processing`, and only to `cancelled`; the admin update, for each
of the five status names and whatever the current status is, answers 200 and
sets the order's status to the named one.  Neither request touches another
order. -/
theorem order_status_changes (db : Db) (id : OrderId) (order : Order)
    (ho : db.orders[id]? = some order) :
    (∀ user order', (cancelOrder db user id).2.orders[id]? = some order' →
      order'.status ≠ order.status →
      (order.status = OrderStatus.pending ∨ order.status = OrderStatus.processing) ∧
        order'.status = OrderStatus.cancelled) ∧
    (∀ s, validStatuses.contains s = true →
      ∃ st, OrderStatus.ofString s = some st ∧
        (adminUpdateOrderStatus db id s).1.status = 200 ∧
        (adminUpdateOrderStatus db id s).2.orders[id]? = some { order with status := st }) ∧
    (∀ user j, j ≠ id → (cancelOrder db user id).2.orders[j]? = db.orders[j]?) ∧
    (∀ s j, j ≠ id → (adminUpdateOrderStatus db id s).2.orders[j]? = db.orders[j]?) := by
  have hlt : id < db.orders.length := by
    rcases Nat.lt_or_ge id db.orders.length with h | h
    · exact h
    · rw [List.getElem?_eq_none h] at ho
      cases ho
  refine ⟨?_, ?_, ?_, ?_⟩
  · intro user order' ho' hne
    by_cases hu : order.user = user
    · cases hcan : order.canBeCancelled with
      | true =>
        rw [cancelOrder_of_cancellable ho hu hcan] at ho'
        simp [List.getElem?_set_self hlt] at ho'
        subst ho'
        refine ⟨?_, rfl⟩
        unfold Order.canBeCancelled at hcan
        split at hcan <;> simp_all
      | false =>
        rw [cancelOrder_of_not_cancellable ho hu hcan, ho] at ho'
        cases ho'
        exact absurd rfl hne
    · have hnone : cancelOrder db user id = (⟨404, "Order not found"⟩, db) := by
        simp [cancelOrder, findOrderOfUser_other ho hu]
      rw [hnone, ho] at ho'
      cases ho'
      exact absurd rfl hne
  · intro s hs
    obtain ⟨st, hst⟩ := (validStatuses_iff_ofString s).mp hs
    have hs' : s ∈ validStatuses := by simpa using hs
    refine ⟨st, hst, ?_, ?_⟩
    · simp [adminUpdateOrderStatus, hs', hst, ho]
    · simp [adminUpdateOrderStatus, hs', hst, ho, List.getElem?_set_self hlt]
  · intro user j hj
    unfold cancelOrder
    split
    · rfl
    · split
      · rfl
      · simp [List.getElem?_set_ne (Ne.symm hj)]
  · intro s j hj
    unfold adminUpdateOrderStatus
    split
    · rfl
    · split
      · simp [List.getElem?_set_ne (Ne.symm hj)]
      · rfl

/-- The delivered order 0 of user 7: a cancel request leaves it alone, the admin
update to "processing" goes through. -/
theorem order_status_changes_witness :
    (∀ user order',
      (cancelOrder (dbWithOrder OrderStatus.delivered) user 0).2.orders[0]? = some order' →
      order'.status ≠ (sampleOrder 7 OrderStatus.delivered).status →
      ((sampleOrder 7 OrderStatus.delivered).status = OrderStatus.pending ∨
          (sampleOrder 7 OrderStatus.delivered).status = OrderStatus.processing) ∧
        order'.status = OrderStatus.cancelled) ∧
    (∀ s, validStatuses.contains s = true →
      ∃ st, OrderStatus.ofString s = some st ∧
        (adminUpdateOrderStatus (dbWithOrder OrderStatus.delivered) 0 s).1.status = 200 ∧
        (adminUpdateOrderStatus (dbWithOrder OrderStatus.delivered) 0 s).2.orders[0]? =
          some { sampleOrder 7 OrderStatus.delivered with status := st }) ∧
    (∀ user j, j ≠ 0 →
      (cancelOrder (dbWithOrder OrderStatus.delivered) user 0).2.orders[j]? =
        (dbWithOrder OrderStatus.delivered).orders[j]?) ∧
    (∀ s j, j ≠ 0 →
      (adminUpdateOrderStatus (dbWithOrder OrderStatus.delivered) 0 s).2.orders[j]? =
        (dbWithOrder OrderStatus.delivered).orders[j]?) :=
  order_status_changes (dbWithOrder OrderStatus.delivered) 0
    (sampleOrder 7 OrderStatus.delivered) rfl

/-! ## Captured prices -/

theorem sameUpToPrice_cases {ps qs : ProductId → Option Product} (h : SameUpToPrice ps qs)
    (i : ProductId) :
    (ps i = none ∧ qs i = none) ∨
    ∃ p q, ps i = some p ∧ qs i = some q ∧ p.name = q.name ∧ p.sku = q.sku ∧
      p.quantity = q.quantity ∧ p.inStock = q.inStock ∧ p.images = q.images := by
  have hi := h i
  cases hp : ps i with
  | none =>
    cases hq : qs i with
    | none => exact Or.inl ⟨rfl, rfl⟩
    | some q => simp [hp, hq] at hi
  | some p =>
    cases hq : qs i with
    | none => simp [hp, hq] at hi
    | some q =>
      simp only [hp, hq, Option.map_some', Option.some.injEq, Product.mk.injEq] at hi
      exact Or.inr ⟨p, q, rfl, rfl, hi.1, hi.2.1, hi.2.2.2.2.1, hi.2.2.2.2.2.1, hi.2.2.2.2.2.2.2.1⟩

theorem verifyAvailable_sameUpToPrice {db1 db2 : Db}
    (h : SameUpToPrice db1.products db2.products) (items : List CartItem) :
    verifyAvailable (populate db1 items) = verifyAvailable (populate db2 items) := by
  induction items with
  | nil => rfl
  | cons l ls ih =>
    rcases sameUpToPrice_cases h l.product with ⟨h1, h2⟩ | ⟨p, q, h1, h2, hn, -, hq, hs, -⟩
    · simp [populate, h1, h2, verifyAvailable]
    · simp only [populate, List.map_cons, h1, h2, verifyAvailable, hn, hq, hs]
      simp only [populate] at ih
      rw [ih]

theorem buildOrderItems_sameUpToPrice {db1 db2 : Db}
    (h : SameUpToPrice db1.products db2.products) (items : List CartItem) :
    buildOrderItems (populate db1 items) = buildOrderItems (populate db2 items) := by
  induction items with
  | nil => rfl
  | cons l ls ih =>
    rcases sameUpToPrice_cases h l.product with ⟨h1, h2⟩ | ⟨p, q, h1, h2, hn, hk, -, -, him⟩
    · simp [populate, h1, h2, buildOrderItems, toOrderItem]
    · simp only [populate, List.map_cons, h1, h2, buildOrderItems, toOrderItem, hn, hk, him]
      simp only [populate] at ih
      rw [ih]

theorem buildOrderItems_prices {db : Db} {items : List CartItem} {ois : List OrderItem}
    (h : buildOrderItems (populate db items) = some ois) :
    ois.map (fun oi => oi.price) = items.map (fun l => l.price) := by
  induction items generalizing ois with
  | nil =>
    simp [populate, buildOrderItems] at h
    subst h
    rfl
  | cons l ls ih =>
    cases hp : db.products l.product with
    | none => simp [populate, buildOrderItems, toOrderItem, hp] at h
    | some p =>
      simp only [populate, List.map_cons, hp, buildOrderItems, toOrderItem, Option.map_eq_some']
        at h
      obtain ⟨rest, hrest, rfl⟩ := h
      simp [ih hrest]

/-- C7: the order created by `POST /api/orders` is computed from the price stored
on each cart line, not from the product's catalog price.  For two states that
differ only in the `price` of their products the responses are the same and so
are the stored orders (hence their line prices, subtotal, tax, shipping and
total); and on success the prices of the order lines are, in order, the
captured prices of the cart lines. -/
theorem placeOrder_uses_captured_price (isEmail : String → Bool) (db1 db2 : Db)
    (user : UserId) (body : OrderBody)
    (hp : SameUpToPrice db1.products db2.products) (hc : db1.carts = db2.carts)
    (ho : db1.orders = db2.orders) (_hr : db1.reviews = db2.reviews) :
    (placeOrder isEmail db1 user body).1 = (placeOrder isEmail db2 user body).1 ∧
    (placeOrder isEmail db1 user body).2.orders = (placeOrder isEmail db2 user body).2.orders ∧
    ((placeOrder isEmail db1 user body).1.status = 201 →
      ∃ cart order, db1.carts user = some cart ∧
        (placeOrder isEmail db1 user body).2.orders = db1.orders ++ [order] ∧
        order.items.map (fun oi => oi.price) = cart.items.map (fun l => l.price)) := by
  have hboth : (placeOrder isEmail db1 user body).1 = (placeOrder isEmail db2 user body).1 ∧
      (placeOrder isEmail db1 user body).2.orders =
        (placeOrder isEmail db2 user body).2.orders := by
    unfold placeOrder
    rw [← hc, ← ho]
    split
    · exact ⟨rfl, ho⟩
    · split
      · exact ⟨rfl, ho⟩
      · rename_i cart _
        split
        · exact ⟨rfl, ho⟩
        · rw [← verifyAvailable_sameUpToPrice hp cart.items,
            ← buildOrderItems_sameUpToPrice hp cart.items]
          split
          · exact ⟨rfl, ho⟩
          · split
            · exact ⟨rfl, ho⟩
            · exact ⟨rfl, rfl⟩
  refine ⟨hboth.1, hboth.2, ?_⟩
  intro h
  obtain ⟨cart, ois, -, hcart, -, -, hois, heq⟩ := placeOrder_success_inv h
  exact ⟨cart, placedOrder user body cart ois, hcart, by rw [heq], buildOrderItems_prices hois⟩

/-- The scenario state and the same state with the catalog price raised from 10
to 99. -/
theorem placeOrder_uses_captured_price_witness :
    (placeOrder sampleIsEmail dbScenario 7 sampleBody).1.status = 201 ∧
    (placeOrder sampleIsEmail dbScenario 7 sampleBody).1 =
      (placeOrder sampleIsEmail dbRepriced 7 sampleBody).1 ∧
    (placeOrder sampleIsEmail dbScenario 7 sampleBody).2.orders =
      (placeOrder sampleIsEmail dbRepriced 7 sampleBody).2.orders ∧
    ((placeOrder sampleIsEmail dbScenario 7 sampleBody).1.status = 201 →
      ∃ cart order, dbScenario.carts 7 = some cart ∧
        (placeOrder sampleIsEmail dbScenario 7 sampleBody).2.orders =
          dbScenario.orders ++ [order] ∧
        order.items.map (fun oi => oi.price) = cart.items.map (fun l => l.price)) :=
  ⟨by decide,
    placeOrder_uses_captured_price sampleIsEmail dbScenario dbRepriced 7 sampleBody
      (by
        intro i
        by_cases h : i = 1
        · simp [dbScenario, dbRepriced, h, productA]
        · simp [dbScenario, dbRepriced, h])
      rfl rfl rfl⟩

/-! ## One review per user and product -/

theorem findReview_isSome_of_mem {db : Db} {user : UserId} {productId : ProductId}
    (h : ∃ r ∈ db.reviews, r.user = user ∧ r.product = productId) :
    ∃ r, findReview db productId user = some r := by
  obtain ⟨r, hr, hu, hp⟩ := h
  have : (findReview db productId user).isSome = true := by
    rw [findReview, List.find?_isSome]
    exact ⟨r, hr, by simp [hu, hp]⟩
  exact Option.isSome_iff_exists.mp this

theorem placeOrder_reviews (isEmail : String → Bool) (db : Db) (user : UserId)
    (body : OrderBody) : (placeOrder isEmail db user body).2.reviews = db.reviews := by
  by_cases h : (placeOrder isEmail db user body).1.status = 201
  · obtain ⟨cart, ois, -, -, -, -, -, heq⟩ := placeOrder_success_inv h
    rw [heq]
  · rw [placeOrder_state_of_not_created h]

theorem createReview_reviews (db : Db) (user : UserId) (body : ReviewBody) :
    (createReview db user body).2 = db ∨
    (findReview db body.productId user = none ∧
      ∃ r, r.user = user ∧ r.product = body.productId ∧
        (createReview db user body).2.reviews = db.reviews ++ [r]) := by
  unfold createReview
  split
  · exact Or.inl rfl
  · split
    · exact Or.inl rfl
    · split
      · exact Or.inl rfl
      · split
        · exact Or.inl rfl
        · split
          · exact Or.inl rfl
          · rename_i hnone
            exact Or.inr ⟨hnone, _, rfl, rfl, rfl⟩

theorem handle_preserves_uniqueReviews (isEmail : String → Bool) (db : Db) (req : Request)
    (h : UniqueReviews db) : UniqueReviews (handle isEmail db req).2 := by
  cases req with
  | placeOrder user body =>
    simp only [handle, UniqueReviews, placeOrder_reviews]
    exact h
  | cancelOrder user id =>
    simp only [handle, cancelOrder]
    split
    · exact h
    · split
      · exact h
      · exact h
  | adminUpdateOrderStatus id status =>
    simp only [handle, adminUpdateOrderStatus]
    split
    · exact h
    · split
      · exact h
      · exact h
  | adminDeleteProduct id =>
    simp only [handle, adminDeleteProduct]
    split
    · exact h
    · exact h
  | createReview user body =>
    simp only [handle]
    rcases createReview_reviews db user body with heq | ⟨hnone, r, hu, hp, heq⟩
    · rw [heq]
      exact h
    · simp only [UniqueReviews, heq, List.map_append, List.map_cons, List.map_nil]
      rw [List.nodup_append]
      refine ⟨h, List.nodup_singleton _, ?_⟩
      rw [List.disjoint_singleton]
      intro hmem
      obtain ⟨r', hr', hpair⟩ := List.mem_map.mp hmem
      simp only [Prod.mk.injEq] at hpair
      rw [findReview, List.find?_eq_none] at hnone
      exact hnone r' hr' (by simp [hpair.1, hpair.2, hu, hp])
  | markReviewHelpful id =>
    simp only [handle, markReviewHelpful]
    split
    · exact h
    · rename_i review hrev
      simp only [UniqueReviews]
      have hset : (db.reviews.set id { review with helpfulVotes := review.helpfulVotes + 1 }).map
          (fun r => (r.user, r.product)) = db.reviews.map (fun r => (r.user, r.product)) := by
        apply List.ext_getElem?
        intro j
        by_cases hj : id = j
        · subst hj
          have hlt : id < db.reviews.length := by
            rcases Nat.lt_or_ge id db.reviews.length with h' | h'
            · exact h'
            · rw [List.getElem?_eq_none h'] at hrev
              cases hrev
          rw [List.getElem?_map, List.getElem?_set_self hlt, List.getElem?_map, hrev]
          rfl
        · rw [List.getElem?_map, List.getElem?_set_ne hj, List.getElem?_map]
      rw [hset]
      exact h

theorem run_preserves_uniqueReviews (isEmail : String → Bool) (reqs : List Request) (db : Db)
    (h : UniqueReviews db) : UniqueReviews (run isEmail db reqs) := by
  induction reqs generalizing db with
  | nil => exact h
  | cons r rs ih => exact ih _ (handle_preserves_uniqueReviews isEmail db r h)

/-- C6, as stated, fails: user 7 has reviewed product 1, and the second review
request is answered 404 "Product not found" because the product has since been
deleted; the duplicate check is not reached. -/
theorem createReview_duplicate_not_400 :
    dbReviewedDeleted.reviews.map (fun r => (r.user, r.product)) = [(7, 1)] ∧
    sampleReviewBody.productId = 1 ∧
    (createReview dbReviewedDeleted 7 sampleReviewBody).1 = ⟨404, "Product not found"⟩ := by
  decide

/-- C6 (amended): when a review by the user for the product already exists,
`POST /api/reviews` creates no review (the state is unchanged) and answers 400
or 404; the answer is 400 "You have already reviewed this product" when the
request passes the checks made before the duplicate check.  Hence the property
that no two reviews share their (user, product) pair holds in every state
reached by serving requests from a state that has it, such as one without
reviews. -/
theorem review_unique_per_user_product :
    (∀ (db : Db) (user : UserId) (body : ReviewBody),
      (∃ r ∈ db.reviews, r.user = user ∧ r.product = body.productId) →
        (createReview db user body).2 = db ∧
        ((createReview db user body).1.status = 400 ∨
          (createReview db user body).1.status = 404) ∧
        (ReviewChecksPass db user body →
          (createReview db user body).1 =
            ⟨400, "You have already reviewed this product"⟩)) ∧
    (∀ (isEmail : String → Bool) (db : Db) (reqs : List Request),
      UniqueReviews db → UniqueReviews (run isEmail db reqs)) ∧
    (∀ db : Db, db.reviews = [] → UniqueReviews db) := by
  refine ⟨?_, fun isEmail db reqs h => run_preserves_uniqueReviews isEmail reqs db h, ?_⟩
  · intro db user body hex
    obtain ⟨r, hr⟩ := findReview_isSome_of_mem hex
    refine ⟨?_, ?_, ?_⟩
    · rcases createReview_reviews db user body with h | ⟨hnone, -⟩
      · exact h
      · rw [hr] at hnone
        cases hnone
    · unfold createReview
      split
      · exact Or.inl rfl
      · split
        · exact Or.inr rfl
        · split
          · exact Or.inl rfl
          · split
            · exact Or.inl rfl
            · split
              · exact Or.inl rfl
              · rename_i hnone
                rw [hr] at hnone
                cases hnone
    · rintro ⟨hv, hprod, order, ho, hu, hst, item, hitem, hip⟩
      obtain ⟨p, hp⟩ := Option.ne_none_iff_exists'.mp hprod
      have hfind : ∃ it, order.items.find? (fun item => item.product = body.productId) = some it := by
        apply Option.isSome_iff_exists.mp
        rw [List.find?_isSome]
        exact ⟨item, hitem, by simp [hip]⟩
      obtain ⟨it, hit⟩ := hfind
      simp [createReview, hv, hp, ho, Option.filter, hu, hst, hit, hr]
  · intro db h
    simp [UniqueReviews, h]

/-- User 7, who has reviewed product 1 of the delivered order 0, sends a second
review of it. -/
theorem review_unique_per_user_product_witness :
    (createReview dbReviewed 7 sampleReviewBody).2 = dbReviewed ∧
    (createReview dbReviewed 7 sampleReviewBody).1 =
      ⟨400, "You have already reviewed this product"⟩ ∧
    UniqueReviews (run sampleIsEmail dbReviewed
      [Request.createReview 7 sampleReviewBody, Request.markReviewHelpful 0]) :=
  have h := review_unique_per_user_product.1 dbReviewed 7 sampleReviewBody
    ⟨sampleReview, by decide, by decide, by decide⟩
  ⟨h.1,
    h.2.2 ⟨by decide, by decide, sampleOrder 7 OrderStatus.delivered, rfl, by decide,
      by decide, _, List.mem_singleton.mpr rfl, by decide⟩,
    review_unique_per_user_product.2.1 sampleIsEmail dbReviewed _
      (by unfold UniqueReviews; decide)⟩

/-! ## The order that entitles to a review -/

theorem createReview_of_not_eligible {db : Db} {user : UserId} {body : ReviewBody}
    (h : ¬ EligibleOrder db user body) :
    (createReview db user body).2 = db ∧
    ((createReview db user body).1.status = 400 ∨
      ((createReview db user body).1.status = 404 ∧ db.products body.productId = none)) := by
  unfold createReview
  split
  · exact ⟨rfl, Or.inl rfl⟩
  · split
    · rename_i hnone
      exact ⟨rfl, Or.inr ⟨rfl, hnone⟩⟩
    · split
      · exact ⟨rfl, Or.inl rfl⟩
      · rename_i order hord
        split
        · exact ⟨rfl, Or.inl rfl⟩
        · rename_i it hit
          exfalso
          apply h
          cases hget : db.orders[body.orderId]? with
          | none => simp [hget, Option.filter] at hord
          | some o =>
            simp only [hget, Option.filter] at hord
            split at hord
            · rename_i hcond
              have ho := Option.some.inj hord
              subst ho
              simp only [Bool.and_eq_true, decide_eq_true_eq] at hcond
              refine ⟨o, hget, hcond.1, hcond.2, it, List.mem_of_find?_eq_some hit, ?_⟩
              simpa using List.find?_some hit
            · cases hord

/-- C11, as stated, fails: order 0 is not delivered, so the request is not
entitled to a review, but the answer is 404 and not 400, because the product
has been deleted and the product lookup comes first. -/
theorem createReview_ineligible_not_400 :
    dbPendingDeleted.orders.map (fun o => (o.user, o.status)) = [(7, OrderStatus.pending)] ∧
    sampleReviewBody.orderId = 0 ∧
    (createReview dbPendingDeleted 7 sampleReviewBody).1 = ⟨404, "Product not found"⟩ := by
  decide

/-- C11 (amended): `POST /api/reviews` creates a review only if the referenced
order exists, belongs to the requesting user, has status `delivered` and has a
line for the reviewed product.  If any of these fails no review is created, the
state is unchanged, and the response is 400, or 404 when the reviewed product
does not exist (a check made before the order is looked up). -/
theorem createReview_requires_delivered_order (db : Db) (user : UserId) (body : ReviewBody) :
    ((createReview db user body).1.status = 201 → EligibleOrder db user body) ∧
    ((createReview db user body).2.reviews ≠ db.reviews → EligibleOrder db user body) ∧
    (¬ EligibleOrder db user body →
      (createReview db user body).2 = db ∧
      ((createReview db user body).1.status = 400 ∨
        ((createReview db user body).1.status = 404 ∧ db.products body.productId = none)) ∧
      (db.products body.productId ≠ none → (createReview db user body).1.status = 400)) := by
  refine ⟨?_, ?_, ?_⟩
  · intro h201
    by_contra hne
    rcases (createReview_of_not_eligible hne).2 with h | ⟨h, -⟩ <;> omega
  · intro hrev
    by_contra hne
    exact hrev (by rw [(createReview_of_not_eligible hne).1])
  · intro hne
    obtain ⟨hdb, hst⟩ := createReview_of_not_eligible hne
    refine ⟨hdb, hst, ?_⟩
    intro hprod
    rcases hst with h | ⟨-, h⟩
    · exact h
    · exact absurd h hprod

/-- User 7 reviews product 1 of the delivered order 0 (a review is created and
the order is as required), and tries the same while the order is pending. -/
theorem createReview_requires_delivered_order_witness :
    (createReview (dbWithOrder OrderStatus.delivered) 7 sampleReviewBody).1.status = 201 ∧
    EligibleOrder (dbWithOrder OrderStatus.delivered) 7 sampleReviewBody ∧
    (createReview (dbWithOrder OrderStatus.pending) 7 sampleReviewBody).2 =
      dbWithOrder OrderStatus.pending ∧
    (createReview (dbWithOrder OrderStatus.pending) 7 sampleReviewBody).1.status = 400 :=
  have hno : ¬ EligibleOrder (dbWithOrder OrderStatus.pending) 7 sampleReviewBody := by
    rintro ⟨order, ho, -, hst, -⟩
    have h0 : (dbWithOrder OrderStatus.pending).orders[sampleReviewBody.orderId]? =
        some (sampleOrder 7 OrderStatus.pending) := rfl
    rw [h0] at ho
    cases ho
    cases hst
  ⟨by decide,
    (createReview_requires_delivered_order (dbWithOrder OrderStatus.delivered) 7
      sampleReviewBody).1 (by decide),
    ((createReview_requires_delivered_order (dbWithOrder OrderStatus.pending) 7
      sampleReviewBody).2.2 hno).1,
    ((createReview_requires_delivered_order (dbWithOrder OrderStatus.pending) 7
      sampleReviewBody).2.2 hno).2.2 (by decide)⟩

/-! ## The aggregate rating -/

theorem mathRound_bounds (x : ℚ) : x - 1 / 2 < (mathRound x : ℚ) ∧ (mathRound x : ℚ) ≤ x + 1 / 2 := by
  unfold mathRound
  constructor
  · have := Int.lt_floor_add_one (x + 1 / 2)
    linarith
  · exact Int.floor_le (x + 1 / 2)

theorem mathRound_mono {x y : ℚ} (h : x ≤ y) : mathRound x ≤ mathRound y := by
  unfold mathRound
  exact Int.floor_mono (by linarith)

theorem mathRound_intCast (n : ℤ) : mathRound (n : ℚ) = n := by
  unfold mathRound
  rw [Int.floor_eq_iff]
  constructor <;> linarith

theorem sum_ratings_bounds (ratings : List Int) (h : ∀ r ∈ ratings, 1 ≤ r ∧ r ≤ 5) :
    (ratings.length : ℚ) ≤ (ratings.map fun (r : Int) => (r : ℚ)).sum ∧
    (ratings.map fun (r : Int) => (r : ℚ)).sum ≤ 5 * (ratings.length : ℚ) := by
  induction ratings with
  | nil => simp
  | cons r rs ih =>
    have hr := h r (List.mem_cons_self _ _)
    have hrs := ih fun x hx => h x (List.mem_cons_of_mem _ hx)
    have h1 : (1 : ℚ) ≤ (r : ℚ) := by exact_mod_cast hr.1
    have h5 : (r : ℚ) ≤ 5 := by exact_mod_cast hr.2
    simp only [List.map_cons, List.sum_cons, List.length_cons, Nat.cast_add, Nat.cast_one]
    constructor <;> linarith [hrs.1, hrs.2]

theorem meanRating_bounds {ratings : List Int} (hne : ratings ≠ [])
    (h : ∀ r ∈ ratings, 1 ≤ r ∧ r ≤ 5) : 1 ≤ meanRating ratings ∧ meanRating ratings ≤ 5 := by
  have hlen : (0 : ℚ) < (ratings.length : ℚ) := by
    have : 0 < ratings.length := List.length_pos.mpr hne
    exact_mod_cast this
  obtain ⟨hlo, hhi⟩ := sum_ratings_bounds ratings h
  unfold meanRating
  constructor
  · rw [le_div_iff₀ hlen]
    linarith
  · rw [div_le_iff₀ hlen]
    linarith

/-- C12: after `Review.calcAverageRating(productId)` the product's
`rating.count` is the number of approved reviews of the product; when there
are none, count and average are 0; otherwise the average is the mean of their
ratings rounded to one decimal place (a multiple of 1/10 within 1/20 of the
mean, a tie going up).  When those ratings lie in 1..5, the average is 0 or
lies in [1, 5].  No other product is touched. -/
theorem calcAverageRating_spec (reviews : List Review) (productId : ProductId)
    (products : ProductId → Option Product) (p : Product) (hp : products productId = some p) :
    ∃ p', calcAverageRating reviews productId products productId = some p' ∧
      p'.ratingCount = (approvedRatings reviews productId).length ∧
      (approvedRatings reviews productId = [] → p'.ratingAverage = 0 ∧ p'.ratingCount = 0) ∧
      (approvedRatings reviews productId ≠ [] →
        ∃ k : ℤ, p'.ratingAverage = (k : ℚ) / 10 ∧
          meanRating (approvedRatings reviews productId) - 1 / 20 < p'.ratingAverage ∧
          p'.ratingAverage ≤ meanRating (approvedRatings reviews productId) + 1 / 20) ∧
      ((∀ r ∈ approvedRatings reviews productId, 1 ≤ r ∧ r ≤ 5) →
        p'.ratingAverage = 0 ∨ (1 ≤ p'.ratingAverage ∧ p'.ratingAverage ≤ 5)) ∧
      (∀ j, j ≠ productId → calcAverageRating reviews productId products j = products j) := by
  have hlen : (approvedRatings reviews productId).length =
      (reviews.filter fun r => r.product = productId && r.isApproved).length := by
    simp [approvedRatings]
  have hmean : meanRating (approvedRatings reviews productId) =
      ((reviews.filter fun r => r.product = productId && r.isApproved).map
        fun r => (r.rating : ℚ)).sum /
      ((reviews.filter fun r => r.product = productId && r.isApproved).length : ℚ) := by
    simp [meanRating, approvedRatings, List.map_map, Function.comp_def]
  by_cases hpos : (reviews.filter fun r => r.product = productId && r.isApproved).length > 0
  · have hne : approvedRatings reviews productId ≠ [] := by
      intro h
      rw [h] at hlen
      simp at hlen
      omega
    have hround := mathRound_bounds (meanRating (approvedRatings reviews productId) * 10)
    have hval : calcAverageRating reviews productId products productId =
        some { p with
          ratingAverage :=
            (mathRound (((reviews.filter fun r => r.product = productId && r.isApproved).map
              fun r => (r.rating : ℚ)).sum /
              ((reviews.filter fun r => r.product = productId && r.isApproved).length : ℚ) *
              10) : ℚ) / 10
          ratingCount :=
            (reviews.filter fun r => r.product = productId && r.isApproved).length } := by
      simp only [calcAverageRating, hpos, if_true, hp, Option.map_some']
    refine ⟨_, hval, ?_, ?_, ?_, ?_, ?_⟩
    · exact hlen.symm
    · intro h
      exact absurd h hne
    · intro _
      refine ⟨mathRound (meanRating (approvedRatings reviews productId) * 10), ?_, ?_, ?_⟩
      · simp only [hmean]
      · simp only [← hmean]
        linarith [hround.1]
      · simp only [← hmean]
        linarith [hround.2]
    · intro hall
      right
      obtain ⟨hlo, hhi⟩ := meanRating_bounds hne hall
      simp only [← hmean]
      have h10 : (10 : ℤ) ≤ mathRound (meanRating (approvedRatings reviews productId) * 10) := by
        have := mathRound_mono (show ((10 : ℤ) : ℚ) ≤
          meanRating (approvedRatings reviews productId) * 10 by push_cast; linarith)
        rwa [mathRound_intCast] at this
      have h50 : mathRound (meanRating (approvedRatings reviews productId) * 10) ≤ (50 : ℤ) := by
        have := mathRound_mono (show meanRating (approvedRatings reviews productId) * 10 ≤
          ((50 : ℤ) : ℚ) by push_cast; linarith)
        rwa [mathRound_intCast] at this
      have h10q : (10 : ℚ) ≤
          (mathRound (meanRating (approvedRatings reviews productId) * 10) : ℚ) := by
        exact_mod_cast h10
      have h50q : (mathRound (meanRating (approvedRatings reviews productId) * 10) : ℚ) ≤
          50 := by
        exact_mod_cast h50
      constructor <;> linarith
    · intro j hj
      simp [calcAverageRating, hpos, hj]
  · have hnil : approvedRatings reviews productId = [] := by
      apply List.eq_nil_of_length_eq_zero
      omega
    have hval : calcAverageRating reviews productId products productId =
        some { p with ratingAverage := 0, ratingCount := 0 } := by
      simp only [calcAverageRating, hpos, if_false, if_true, hp, Option.map_some']
    refine ⟨_, hval, ?_, ?_, ?_, ?_, ?_⟩
    · simp [hnil]
    · intro _
      exact ⟨rfl, rfl⟩
    · intro h
      exact absurd hnil h
    · intro _
      exact Or.inl rfl
    · intro j hj
      simp [calcAverageRating, hpos, hj]

theorem calcAverageRating_sample :
    (calcAverageRating sampleReviews 1 dbScenario.products 1).map
      (fun p => (p.ratingAverage, p.ratingCount)) = some (9 / 2, 2) := by
  have hf : (sampleReviews.filter fun r => r.product = 1 && r.isApproved) =
      [{ sampleReview with rating := 4 }, { sampleReview with user := 9, rating := 5 }] := by
    decide
  have hr : mathRound (45 : ℚ) = 45 := by
    have := mathRound_intCast 45
    simpa using this
  simp only [calcAverageRating, hf]
  norm_num [dbScenario, hr]

/-- Product 1 has the approved ratings 4 and 5 (mean 4.5): the average becomes
4.5 and the count 2, a multiple of 1/10 within 1/20 of the mean, in [1, 5]. -/
theorem calcAverageRating_spec_witness :
    (calcAverageRating sampleReviews 1 dbScenario.products 1).map
      (fun p => (p.ratingAverage, p.ratingCount)) = some (9 / 2, 2) ∧
    ∃ p', calcAverageRating sampleReviews 1 dbScenario.products 1 = some p' ∧
      p'.ratingCount = (approvedRatings sampleReviews 1).length ∧
      (approvedRatings sampleReviews 1 = [] → p'.ratingAverage = 0 ∧ p'.ratingCount = 0) ∧
      (approvedRatings sampleReviews 1 ≠ [] →
        ∃ k : ℤ, p'.ratingAverage = (k : ℚ) / 10 ∧
          meanRating (approvedRatings sampleReviews 1) - 1 / 20 < p'.ratingAverage ∧
          p'.ratingAverage ≤ meanRating (approvedRatings sampleReviews 1) + 1 / 20) ∧
      ((∀ r ∈ approvedRatings sampleReviews 1, 1 ≤ r ∧ r ≤ 5) →
        p'.ratingAverage = 0 ∨ (1 ≤ p'.ratingAverage ∧ p'.ratingAverage ≤ 5)) ∧
      (∀ j, j ≠ 1 → calcAverageRating sampleReviews 1 dbScenario.products j =
        dbScenario.products j) :=
  ⟨calcAverageRating_sample,
    calcAverageRating_spec sampleReviews 1 dbScenario.products productA rfl⟩

/-! ## The order as a snapshot of the cart -/

theorem buildOrderItems_lines {db : Db} {items : List CartItem} {ois : List OrderItem}
    (h : buildOrderItems (populate db items) = some ois) :
    ois.length = items.length ∧
    (∀ (i : Nat) (l : CartItem), items[i]? = some l →
      ∃ p oi, db.products l.product = some p ∧ ois[i]? = some oi ∧
        oi.product = l.product ∧ oi.price = l.price ∧ oi.quantity = l.quantity ∧
        oi.name = p.name ∧ oi.sku = p.sku) ∧
    (ois.map fun oi => (oi.price, (oi.quantity : ℚ))) =
      items.map fun l => (l.price, (l.quantity : ℚ)) := by
  induction items generalizing ois with
  | nil =>
    simp [populate, buildOrderItems] at h
    subst h
    simp
  | cons l ls ih =>
    cases hp : db.products l.product with
    | none => simp [populate, buildOrderItems, toOrderItem, hp] at h
    | some p =>
      simp only [populate, List.map_cons, hp, buildOrderItems, toOrderItem, Option.map_eq_some']
        at h
      obtain ⟨rest, hrest, rfl⟩ := h
      obtain ⟨hlen, hline, hsum⟩ := ih hrest
      refine ⟨by simp [hlen], ?_, by simp [hsum]⟩
      intro i l' hl'
      cases i with
      | zero =>
        simp only [List.getElem?_cons_zero, Option.some.injEq] at hl'
        subst hl'
        exact ⟨p, ⟨l.product, p.name, l.price, l.quantity, p.sku, p.images.head?.getD ""⟩,
          hp, by simp, rfl, rfl, rfl, rfl, rfl⟩
      | succ j =>
        simp only [List.getElem?_cons_succ] at hl'
        obtain ⟨q, oi, hq, hoi, hrest'⟩ := hline j l' hl'
        exact ⟨q, oi, hq, by simpa using hoi, hrest'⟩

/-- C13: the order created by a successful `POST /api/orders` has as many items
as the cart has lines, in the same order; the i-th item carries the i-th
line's product id, captured price and quantity and the name and sku (and first
image) the product has at that moment; and the order's subtotal is the sum of
price times quantity over its own items, as JavaScript computes it. -/
theorem placeOrder_snapshot (isEmail : String → Bool) (db : Db) (user : UserId)
    (body : OrderBody) (h : (placeOrder isEmail db user body).1.status = 201) :
    ∃ cart order,
      db.carts user = some cart ∧
      (placeOrder isEmail db user body).2.orders = db.orders ++ [order] ∧
      order.user = user ∧
      order.items.length = cart.items.length ∧
      (∀ (i : Nat) (l : CartItem), cart.items[i]? = some l →
        ∃ p oi, db.products l.product = some p ∧ order.items[i]? = some oi ∧
          oi.product = l.product ∧ oi.price = l.price ∧ oi.quantity = l.quantity ∧
          oi.name = p.name ∧ oi.sku = p.sku) ∧
      order.subtotal = jsSum (order.items.map fun oi => (oi.price, (oi.quantity : ℚ))) := by
  obtain ⟨cart, ois, -, hc, -, -, hois, heq⟩ := placeOrder_success_inv h
  obtain ⟨hlen, hline, hsum⟩ := buildOrderItems_lines hois
  refine ⟨cart, placedOrder user body cart ois, hc, by rw [heq], rfl, hlen, hline, ?_⟩
  show calcSubtotal cart.items = jsSum (ois.map fun oi => (oi.price, (oi.quantity : ℚ)))
  rw [calcSubtotal_eq_jsSum, hsum]

/-- The scenario order is a snapshot of the scenario cart. -/
theorem placeOrder_snapshot_witness :
    (placeOrder sampleIsEmail dbScenario 7 sampleBody).1.status = 201 ∧
    ∃ cart order,
      dbScenario.carts 7 = some cart ∧
      (placeOrder sampleIsEmail dbScenario 7 sampleBody).2.orders =
        dbScenario.orders ++ [order] ∧
      order.user = 7 ∧
      order.items.length = cart.items.length ∧
      (∀ (i : Nat) (l : CartItem), cart.items[i]? = some l →
        ∃ p oi, dbScenario.products l.product = some p ∧ order.items[i]? = some oi ∧
          oi.product = l.product ∧ oi.price = l.price ∧ oi.quantity = l.quantity ∧
          oi.name = p.name ∧ oi.sku = p.sku) ∧
      order.subtotal = jsSum (order.items.map fun oi => (oi.price, (oi.quantity : ℚ))) :=
  ⟨by decide, placeOrder_snapshot sampleIsEmail dbScenario 7 sampleBody (by decide)⟩

/-! ## Orders of other users -/

/-- C14: for an order that the requesting user does not own, both
`PUT /api/orders/:id/cancel` and `GET /api/orders/:id` answer 404
"Order not found", and the cancel request leaves the state as it was: the
order's status and every product's quantity are unchanged. -/
theorem order_of_other_user_not_found (db : Db) (user : UserId) (id : OrderId) (order : Order)
    (ho : db.orders[id]? = some order) (hu : order.user ≠ user) :
    cancelOrder db user id = (⟨404, "Order not found"⟩, db) ∧
    getOrder db user id = ⟨404, "Order not found"⟩ ∧
    (cancelOrder db user id).2.orders[id]? = some order ∧
    (∀ i, (cancelOrder db user id).2.products i = db.products i) := by
  have hc : cancelOrder db user id = (⟨404, "Order not found"⟩, db) := by
    simp [cancelOrder, findOrderOfUser_other ho hu]
  refine ⟨hc, by simp [getOrder, findOrderOfUser_other ho hu], ?_, ?_⟩
  · rw [hc]
    exact ho
  · intro i
    rw [hc]

/-- User 8 asks for, and asks to cancel, the pending order 0 of user 7. -/
theorem order_of_other_user_not_found_witness :
    cancelOrder (dbWithOrder OrderStatus.pending) 8 0 =
      (⟨404, "Order not found"⟩, dbWithOrder OrderStatus.pending) ∧
    getOrder (dbWithOrder OrderStatus.pending) 8 0 = ⟨404, "Order not found"⟩ ∧
    (cancelOrder (dbWithOrder OrderStatus.pending) 8 0).2.orders[0]? =
      some (sampleOrder 7 OrderStatus.pending) ∧
    (∀ i, (cancelOrder (dbWithOrder OrderStatus.pending) 8 0).2.products i =
      (dbWithOrder OrderStatus.pending).products i) :=
  order_of_other_user_not_found (dbWithOrder OrderStatus.pending) 8 0
    (sampleOrder 7 OrderStatus.pending) rfl (by decide)

/-! ## The statuses of the responses -/

theorem placeOrderWithFaults_status (isEmail : String → Bool) (fails : Nat → Bool) (db : Db)
    (user : UserId) (body : OrderBody) :
    (placeOrderWithFaults isEmail fails db user body).1.status ∈
      Route.ordersCreate.handlerStatuses := by
  unfold placeOrderWithFaults
  split
  · simp [Route.handlerStatuses, serverError]
  · split
    · simp [Route.handlerStatuses, serverError]
    · split
      · simp [Route.handlerStatuses, serverError]
      · split
        · rename_i r hr
          rcases verifyAvailable_status hr with h | h <;> simp [Route.handlerStatuses, h]
        · split
          · simp [Route.handlerStatuses, serverError]
          · split <;> simp [Route.handlerStatuses, serverError]

theorem placeOrder_status (isEmail : String → Bool) (db : Db) (user : UserId)
    (body : OrderBody) :
    (placeOrder isEmail db user body).1.status ∈ Route.ordersCreate.handlerStatuses := by
  unfold placeOrder
  split
  · simp [Route.handlerStatuses, serverError]
  · split
    · simp [Route.handlerStatuses, serverError]
    · split
      · simp [Route.handlerStatuses, serverError]
      · split
        · rename_i r hr
          rcases verifyAvailable_status hr with h | h <;> simp [Route.handlerStatuses, h]
        · split <;> simp [Route.handlerStatuses, serverError]

theorem cancelOrder_status (db : Db) (user : UserId) (id : OrderId) :
    (cancelOrder db user id).1.status ∈ Route.ordersCancel.handlerStatuses := by
  unfold cancelOrder
  split
  · simp [Route.handlerStatuses, serverError]
  · split <;> simp [Route.handlerStatuses, serverError]

theorem getOrder_status (db : Db) (user : UserId) (id : OrderId) :
    (getOrder db user id).status ∈ Route.ordersGet.handlerStatuses := by
  unfold getOrder
  split <;> simp [Route.handlerStatuses, serverError]

theorem addToCart_status (db : Db) (user : UserId) (body : CartAddBody) :
    (addToCart db user body).1.status ∈ Route.cartAdd.handlerStatuses := by
  unfold addToCart
  split
  · simp [Route.handlerStatuses, serverError]
  · split
    · simp [Route.handlerStatuses, serverError]
    · split
      · simp [Route.handlerStatuses, serverError]
      · split <;> simp [Route.handlerStatuses, serverError]

theorem createReview_status (db : Db) (user : UserId) (body : ReviewBody) :
    (createReview db user body).1.status ∈ Route.reviewsCreate.handlerStatuses := by
  unfold createReview
  split
  · simp [Route.handlerStatuses, serverError]
  · split
    · simp [Route.handlerStatuses, serverError]
    · split
      · simp [Route.handlerStatuses, serverError]
      · split
        · simp [Route.handlerStatuses, serverError]
        · split <;> simp [Route.handlerStatuses, serverError]

theorem markReviewHelpful_status (db : Db) (id : Nat) :
    (markReviewHelpful db id).1.status ∈ Route.reviewsHelpful.handlerStatuses := by
  unfold markReviewHelpful
  split <;> simp [Route.handlerStatuses, serverError]

theorem adminUpdateOrderStatus_status (db : Db) (id : OrderId) (status : String) :
    (adminUpdateOrderStatus db id status).1.status ∈
      Route.adminUpdateOrderStatus.handlerStatuses := by
  unfold adminUpdateOrderStatus
  split
  · simp [Route.handlerStatuses, serverError]
  · split <;> simp [Route.handlerStatuses, serverError]

theorem adminDeleteProduct_status (db : Db) (id : ProductId) :
    (adminDeleteProduct db id).1.status ∈ Route.adminDeleteProduct.handlerStatuses := by
  unfold adminDeleteProduct
  split <;> simp [Route.handlerStatuses, serverError]

theorem createPaymentIntent_status (stripe : Option (Int → String → Option String))
    (body : PaymentIntentBody) :
    (createPaymentIntent stripe body).status ∈ Route.paymentCreateIntent.handlerStatuses := by
  unfold createPaymentIntent
  split
  · simp [Route.handlerStatuses, serverError]
  · split
    · simp [Route.handlerStatuses, serverError]
    · split <;> simp [Route.handlerStatuses, serverError]

theorem auth_status (verify : String → Option UserId) (userExists : UserId → Bool)
    (token : Option String) (r : Response) (h : auth verify userExists token = Except.error r) :
    r.status ∈ authStatuses := by
  unfold auth at h
  split at h
  · cases h; simp [authStatuses]
  · split at h
    · cases h; simp [authStatuses]
    · split at h
      · cases h; simp [authStatuses]
      · split at h
        · cases h
        · cases h; simp [authStatuses]

/-- C15, as stated, fails: with Stripe not configured,
`POST /api/payment/create-intent` answers 503, which is not one of 200, 201,
400, 401, 404, 500. -/
theorem createPaymentIntent_unconfigured_503 :
    createPaymentIntent none { amount := 20, currency := none } =
      ⟨503, "Payment service is not available. Please configure Stripe keys."⟩ ∧
    503 ∉ conventionalStatuses := by
  decide

/-- C15 (amended): every response statement of the route files (the handlers of
orders, cart, reviews, products, admin and payment, and the `auth` middleware
they define) sends a status in {200, 201, 400, 401, 404, 500}, except the 503
of `POST /api/payment/create-intent`; and the responses of the handlers
modelled here are among those of their route. -/
theorem response_statuses :
    (∀ (r : Route) (s : Nat), s ∈ r.responseStatuses →
      s ∈ conventionalStatuses ∨ (r = Route.paymentCreateIntent ∧ s = 503)) ∧
    (∀ stripe body,
      (createPaymentIntent stripe body).status ∈ Route.paymentCreateIntent.responseStatuses) ∧
    (∀ isEmail db user body,
      (placeOrder isEmail db user body).1.status ∈ conventionalStatuses) ∧
    (∀ db user id, (cancelOrder db user id).1.status ∈ conventionalStatuses) ∧
    (∀ db user id, (getOrder db user id).status ∈ conventionalStatuses) ∧
    (∀ db user body, (addToCart db user body).1.status ∈ conventionalStatuses) ∧
    (∀ db user body, (createReview db user body).1.status ∈ conventionalStatuses) ∧
    (∀ db id, (markReviewHelpful db id).1.status ∈ conventionalStatuses) ∧
    (∀ db id status, (adminUpdateOrderStatus db id status).1.status ∈ conventionalStatuses) ∧
    (∀ db id, (adminDeleteProduct db id).1.status ∈ conventionalStatuses) ∧
    (∀ verify userExists token r,
      auth verify userExists token = Except.error r → r.status ∈ conventionalStatuses) := by
  have hall : ∀ (r : Route) (s : Nat), s ∈ r.responseStatuses →
      s ∈ conventionalStatuses ∨ (r = Route.paymentCreateIntent ∧ s = 503) := by
    intro r
    cases r <;> decide
  have hsub : ∀ (r : Route), r ≠ Route.paymentCreateIntent →
      ∀ s, s ∈ r.handlerStatuses → s ∈ conventionalStatuses := by
    intro r hr s hs
    have hmem : s ∈ r.responseStatuses := by
      unfold Route.responseStatuses
      exact List.mem_append_right _ hs
    rcases hall r s hmem with h | ⟨h, -⟩
    · exact h
    · exact absurd h hr
  refine ⟨hall, ?_, ?_, ?_, ?_, ?_, ?_, ?_, ?_, ?_, ?_⟩
  · intro stripe body
    unfold Route.responseStatuses
    exact List.mem_append_right _ (createPaymentIntent_status stripe body)
  · intro isEmail db user body
    exact hsub _ (by decide) _ (placeOrder_status isEmail db user body)
  · intro db user id
    exact hsub _ (by decide) _ (cancelOrder_status db user id)
  · intro db user id
    exact hsub _ (by decide) _ (getOrder_status db user id)
  · intro db user body
    exact hsub _ (by decide) _ (addToCart_status db user body)
  · intro db user body
    exact hsub _ (by decide) _ (createReview_status db user body)
  · intro db id
    exact hsub _ (by decide) _ (markReviewHelpful_status db id)
  · intro db id status
    exact hsub _ (by decide) _ (adminUpdateOrderStatus_status db id status)
  · intro db id
    exact hsub _ (by decide) _ (adminDeleteProduct_status db id)
  · intro verify userExists token r h
    have h401 := auth_status verify userExists token r h
    simp only [authStatuses, List.mem_cons, List.mem_singleton, or_self, List.mem_nil_iff,
      or_false] at h401
    rw [h401]
    decide

/-- The 404 of `PUT /api/cart/update` is a listed status, the 503 of
`POST /api/payment/create-intent` is the exception, and a configured Stripe
client that creates the intent gives 200. -/
theorem response_statuses_witness :
    (404 ∈ conventionalStatuses ∨ (Route.cartUpdate = Route.paymentCreateIntent ∧ 404 = 503)) ∧
    (503 ∈ conventionalStatuses ∨
      (Route.paymentCreateIntent = Route.paymentCreateIntent ∧ 503 = 503)) ∧
    (createPaymentIntent (some fun _ _ => some "pi_1") { amount := 20, currency := none }).status
      ∈ Route.paymentCreateIntent.responseStatuses ∧
    (placeOrder sampleIsEmail dbScenario 7 sampleBody).1.status ∈ conventionalStatuses :=
  ⟨response_statuses.1 Route.cartUpdate 404 (by decide),
    response_statuses.1 Route.paymentCreateIntent 503 (by decide),
    response_statuses.2.1 _ _,
    response_statuses.2.2.1 sampleIsEmail dbScenario 7 sampleBody⟩

/-! ## A failing stock update -/

theorem stockLoop_no_fault (fails : Nat → Bool) (items : List CartItem) (start : Nat)
    (products : ProductId → Option Product) (h : ∀ i, i < items.length → fails (start + i) = false) :
    stockLoop fails start products items = (decrementStock products items, true) := by
  induction items generalizing start products with
  | nil => rfl
  | cons l ls ih =>
    have h0 : fails start = false := by simpa using h 0 (by simp)
    have hrest : ∀ i, i < ls.length → fails (start + 1 + i) = false := by
      intro i hi
      have := h (i + 1) (by simpa using hi)
      rwa [show start + (i + 1) = start + 1 + i by omega] at this
    simp only [stockLoop, h0, Bool.false_eq_true, if_false]
    rw [ih (start + 1) _ hrest]
    rfl

theorem stockLoop_fault (fails : Nat → Bool) (items : List CartItem) (start k : Nat)
    (products : ProductId → Option Product) (hk : k < items.length)
    (hbefore : ∀ i, i < k → fails (start + i) = false) (hat : fails (start + k) = true) :
    stockLoop fails start products items = (decrementStock products (items.take k), false) := by
  induction items generalizing start k products with
  | nil => simp at hk
  | cons l ls ih =>
    cases k with
    | zero =>
      have h0 : fails start = true := by simpa using hat
      simp [stockLoop, h0, decrementStock]
    | succ j =>
      have h0 : fails start = false := by simpa using hbefore 0 (by omega)
      have hrest : ∀ i, i < j → fails (start + 1 + i) = false := by
        intro i hi
        have := hbefore (i + 1) (by omega)
        rwa [show start + (i + 1) = start + 1 + i by omega] at this
      have hat' : fails (start + 1 + j) = true := by
        rwa [show start + (j + 1) = start + 1 + j by omega] at hat
      simp only [stockLoop, h0, Bool.false_eq_true, if_false]
      rw [ih (start + 1) j _ (by simpa using hk) hrest hat']
      rfl

/-- C16: when the request passes its checks, so that the order is stored, and
the stock update of the cart line at position `k` (counted from 0) is the
first to fail, the handler answers 500 and the resulting state holds the new
order and the decrements of the lines before `k`, nothing more; the cart is as
it was.  Nothing is rolled back.  Without a failing update the handler is
`placeOrder`. -/
theorem placeOrder_fault_no_rollback (isEmail : String → Bool) (fails : Nat → Bool) (db : Db)
    (user : UserId) (body : OrderBody) (cart : Cart) (k : Nat)
    (hok : (placeOrder isEmail db user body).1.status = 201)
    (hc : db.carts user = some cart) (hk : k < cart.items.length)
    (hbefore : ∀ i, i < k → fails i = false) (hat : fails k = true) :
    (placeOrderWithFaults isEmail fails db user body).1 = ⟨500, "Server error"⟩ ∧
    (∃ order, (placeOrder isEmail db user body).2.orders = db.orders ++ [order] ∧
      (placeOrderWithFaults isEmail fails db user body).2.orders = db.orders ++ [order]) ∧
    (placeOrderWithFaults isEmail fails db user body).2.products =
      decrementStock db.products (cart.items.take k) ∧
    (placeOrderWithFaults isEmail fails db user body).2.carts = db.carts ∧
    placeOrderWithFaults isEmail (fun _ => false) db user body =
      placeOrder isEmail db user body := by
  obtain ⟨cart', ois, hv, hc', hne, hva, hois, heq⟩ := placeOrder_success_inv hok
  rw [hc] at hc'
  cases hc'
  have hlen : ¬ cart.items.length = 0 := by
    intro h0
    exact hne (List.length_eq_zero.mp h0)
  have hloop := stockLoop_fault fails cart.items 0 k db.products hk
    (by simpa using hbefore) (by simpa using hat)
  have hloop0 := stockLoop_no_fault (fun _ => false) cart.items 0 db.products (fun _ _ => rfl)
  have hfault : placeOrderWithFaults isEmail fails db user body =
      (serverError,
        { db with
          orders := db.orders ++ [placedOrder user body cart ois]
          products := decrementStock db.products (cart.items.take k) }) := by
    simp only [placeOrderWithFaults, hv, Bool.not_true, Bool.false_eq_true, if_false, hc, hlen,
      hva, hois, hloop]
  refine ⟨by rw [hfault]; rfl, ⟨placedOrder user body cart ois, by rw [heq], by rw [hfault]⟩,
    by rw [hfault], by rw [hfault], ?_⟩
  rw [heq]
  simp only [placeOrderWithFaults, hv, Bool.not_true, Bool.false_eq_true, if_false, hc, hlen,
    hva, hois, hloop0]

/-- The cart of user 7 has two lines and the update of the second one fails:
500, the order is stored, product 1 has lost its unit, product 2 has not, and
the cart still has its two lines. -/
theorem placeOrder_fault_no_rollback_witness :
    (placeOrderWithFaults sampleIsEmail (fun i => i == 1) dbTwoLines 7 sampleBody).1 =
      ⟨500, "Server error"⟩ ∧
    (∃ order, (placeOrder sampleIsEmail dbTwoLines 7 sampleBody).2.orders =
        dbTwoLines.orders ++ [order] ∧
      (placeOrderWithFaults sampleIsEmail (fun i => i == 1) dbTwoLines 7 sampleBody).2.orders =
        dbTwoLines.orders ++ [order]) ∧
    (placeOrderWithFaults sampleIsEmail (fun i => i == 1) dbTwoLines 7 sampleBody).2.products =
      decrementStock dbTwoLines.products
        (({ items := [⟨1, 1, 10⟩, ⟨2, 2, 10⟩] } : Cart).items.take 1) ∧
    (placeOrderWithFaults sampleIsEmail (fun i => i == 1) dbTwoLines 7 sampleBody).2.carts =
      dbTwoLines.carts ∧
    placeOrderWithFaults sampleIsEmail (fun _ => false) dbTwoLines 7 sampleBody =
      placeOrder sampleIsEmail dbTwoLines 7 sampleBody :=
  placeOrder_fault_no_rollback sampleIsEmail (fun i => i == 1) dbTwoLines 7 sampleBody
    { items := [⟨1, 1, 10⟩, ⟨2, 2, 10⟩] } 1 (by decide) (by decide) (by decide)
    (by decide) (by decide)

/-! ## Two checkouts racing for the last unit -/

/-- Serving a request in one go is running its two parts back to back. -/
theorem placeOrder_eq_begin_finish (isEmail : String → Bool) (db : Db) (user : UserId)
    (body : OrderBody) :
    placeOrder isEmail db user body =
      match beginOrder isEmail db user body with
      | Except.error r => (r, db)
      | Except.ok p => finishOrder db p := by
  unfold placeOrder beginOrder
  split
  · rfl
  · split
    · rfl
    · split
      · rfl
      · split
        · rfl
        · split
          · rfl
          · rfl

/-- C17: users 7 and 8 each have one unit of product 1 in their cart and one
unit is in stock.  In the schedule where both requests run their checks before
either writes, both pass the availability check against the stock value 1
(the database is still untouched when both are suspended), both are answered
201 and both decrement the stock: two units are ordered, one was in stock, and
the quantity ends at -1.  Served one after the other, the second request is
rejected and the quantity ends at 0. -/
theorem concurrent_checkouts_oversell :
    (dbRace.products 1).map (fun p => p.quantity) = some 1 ∧
    ((Server.run sampleIsEmail (Server.idle dbRace) (raceSchedule.take 2)).db.products 1).map
      (fun p => p.quantity) = some 1 ∧
    ((Server.run sampleIsEmail (Server.idle dbRace) (raceSchedule.take 2)).suspended 7).map
      (fun p => p.cart.items.map fun l => (l.product, l.quantity)) = some [(1, 1)] ∧
    ((Server.run sampleIsEmail (Server.idle dbRace) (raceSchedule.take 2)).suspended 8).map
      (fun p => p.cart.items.map fun l => (l.product, l.quantity)) = some [(1, 1)] ∧
    (Server.run sampleIsEmail (Server.idle dbRace) raceSchedule).responses.map
      (fun x => (x.1, x.2.status)) = [(7, 201), (8, 201)] ∧
    (Server.run sampleIsEmail (Server.idle dbRace) raceSchedule).db.orders.map
      (fun o => (o.user, o.items.map fun l => (l.product, l.quantity))) =
        [(7, [(1, 1)]), (8, [(1, 1)])] ∧
    ((Server.run sampleIsEmail (Server.idle dbRace) raceSchedule).db.products 1).map
      (fun p => p.quantity) = some (-1) ∧
    (Server.run sampleIsEmail (Server.idle dbRace)
      [Event.arrive 7 sampleBody, Event.resume 7, Event.arrive 8 sampleBody,
        Event.resume 8]).responses.map (fun x => (x.1, x.2.status)) = [(7, 201), (8, 400)] ∧
    ((Server.run sampleIsEmail (Server.idle dbRace)
      [Event.arrive 7 sampleBody, Event.resume 7, Event.arrive 8 sampleBody,
        Event.resume 8]).db.products 1).map (fun p => p.quantity) = some 0 := by
  decide

/-! ## Adding to the cart -/

/-- C18: `POST /api/cart/add` changes the cart only when it answers 200, and it
answers 200 only if the quantity is in 1..50 and the product exists, is active,
is in stock and has at least the requested quantity.  Otherwise the response is
400, or 404 in which case the product does not exist, and the state is
unchanged.  On success the cart of the user (a new one if there was none) gets
the line (product, quantity, current price of the product) and the other carts
are untouched. -/
theorem addToCart_spec (db : Db) (user : UserId) (body : CartAddBody) :
    ((addToCart db user body).1.status = 200 →
      1 ≤ body.quantity ∧ body.quantity ≤ 50 ∧
      ∃ product, db.products body.productId = some product ∧
        product.isActive = true ∧ product.inStock = true ∧
        body.quantity ≤ product.quantity ∧
        (addToCart db user body).2.carts user =
          some (((db.carts user).getD { items := [] }).addItem body.productId
            body.quantity.toNat product.price) ∧
        (∃ cart', (addToCart db user body).2.carts user = some cart' ∧
          cart'.items = ((db.carts user).getD { items := [] }).items ++
            [⟨body.productId, body.quantity.toNat, product.price⟩]) ∧
        (∀ u, u ≠ user → (addToCart db user body).2.carts u = db.carts u) ∧
        (addToCart db user body).2.products = db.products) ∧
    ((addToCart db user body).1.status ≠ 200 →
      (addToCart db user body).2 = db ∧
      ((addToCart db user body).1.status = 400 ∨
        ((addToCart db user body).1.status = 404 ∧ db.products body.productId = none))) ∧
    ((1 ≤ body.quantity ∧ body.quantity ≤ 50 ∧
        ∃ product, db.products body.productId = some product ∧
          product.isActive = true ∧ product.inStock = true ∧
          body.quantity ≤ product.quantity) →
      (addToCart db user body).1 = ⟨200, "Item added to cart successfully"⟩) := by
  refine ⟨?_, ?_, ?_⟩
  · intro h200
    unfold addToCart at h200 ⊢
    split at h200
    · simp at h200
    · rename_i hv
      split at h200
      · simp at h200
      · rename_i product hp
        split at h200
        · simp at h200
        · rename_i havail
          split at h200
          · simp at h200
          · rename_i hq
            simp only [validateCartAdd, Bool.not_eq_true', Bool.and_eq_false_iff,
              decide_eq_false_iff_not, not_or, not_not, Bool.not_eq_true] at hv
            simp only [Bool.or_eq_true, Bool.not_eq_true', not_or, Bool.not_eq_false] at havail
            have hv' : 1 ≤ body.quantity ∧ body.quantity ≤ 50 := by
              simpa [validateCartAdd] using hv
            refine ⟨hv'.1, hv'.2, product, hp, havail.1, havail.2, not_lt.mp hq, ?_, ?_, ?_,
              ?_⟩
            · simp [hv', validateCartAdd, hp, havail.1, havail.2, hq]
            · refine ⟨_, ?_, rfl⟩
              simp [hv', validateCartAdd, hp, havail.1, havail.2, hq, Cart.addItem]
            · intro u hu
              simp [hv', validateCartAdd, hp, havail.1, havail.2, hq, hu]
            · simp [hv', validateCartAdd, hp, havail.1, havail.2, hq]
  · intro hne
    unfold addToCart at hne ⊢
    split
    · exact ⟨rfl, Or.inl rfl⟩
    · split
      · rename_i hnone
        exact ⟨rfl, Or.inr ⟨rfl, hnone⟩⟩
      · split
        · exact ⟨rfl, Or.inl rfl⟩
        · split
          · exact ⟨rfl, Or.inl rfl⟩
          · rename_i h1 h2 h3 h4 h5 h6
            simp [*] at hne
  · rintro ⟨h1, h50, product, hp, hact, hin, hq⟩
    simp [addToCart, validateCartAdd, h1, h50, hp, hact, hin, not_lt.mpr hq]

/-- User 9, who has no cart yet, adds two units of product 1 of the scenario
state; a request for six units, of which five are in stock, is refused. -/
theorem addToCart_spec_witness :
    (addToCart dbScenario 9 { productId := 1, quantity := 2 }).1 =
      ⟨200, "Item added to cart successfully"⟩ ∧
    (∃ product, dbScenario.products 1 = some product ∧
      (addToCart dbScenario 9 { productId := 1, quantity := 2 }).2.carts 9 =
        some { items := [⟨1, 2, product.price⟩] }) ∧
    (addToCart dbScenario 9 { productId := 1, quantity := 6 }).2 = dbScenario ∧
    (addToCart dbScenario 9 { productId := 1, quantity := 6 }).1.status = 400 :=
  have hspec := addToCart_spec dbScenario 9 { productId := 1, quantity := 2 }
  have h200 := hspec.2.2 ⟨by decide, by decide, productA, rfl, rfl, rfl, by decide⟩
  have hfail := (addToCart_spec dbScenario 9 { productId := 1, quantity := 6 }).2.1
    (by decide)
  ⟨h200,
    ⟨productA, rfl, by
      obtain ⟨-, -, product, hp, -, -, -, hcart, -⟩ := hspec.1 (by rw [h200])
      have hpa : product = productA := by
        have : dbScenario.products 1 = some productA := rfl
        rw [this] at hp
        exact (Option.some.inj hp).symm
      subst hpa
      rw [hcart]
      rfl⟩,
    hfail.1,
    by
      rcases hfail.2 with h | ⟨-, h⟩
      · exact h
      · exact absurd h (by decide)⟩

/-! ## Stock levels and the `inStock` flag -/

/-- C19, at the failing input: product 1 has two units and `inStock = true`, so
the state is consistent; the order for both units takes the quantity to 0 and
leaves `inStock = true`.  In the other direction, cancelling the order for a
sold-out product flagged `inStock = false` takes the quantity to 2 and leaves
the flag `false`. -/
theorem inStock_not_maintained :
    StockFlagConsistent dbSellOut ∧
    (placeOrder sampleIsEmail dbSellOut 7 sampleBody).1.status = 201 ∧
    ((run sampleIsEmail dbSellOut [Request.placeOrder 7 sampleBody]).products 1).map
      (fun p => (p.quantity, p.inStock)) = some (0, true) ∧
    ¬ StockFlagConsistent (run sampleIsEmail dbSellOut [Request.placeOrder 7 sampleBody]) ∧
    StockFlagConsistent dbSoldOutWithOrder ∧
    (cancelOrder dbSoldOutWithOrder 7 0).1.status = 200 ∧
    ((run sampleIsEmail dbSoldOutWithOrder [Request.cancelOrder 7 0]).products 1).map
      (fun p => (p.quantity, p.inStock)) = some (2, false) ∧
    ¬ StockFlagConsistent (run sampleIsEmail dbSoldOutWithOrder [Request.cancelOrder 7 0]) := by
  have h1 : ((run sampleIsEmail dbSellOut [Request.placeOrder 7 sampleBody]).products 1).map
      (fun p => (p.quantity, p.inStock)) = some (0, true) := by decide
  have h2 : ((run sampleIsEmail dbSoldOutWithOrder [Request.cancelOrder 7 0]).products 1).map
      (fun p => (p.quantity, p.inStock)) = some (2, false) := by decide
  refine ⟨?_, by decide, h1, ?_, ?_, by decide, h2, ?_⟩
  · intro i p hp
    by_cases hi : i = 1
    · subst hi
      have : p = { productA with quantity := 2 } := by
        simpa [dbSellOut] using hp.symm
      subst this
      decide
    · simp [dbSellOut, hi] at hp
  · intro hcons
    cases hq : (run sampleIsEmail dbSellOut [Request.placeOrder 7 sampleBody]).products 1 with
    | none => simp [hq] at h1
    | some p =>
      have hflag := hcons 1 p hq
      simp only [hq, Option.map_some', Option.some.injEq, Prod.mk.injEq] at h1
      rw [h1.1, h1.2] at hflag
      simp at hflag
  · intro i p hp
    by_cases hi : i = 1
    · subst hi
      have : p = { productA with quantity := 0, inStock := false } := by
        simpa [dbSoldOutWithOrder] using hp.symm
      subst this
      decide
    · simp [dbSoldOutWithOrder, hi] at hp
  · intro hcons
    cases hq : (run sampleIsEmail dbSoldOutWithOrder [Request.cancelOrder 7 0]).products 1 with
    | none => simp [hq] at h2
    | some p =>
      have hflag := hcons 1 p hq
      simp only [hq, Option.map_some', Option.some.injEq, Prod.mk.injEq] at h2
      rw [h2.1, h2.2] at hflag
      simp at hflag

theorem verifyAvailable_none_lines {db : Db} {items : List CartItem}
    (h : verifyAvailable (populate db items) = none) :
    ∀ l ∈ items, ∃ p, db.products l.product = some p ∧ (l.quantity : Int) ≤ p.quantity := by
  induction items with
  | nil => simp
  | cons x xs ih =>
    cases hp : db.products x.product with
    | none => simp [populate, verifyAvailable, hp] at h
    | some p =>
      simp only [populate, List.map_cons, hp, verifyAvailable] at h
      split at h
      · simp at h
      · rename_i hbad
        simp only [Bool.or_eq_true, Bool.not_eq_true', decide_eq_true_eq, not_or, not_lt] at hbad
        intro l hl
        rcases List.mem_cons.mp hl with rfl | hl'
        · exact ⟨p, hp, hbad.2⟩
        · exact ih h l hl'

theorem orderedQuantity_of_nodup {items : List CartItem}
    (h : (items.map fun l => l.product).Nodup) (i : ProductId) :
    orderedQuantity items i = 0 ∨
    ∃ l ∈ items, l.product = i ∧ orderedQuantity items i = l.quantity := by
  induction items with
  | nil => exact Or.inl rfl
  | cons x xs ih =>
    rw [List.map_cons, List.nodup_cons] at h
    by_cases hx : x.product = i
    · right
      refine ⟨x, List.mem_cons_self _ _, hx, ?_⟩
      have hnot : ∀ l ∈ xs, l.product ≠ i := by
        intro l hl hli
        apply h.1
        rw [hx, ← hli]
        exact List.mem_map_of_mem _ hl
      have h0 := orderedQuantity_eq_zero hnot
      simp only [orderedQuantity] at h0 ⊢
      simp [List.filter_cons, hx, h0]
    · rcases ih h.2 with h0 | ⟨l, hl, hli, hq⟩
      · left
        simp only [orderedQuantity] at h0 ⊢
        simp [List.filter_cons, hx, h0]
      · right
        refine ⟨l, List.mem_cons_of_mem _ hl, hli, ?_⟩
        simp only [orderedQuantity] at hq ⊢
        simp [List.filter_cons, hx, hq]

theorem placeOrder_preserves_stock (isEmail : String → Bool) (db : Db) (user : UserId)
    (body : OrderBody) (h0 : NonNegativeStock db) (hd : DistinctLines db) :
    NonNegativeStock (placeOrder isEmail db user body).2 ∧
    DistinctLines (placeOrder isEmail db user body).2 := by
  by_cases h : (placeOrder isEmail db user body).1.status = 201
  · obtain ⟨cart, ois, -, hc, -, hva, -, heq⟩ := placeOrder_success_inv h
    rw [heq]
    constructor
    · intro i p' hp'
      simp only [decrementStock_apply] at hp'
      cases hp : db.products i with
      | none => simp [hp] at hp'
      | some p =>
        simp only [hp, Option.map_some', Option.some.injEq] at hp'
        subst hp'
        show 0 ≤ p.quantity - (orderedQuantity cart.items i : Int)
        rcases orderedQuantity_of_nodup (hd user cart hc) i with hz | ⟨l, hl, hli, hq⟩
        · rw [hz]
          simpa using h0 i p hp
        · obtain ⟨q, hq', hle⟩ := verifyAvailable_none_lines hva l hl
          rw [hli, hp] at hq'
          cases hq'
          rw [hq]
          omega
    · intro u c hu
      by_cases huu : u = user
      · simp only [huu, if_true, Option.some.injEq] at hu
        subst hu
        simp [Cart.clearCart]
      · simp only [huu, if_false] at hu
        exact hd u c hu
  · rw [placeOrder_state_of_not_created h]
    exact ⟨h0, hd⟩

theorem cancelOrder_preserves_stock (db : Db) (user : UserId) (id : OrderId)
    (h0 : NonNegativeStock db) (hd : DistinctLines db) :
    NonNegativeStock (cancelOrder db user id).2 ∧ DistinctLines (cancelOrder db user id).2 := by
  unfold cancelOrder
  split
  · exact ⟨h0, hd⟩
  · split
    · exact ⟨h0, hd⟩
    · rename_i order _ _
      refine ⟨?_, hd⟩
      intro i p' hp'
      simp only [restoreStock_apply] at hp'
      cases hp : db.products i with
      | none => simp [hp] at hp'
      | some p =>
        simp only [hp, Option.map_some', Option.some.injEq] at hp'
        subst hp'
        show 0 ≤ p.quantity + (restoredQuantity order.items i : Int)
        have := h0 i p hp
        omega

/-- C20, at the failing input: product 1 has five units and no quantity is
negative; user 7 adds three units of it to the cart twice, each request passing
the stock check of `POST /api/cart/add`, which leaves the cart with two lines of
three units for product 1; in `POST /api/orders` each line passes the
availability check against the five units, the order is accepted and the
quantity of product 1 ends at -1. -/
theorem placeOrder_duplicate_lines_negative :
    (dbEmptyCart.products 1).map (fun p => p.quantity) = some 5 ∧
    (addToCart dbEmptyCart 7 ⟨1, 3⟩).1.status = 200 ∧
    (addToCart (addToCart dbEmptyCart 7 ⟨1, 3⟩).2 7 ⟨1, 3⟩).1.status = 200 ∧
    (addToCart (addToCart dbEmptyCart 7 ⟨1, 3⟩).2 7 ⟨1, 3⟩).2.carts 7 =
      dbDuplicateLines.carts 7 ∧
    (dbDuplicateLines.products 1).map (fun p => p.quantity) = some 5 ∧
    dbDuplicateLines.carts 7 = some { items := [⟨1, 3, 10⟩, ⟨1, 3, 10⟩] } ∧
    (placeOrder sampleIsEmail dbDuplicateLines 7 sampleBody).1.status = 201 ∧
    ((run sampleIsEmail dbDuplicateLines [Request.placeOrder 7 sampleBody]).products 1).map
      (fun p => p.quantity) = some (-1) := by
  decide

/-- Where no cart has two lines for the same product, the quantities stay at 0
or above: from a state in which every product quantity is at least 0 and the
lines of every cart are for different products, every state reached by serving
order placements and cancellations one after the other has every product
quantity at least 0 (and again no cart with two lines for one product). -/
theorem stock_stays_nonnegative (isEmail : String → Bool) (db : Db) (reqs : List Request)
    (hreqs : ∀ r ∈ reqs, r.isPlacementOrCancellation = true)
    (h0 : NonNegativeStock db) (hd : DistinctLines db) :
    NonNegativeStock (run isEmail db reqs) ∧ DistinctLines (run isEmail db reqs) := by
  induction reqs generalizing db with
  | nil => exact ⟨h0, hd⟩
  | cons r rs ih =>
    have hr := hreqs r (List.mem_cons_self _ _)
    have hrs : ∀ x ∈ rs, x.isPlacementOrCancellation = true :=
      fun x hx => hreqs x (List.mem_cons_of_mem _ hx)
    have hstep : NonNegativeStock (handle isEmail db r).2 ∧
        DistinctLines (handle isEmail db r).2 := by
      cases r with
      | placeOrder user body => exact placeOrder_preserves_stock isEmail db user body h0 hd
      | cancelOrder user id => exact cancelOrder_preserves_stock db user id h0 hd
      | adminUpdateOrderStatus id status => simp [Request.isPlacementOrCancellation] at hr
      | adminDeleteProduct id => simp [Request.isPlacementOrCancellation] at hr
      | createReview user body => simp [Request.isPlacementOrCancellation] at hr
      | markReviewHelpful id => simp [Request.isPlacementOrCancellation] at hr
    exact ih (handle isEmail db r).2 hrs hstep.1 hstep.2

/-- The scenario state, in which user 7 places the order and then cancels it. -/
theorem stock_stays_nonnegative_witness :
    NonNegativeStock
      (run sampleIsEmail dbScenario [Request.placeOrder 7 sampleBody, Request.cancelOrder 7 0]) ∧
    DistinctLines
      (run sampleIsEmail dbScenario [Request.placeOrder 7 sampleBody, Request.cancelOrder 7 0]) :=
  stock_stays_nonnegative sampleIsEmail dbScenario
    [Request.placeOrder 7 sampleBody, Request.cancelOrder 7 0]
    (by decide)
    (by
      intro i p hp
      by_cases hi : i = 1
      · subst hi
        have : p = productA := by simpa [dbScenario] using hp.symm
        subst this
        decide
      · simp [dbScenario, hi] at hp)
    (by
      intro u cart hu
      by_cases h7 : u = 7
      · subst h7
        have : cart = { items := [⟨1, 2, 10⟩] } := by simpa [dbScenario] using hu.symm
        subst this
        decide
      · simp [dbScenario, h7] at hu)

/-! ## The slug of a product -/

theorem replaceRuns_cons_of_not {p : Char → Bool} {r c : Char} (l : List Char)
    (h : p c = false) : replaceRuns p r (c :: l) = c :: replaceRuns p r l := by
  cases l with
  | nil => simp [replaceRuns, h]
  | cons d cs => simp [replaceRuns, h]

theorem mem_replaceRuns {p : Char → Bool} {r : Char} (l : List Char) (c : Char)
    (h : c ∈ replaceRuns p r l) : c = r ∨ (c ∈ l ∧ p c = false) := by
  induction l with
  | nil => simp [replaceRuns] at h
  | cons a as ih =>
    cases hpa : p a with
    | false =>
      rw [replaceRuns_cons_of_not as hpa] at h
      rcases List.mem_cons.mp h with rfl | h'
      · exact Or.inr ⟨List.mem_cons_self _ _, hpa⟩
      · rcases ih h' with h1 | ⟨h1, h2⟩
        · exact Or.inl h1
        · exact Or.inr ⟨List.mem_cons_of_mem _ h1, h2⟩
    | true =>
      cases as with
      | nil =>
        simp [replaceRuns, hpa] at h
        exact Or.inl h
      | cons d cs =>
        simp only [replaceRuns, hpa, if_true] at h
        split at h
        · rcases ih h with h1 | ⟨h1, h2⟩
          · exact Or.inl h1
          · exact Or.inr ⟨List.mem_cons_of_mem _ h1, h2⟩
        · rcases List.mem_cons.mp h with rfl | h'
          · exact Or.inl rfl
          · rcases ih h' with h1 | ⟨h1, h2⟩
            · exact Or.inl h1
            · exact Or.inr ⟨List.mem_cons_of_mem _ h1, h2⟩

theorem replaceRuns_chain (p : Char → Bool) (r : Char) (l : List Char) :
    List.Chain' (fun a b => ¬ (p a = true ∧ p b = true)) (replaceRuns p r l) := by
  induction l with
  | nil => simp [replaceRuns]
  | cons a as ih =>
    cases hpa : p a with
    | false =>
      rw [replaceRuns_cons_of_not as hpa, List.chain'_cons']
      refine ⟨?_, ih⟩
      intro b _ hb
      rw [hpa] at hb
      exact Bool.false_ne_true hb.1
    | true =>
      cases as with
      | nil => simp [replaceRuns, hpa]
      | cons d cs =>
        simp only [replaceRuns, hpa, if_true]
        split
        · exact ih
        · rename_i hpd
          have hpd' : p d = false := by simpa using hpd
          rw [replaceRuns_cons_of_not cs hpd'] at ih ⊢
          rw [List.chain'_cons']
          refine ⟨?_, ih⟩
          intro b hb hpb
          simp only [List.head?_cons, Option.mem_def, Option.some.injEq] at hb
          subst hb
          rw [hpd'] at hpb
          exact Bool.false_ne_true hpb.2

theorem replaceRuns_eq_self_of_none {p : Char → Bool} {r : Char} (l : List Char)
    (h : ∀ c ∈ l, p c = false) : replaceRuns p r l = l := by
  induction l with
  | nil => rfl
  | cons a as ih =>
    rw [replaceRuns_cons_of_not as (h a (List.mem_cons_self _ _)),
      ih fun c hc => h c (List.mem_cons_of_mem _ hc)]

theorem replaceRuns_eq_self_of_chain {p : Char → Bool} {r : Char} (l : List Char)
    (hc : List.Chain' (fun a b => ¬ (p a = true ∧ p b = true)) l)
    (hr : ∀ c ∈ l, p c = true → c = r) : replaceRuns p r l = l := by
  induction l with
  | nil => rfl
  | cons a as ih =>
    rw [List.chain'_cons'] at hc
    have ih' := ih hc.2 fun c hc' => hr c (List.mem_cons_of_mem _ hc')
    cases hpa : p a with
    | false => rw [replaceRuns_cons_of_not as hpa, ih']
    | true =>
      have har : a = r := hr a (List.mem_cons_self _ _) hpa
      cases as with
      | nil => simp [replaceRuns, hpa, har]
      | cons d cs =>
        have hpd : p d = false := by
          have := hc.1 d (by simp)
          cases hd : p d with
          | false => rfl
          | true => exact absurd ⟨hpa, hd⟩ this
        simp only [replaceRuns, hpa, if_true, hpd, Bool.false_eq_true, if_false]
        rw [ih', har]

theorem isSlugChar_not_space {c : Char} (h : isSlugChar c = true) : isJsSpace c = false := by
  simp only [isSlugChar, Bool.or_eq_true, Bool.and_eq_true, decide_eq_true_eq, beq_iff_eq] at h
  rcases h with (h | h) | h
  · simp [isJsSpace]
    omega
  · simp [isJsSpace]
    omega
  · subst h
    decide

theorem isSlugChar_source {c : Char} (h : isSlugChar c = true) : isSlugSource c = true := by
  simp only [isSlugChar, Bool.or_eq_true, Bool.and_eq_true, decide_eq_true_eq, beq_iff_eq] at h
  simp only [isSlugSource, Bool.or_eq_true, Bool.and_eq_true, decide_eq_true_eq, beq_iff_eq]
  rcases h with (h | h) | h
  · exact Or.inl (Or.inl (Or.inl h))
  · exact Or.inl (Or.inl (Or.inr h))
  · exact Or.inr h

theorem isSlugChar_of_source {c : Char} (h : isSlugSource c = true) (hs : isJsSpace c = false) :
    isSlugChar c = true := by
  simp only [isSlugSource, Bool.or_eq_true, Bool.and_eq_true, decide_eq_true_eq, beq_iff_eq] at h
  simp only [isSlugChar, Bool.or_eq_true, Bool.and_eq_true, decide_eq_true_eq, beq_iff_eq]
  rcases h with ((h | h) | h) | h
  · exact Or.inl (Or.inl h)
  · exact Or.inl (Or.inr h)
  · subst h
    exact absurd hs (by decide)
  · exact Or.inr h

theorem jsLowerChar_slugChar {c : Char} (h : isSlugChar c = true) : jsLowerChar c = [c] := by
  simp only [isSlugChar, Bool.or_eq_true, Bool.and_eq_true, decide_eq_true_eq, beq_iff_eq] at h
  rcases h with (h | h) | h
  · unfold jsLowerChar
    rw [if_neg (by omega), if_neg (by omega), if_neg (by omega)]
  · unfold jsLowerChar
    rw [if_neg (by omega), if_neg (by omega), if_neg (by omega)]
  · subst h
    decide

theorem toLowerCase_slugChars (l : List Char) (h : ∀ c ∈ l, isSlugChar c = true) :
    toLowerCase (String.mk l) = String.mk l := by
  unfold toLowerCase
  congr 1
  induction l with
  | nil => rfl
  | cons a as ih =>
    simp only [List.flatMap_cons, jsLowerChar_slugChar (h a (List.mem_cons_self _ _))]
    rw [ih fun c hc => h c (List.mem_cons_of_mem _ hc)]
    rfl

theorem dropWhile_eq_self_of_none {p : Char → Bool} (l : List Char) (h : ∀ c ∈ l, p c = false) :
    l.dropWhile p = l := by
  cases l with
  | nil => rfl
  | cons a as => simp [List.dropWhile, h a (List.mem_cons_self _ _)]

theorem jsTrim_slugChars (l : List Char) (h : ∀ c ∈ l, isSlugChar c = true) :
    jsTrim (String.mk l) = String.mk l := by
  have hs : ∀ c ∈ l, isJsSpace c = false := fun c hc => isSlugChar_not_space (h c hc)
  unfold jsTrim
  congr 1
  show ((l.dropWhile isJsSpace).reverse.dropWhile isJsSpace).reverse = l
  rw [dropWhile_eq_self_of_none l hs,
    dropWhile_eq_self_of_none l.reverse fun c hc => hs c (List.mem_reverse.mp hc),
    List.reverse_reverse]

theorem slugChars_isSlugChar (name : String) : ∀ c ∈ slugChars name, isSlugChar c = true := by
  intro c hc
  rcases mem_replaceRuns _ c hc with rfl | ⟨hc1, -⟩
  · decide
  · rcases mem_replaceRuns _ c hc1 with rfl | ⟨hc2, hsp⟩
    · decide
    · exact isSlugChar_of_source (List.mem_filter.mp hc2).2 hsp

theorem generateSlug_eq (name : String) : generateSlug name = String.mk (slugChars name) := by
  show toLowerCase (jsTrim (String.mk (slugChars name))) = _
  rw [jsTrim_slugChars _ (slugChars_isSlugChar name),
    toLowerCase_slugChars _ (slugChars_isSlugChar name)]

theorem slugChars_of_slug (l : List Char) (h : ∀ c ∈ l, isSlugChar c = true)
    (hc : List.Chain' (fun a b => ¬ ((a == '-') = true ∧ (b == '-') = true)) l) :
    slugChars (String.mk l) = l := by
  unfold slugChars
  rw [toLowerCase_slugChars l h]
  have hf : l.filter isSlugSource = l :=
    List.filter_eq_self.mpr fun c hc' => isSlugChar_source (h c hc')
  show replaceRuns (fun c => c == '-') '-' (replaceRuns isJsSpace '-' (l.filter isSlugSource)) = l
  rw [hf, replaceRuns_eq_self_of_none l fun c hc' => isSlugChar_not_space (h c hc')]
  exact replaceRuns_eq_self_of_chain l hc fun c _ hp => by simpa using hp

/-- C21, at the failing inputs: the name "Laptop (!)" gets the slug "laptop-",
which ends with a hyphen, and the name "& Laptop" gets the slug "-laptop", which
begins with one.  Neither name has white space at an end, so the `trim: true`
of the schema leaves them as they are.  The hook calls `trim('-')`, which trims
white space only. -/
theorem generateSlug_keeps_outer_hyphens :
    generateSlug "Laptop (!)" = "laptop-" ∧ generateSlug "& Laptop" = "-laptop" ∧
    jsTrim "Laptop (!)" = "Laptop (!)" ∧ jsTrim "& Laptop" = "& Laptop" := by
  decide

/-- C22: for every product name the generated slug consists only of the
characters `a`-`z`, `0`-`9` and `-`, does not contain two consecutive hyphens,
and generating the slug of a slug returns it unchanged. -/
theorem generateSlug_spec (name : String) :
    (∀ c ∈ (generateSlug name).data,
      (97 ≤ c.toNat ∧ c.toNat ≤ 122) ∨ (48 ≤ c.toNat ∧ c.toNat ≤ 57) ∨ c = '-') ∧
    ¬ (['-', '-'] <:+: (generateSlug name).data) ∧
    generateSlug (generateSlug name) = generateSlug name := by
  have hchain := replaceRuns_chain (fun c => c == '-') '-'
    (replaceRuns isJsSpace '-' ((toLowerCase name).data.filter isSlugSource))
  refine ⟨?_, ?_, ?_⟩
  · intro c hc
    rw [generateSlug_eq] at hc
    have := slugChars_isSlugChar name c hc
    simp only [isSlugChar, Bool.or_eq_true, Bool.and_eq_true, decide_eq_true_eq, beq_iff_eq]
      at this
    rcases this with (h | h) | h
    · exact Or.inl h
    · exact Or.inr (Or.inl h)
    · exact Or.inr (Or.inr h)
  · rw [generateSlug_eq]
    intro hin
    have h2 := List.Chain'.infix hchain hin
    simp at h2
  · rw [generateSlug_eq name, generateSlug_eq,
      slugChars_of_slug _ (slugChars_isSlugChar name) hchain]

/-! ## Pagination of the product list -/

/-- C23: in `GET /api/products`, for every `page`, every `limit >= 1` and every
count `total` of matching documents, the number of pages is
`ceil(total / limit)`, `skip` is `(page - 1) * limit`, `hasPrev` holds exactly
when `page > 1`, and `hasNext` holds exactly when `page * limit < total`, that
is, when documents remain after the `skip + limit` first ones. -/
theorem paginationInfo_spec (page limit : Int) (total : Nat) (hl : 1 ≤ limit) :
    (paginationInfo page limit total).total = ⌈(total : ℚ) / (limit : ℚ)⌉ ∧
    paginationSkip page limit = (page - 1) * limit ∧
    ((paginationInfo page limit total).hasPrev = true ↔ 1 < page) ∧
    ((paginationInfo page limit total).hasNext = true ↔ page * limit < total) ∧
    ((paginationInfo page limit total).hasNext = true ↔
      paginationSkip page limit + limit < total) := by
  have hlq : (0 : ℚ) < (limit : ℚ) := by exact_mod_cast (by omega : 0 < limit)
  have hnext : (paginationInfo page limit total).hasNext = true ↔ page * limit < total := by
    simp only [paginationInfo, decide_eq_true_eq, Int.lt_ceil]
    rw [lt_div_iff₀ hlq]
    exact_mod_cast Iff.rfl
  refine ⟨rfl, rfl, ?_, hnext, ?_⟩
  · simp [paginationInfo]
  · rw [hnext]
    unfold paginationSkip
    constructor <;> intro h <;> linarith

/-- The second page of a list of 30 documents at 12 per page: three pages, 12
documents skipped, a previous and a next page. -/
theorem paginationInfo_spec_witness :
    (1 : Int) ≤ 12 ∧
    (paginationInfo 2 12 30).total = ⌈((30 : Nat) : ℚ) / ((12 : Int) : ℚ)⌉ ∧
    paginationSkip 2 12 = (2 - 1) * 12 ∧
    ((paginationInfo 2 12 30).hasPrev = true ↔ (1 : Int) < 2) ∧
    ((paginationInfo 2 12 30).hasNext = true ↔ (2 : Int) * 12 < (30 : Nat)) ∧
    ((paginationInfo 2 12 30).hasNext = true ↔ paginationSkip 2 12 + 12 < (30 : Nat)) :=
  ⟨by decide, paginationInfo_spec 2 12 30 (by decide)⟩

/-! ## `PUT /api/cart/update` -/

/-- C25, against the claim as stated: the cart of user 7 has no line for
product 1, and the request for six units of it, of which five are in stock, is
answered 400, not 404, whatever `cart.updateItemQuantity` does; the stock check
comes first. -/
theorem updateCart_no_line_not_404 :
    dbEmptyCart.carts 7 = some { items := [] } ∧
    (updateCart sampleUpdateItemQuantity dbEmptyCart 7 ⟨1, 6⟩).1.status = 400 ∧
    ∀ upd : Cart → ProductId → Int → Except String Cart,
      (updateCart upd dbEmptyCart 7 ⟨1, 6⟩).1.status = 400 ∧
      (updateCart upd dbEmptyCart 7 ⟨1, 6⟩).2 = dbEmptyCart :=
  ⟨rfl, rfl, fun _ => ⟨rfl, rfl⟩⟩

/-- C25, amended: `PUT /api/cart/update` answers 200 only for a quantity in
0..50 and rejects any other with 400 'Validation failed'; for a quantity above 0
that exceeds the quantity of the existing product it answers 400 and changes
nothing; a quantity of 0 is never answered 400; and when the quantity is in
0..50, the product exists, a positive quantity does not exceed its stock and the
user has a cart, the answer is 404 'Item not found in cart', with nothing
changed, exactly when `cart.updateItemQuantity` throws an error with that
message, 500 when it throws another error and 200 when it returns; so a request
against a cart without a line for the product is answered with that 404 if the
method throws this error for every cart without such a line. -/
theorem updateCart_spec (upd : Cart → ProductId → Int → Except String Cart) (db : Db)
    (user : UserId) (body : CartUpdateBody) :
    ((updateCart upd db user body).1.status = 200 → 0 ≤ body.quantity ∧ body.quantity ≤ 50) ∧
    ((body.quantity < 0 ∨ 50 < body.quantity) →
      updateCart upd db user body = (⟨400, "Validation failed"⟩, db)) ∧
    (∀ product, db.products body.productId = some product → 0 < body.quantity →
      product.quantity < body.quantity →
      (updateCart upd db user body).1.status = 400 ∧ (updateCart upd db user body).2 = db) ∧
    (body.quantity = 0 → (updateCart upd db user body).1.status ≠ 400) ∧
    (∀ product cart, 0 ≤ body.quantity → body.quantity ≤ 50 →
      db.products body.productId = some product →
      (0 < body.quantity → body.quantity ≤ product.quantity) →
      db.carts user = some cart →
      (updateCart upd db user body = (⟨404, "Item not found in cart"⟩, db) ↔
        upd cart body.productId body.quantity = Except.error "Item not found in cart") ∧
      (∀ message, upd cart body.productId body.quantity = Except.error message →
        message ≠ "Item not found in cart" →
        updateCart upd db user body = (serverError, db)) ∧
      (∀ cart', upd cart body.productId body.quantity = Except.ok cart' →
        (updateCart upd db user body).1.status = 200) ∧
      ((∀ c : Cart, (∀ l ∈ c.items, l.product ≠ body.productId) →
          upd c body.productId body.quantity = Except.error "Item not found in cart") →
        (∀ l ∈ cart.items, l.product ≠ body.productId) →
        updateCart upd db user body = (⟨404, "Item not found in cart"⟩, db))) := by
  have hrange : (body.quantity < 0 ∨ 50 < body.quantity) →
      updateCart upd db user body = (⟨400, "Validation failed"⟩, db) := by
    intro h
    have hv : validateCartUpdate body = false := by
      simp only [validateCartUpdate, Bool.and_eq_false_iff, decide_eq_false_iff_not]
      omega
    simp [updateCart, hv]
  refine ⟨?_, hrange, ?_, ?_, ?_⟩
  · intro h
    by_contra hc
    rw [hrange (by omega)] at h
    simp at h
  · intro product hp hq hlt
    by_cases hv : validateCartUpdate body = true
    · simp [updateCart, hv, hp, hq, hlt]
    · have hv' : validateCartUpdate body = false := by simpa using hv
      simp [updateCart, hv']
  · intro hq
    have hv : validateCartUpdate body = true := by simp [validateCartUpdate, hq]
    unfold updateCart
    simp only [hv, Bool.not_true, Bool.false_eq_true, if_false, hq]
    split
    · simp
    · simp only [gt_iff_lt, lt_self_iff_false, decide_False, Bool.false_and,
        Bool.false_eq_true, if_false]
      split
      · simp
      · split
        · split <;> simp [serverError]
        · simp
  · intro product cart h0 h50 hp hstock hc
    have hv : validateCartUpdate body = true := by simp [validateCartUpdate, h0, h50]
    have hs : (decide (body.quantity > 0) && decide (product.quantity < body.quantity)) =
        false := by
      simp only [Bool.and_eq_false_iff, decide_eq_false_iff_not]
      by_cases hq : 0 < body.quantity
      · exact Or.inr (not_lt.mpr (hstock hq))
      · exact Or.inl hq
    have hthrow : upd cart body.productId body.quantity = Except.error "Item not found in cart" →
        updateCart upd db user body = (⟨404, "Item not found in cart"⟩, db) := by
      intro hu
      simp [updateCart, hv, hp, hs, hc, hu]
    refine ⟨⟨?_, hthrow⟩, ?_, ?_, ?_⟩
    · intro h
      cases hu : upd cart body.productId body.quantity with
      | error message =>
        by_cases hm : message = "Item not found in cart"
        · rw [hm]
        · simp [updateCart, hv, hp, hs, hc, hu, hm, serverError] at h
      | ok cart' => simp [updateCart, hv, hp, hs, hc, hu] at h
    · intro message hu hm
      simp [updateCart, hv, hp, hs, hc, hu, hm]
    · intro cart' hu
      simp [updateCart, hv, hp, hs, hc, hu]
    · intro hupd hno
      exact hthrow (hupd cart hno)

/-- A request for two units of product 1, of which five are in stock, against
an empty cart and a method that throws for a missing line. -/
theorem updateCart_spec_witness :
    (∀ cart : Cart, (∀ l ∈ cart.items, l.product ≠ 1) →
      sampleUpdateItemQuantity cart 1 2 = Except.error "Item not found in cart") ∧
    updateCart sampleUpdateItemQuantity dbEmptyCart 7 ⟨1, 2⟩ =
      (⟨404, "Item not found in cart"⟩, dbEmptyCart) := by
  have hupd : ∀ cart : Cart, (∀ l ∈ cart.items, l.product ≠ 1) →
      sampleUpdateItemQuantity cart 1 2 = Except.error "Item not found in cart" := by
    intro cart h
    have hany : (cart.items.any fun l => decide (l.product = 1)) = false := by
      simpa using h
    simp [sampleUpdateItemQuantity, hany]
  exact ⟨hupd,
    ((updateCart_spec sampleUpdateItemQuantity dbEmptyCart 7 ⟨1, 2⟩).2.2.2.2 productA
      { items := [] } (by decide) (by decide) rfl (fun _ => by decide) rfl).2.2.2 hupd
      (by simp)⟩

/-! ## The checkout page against the validators of `POST /api/orders` -/

/-- C26, failing for every form: the request body that the checkout page builds
never passes the validation chain of `POST /api/orders`, whatever the form
holds and whatever `isEmail` accepts.  The address objects of the page have the
keys `fullName` and `address`, so `shippingAddress.name` and
`shippingAddress.street` are absent, and `paymentMethod` is always "stripe",
which is not among the accepted methods; the handler answers 400 'Validation
failed' and stores nothing.  The form `sampleForm` is accepted by
`validateForm`; a form with an empty `phone` is accepted too. -/
theorem checkout_orderData_fails_validation (isEmail : String → Bool) (f : CheckoutForm)
    (paymentIntentId : String) (db : Db) (user : UserId) :
    validateForm sampleForm = true ∧
    validateForm { sampleForm with shippingAddress.phone := "" } = true ∧
    notEmpty (orderData f paymentIntentId).shippingAddress.name = false ∧
    notEmpty (orderData f paymentIntentId).shippingAddress.street = false ∧
    (orderData f paymentIntentId).paymentMethod = some "stripe" ∧
    paymentMethods.contains "stripe" = false ∧
    validateOrderBody isEmail (orderData f paymentIntentId) = false ∧
    placeOrder isEmail db user (orderData f paymentIntentId) =
      (⟨400, "Validation failed"⟩, db) := by
  have hv : validateOrderBody isEmail (orderData f paymentIntentId) = false := by
    simp [validateOrderBody, orderData, ShippingForm.toAddress, notEmpty]
  refine ⟨by decide, by decide, rfl, rfl, rfl, by decide, hv, ?_⟩
  simp [placeOrder, hv]

/-! ## The totals of the pages against the totals of the order -/

theorem toBinary64_page_fee : toBinary64 (999 / 100) = 5623870034678907 / 2 ^ 49 := by
  rw [toBinary64_eq _ 3 5623870034678907 (by norm_num) (by norm_num) (by norm_num)
    (by norm_num)]
  norm_num

/-- With every captured price equal to the current price of the product, the
subtotal and the tax of the pages are those of the order. -/
theorem pageSubtotal_eq_calcSubtotal (cart : List (CartItem × Product))
    (h : ∀ l ∈ cart, l.1.price = l.2.price) :
    pageSubtotal cart = calcSubtotal (cart.map Prod.fst) ∧
    pageTax (pageSubtotal cart) = calcTax (calcSubtotal (cart.map Prod.fst)) := by
  have hf : ∀ a : ℚ,
      cart.foldl (fun sum item => jsAdd sum (jsMul item.2.price (item.1.quantity : ℚ))) a =
        (cart.map Prod.fst).foldl
          (fun total item => jsAdd total (jsMul item.price (item.quantity : ℚ))) a := by
    induction cart with
    | nil =>
      intro a
      rfl
    | cons x xs ih =>
      intro a
      simp only [List.foldl_cons, List.map_cons]
      rw [← h x (List.mem_cons_self _ _)]
      exact ih (fun l hl => h l (List.mem_cons_of_mem _ hl)) _
  have hs : pageSubtotal cart = calcSubtotal (cart.map Prod.fst) := hf 0
  exact ⟨hs, by rw [hs]; rfl⟩

/-- The shipping fee of the pages is the shipping fee of the order exactly for
a subtotal above 100. -/
theorem pageShipping_eq_calcShipping_iff (subtotal : ℚ) :
    pageShipping subtotal = calcShipping subtotal ↔ 100 < subtotal := by
  unfold pageShipping calcShipping
  constructor
  · intro h
    by_contra hc
    rw [if_neg hc, toBinary64_page_fee] at h
    split at h <;> norm_num at h
  · intro h
    rw [if_pos (by linarith), if_pos h]

/-- C27, at the failing input: for the cart of the scenario, whose captured
price is the current price of the product, the pages compute the subtotal 20
and the tax 1.60 as the order does, but the shipping fee 9.99 and the total
31.590000000000003, the amount sent for payment, while the order that
`POST /api/orders` stores has the shipping fee 15 and the total 36.60; the
numbers are binary64 numbers. -/
theorem page_totals_differ_from_order :
    (∀ l ∈ scenarioPageCart, l.1.price = l.2.price) ∧
    dbScenario.carts 7 = some { items := scenarioPageCart.map Prod.fst } ∧
    pageSubtotal scenarioPageCart = 20 ∧
    pageTax (pageSubtotal scenarioPageCart) = toBinary64 (8 / 5) ∧
    pageShipping (pageSubtotal scenarioPageCart) = toBinary64 (999 / 100) ∧
    pageTotal scenarioPageCart = 8891794514289624 / 2 ^ 48 ∧
    ∃ order,
      (placeOrder sampleIsEmail dbScenario 7 sampleBody).2.orders = [order] ∧
      order.subtotal = 20 ∧ order.tax = toBinary64 (8 / 5) ∧ order.shipping = 15 ∧
      order.total = toBinary64 (183 / 5) ∧
      pageShipping (pageSubtotal scenarioPageCart) < order.shipping ∧
      pageTotal scenarioPageCart < order.total := by
  have hsub : pageSubtotal scenarioPageCart = 20 := by
    have : pageSubtotal scenarioPageCart = jsSum [(10, 2)] := by
      simp [pageSubtotal, jsSum, scenarioPageCart, productA]
    rw [this]
    exact scenario_totals.1
  have htax : pageTax 20 = toBinary64 (8 / 5) := scenario_totals.2.1
  have hship : pageShipping 20 = toBinary64 (999 / 100) := by
    unfold pageShipping
    norm_num
  have htot : pageTotal scenarioPageCart = 8891794514289624 / 2 ^ 48 := by
    unfold pageTotal
    rw [hsub, htax, hship]
    unfold jsAdd
    rw [toBinary64_scenario_sum, toBinary64_page_fee,
      toBinary64_eq_of_tie _ 4 8891794514289623 (by norm_num) (by norm_num) (by norm_num)
        (by decide)]
    norm_num
  refine ⟨by decide, rfl, hsub, ?_, ?_, htot, ?_⟩
  · rw [hsub, htax]
  · rw [hsub, hship]
  · have h201 : (placeOrder sampleIsEmail dbScenario 7 sampleBody).1.status = 201 := by decide
    obtain ⟨cart, ois, -, hc, -, -, -, heq⟩ := placeOrder_success_inv h201
    have hcart : cart = { items := [⟨1, 2, 10⟩] } := by
      have : dbScenario.carts 7 = some { items := [⟨1, 2, 10⟩] } := rfl
      rw [this] at hc
      exact (Option.some.inj hc).symm
    have hsub2 : calcSubtotal cart.items = 20 := by
      rw [hcart, calcSubtotal_eq_jsSum]
      have : (([⟨1, 2, 10⟩] : List CartItem).map fun l => (l.price, (l.quantity : ℚ))) =
          [(10, 2)] := by simp
      rw [this]
      exact scenario_totals.1
    have htax2 : calcTax 20 = toBinary64 (8 / 5) := scenario_totals.2.1
    have hship2 : calcShipping 20 = 15 := by
      unfold calcShipping
      norm_num
    have htot2 : (placedOrder 7 sampleBody cart ois).total = toBinary64 (183 / 5) := by
      show jsAdd (jsAdd (calcSubtotal cart.items) (calcTax (calcSubtotal cart.items)))
        (calcShipping (calcSubtotal cart.items)) = _
      rw [hsub2, htax2, hship2]
      exact scenario_totals.2.2
    have hship3 : (placedOrder 7 sampleBody cart ois).shipping = 15 := by
      show calcShipping (calcSubtotal cart.items) = _
      rw [hsub2, hship2]
    refine ⟨placedOrder 7 sampleBody cart ois, ?_, hsub2, ?_, hship3, htot2, ?_, ?_⟩
    · rw [heq]
      rfl
    · show calcTax (calcSubtotal cart.items) = _
      rw [hsub2, htax2]
    · rw [hsub, hship, hship3, toBinary64_page_fee]
      norm_num
    · rw [htot, htot2, toBinary64_scenario_total]
      norm_num

/-! ## The discount percentage -/

/-- C24, against the claim as stated: for the original price 40 and the price
17 the exact percentage is 57.5, which rounds to 58, while the virtual returns
57: in binary64 arithmetic `(40 - 17) / 40` is a number just below 0.575 and
its product with 100 is 57.49999999999999. -/
theorem discountPercentage_tie :
    productReduced.originalPrice = 40 ∧ productReduced.price = 17 ∧
    productReduced.discountPercentage = 57 ∧
    mathRound (100 * (40 - 17) / 40) = 58 := by
  have h1 : toBinary64 (40 - 17) = 23 := by
    rw [toBinary64_eq _ 4 6473924464345088 (by norm_num) (by norm_num) (by norm_num)
      (by norm_num)]
    norm_num
  have h2 : toBinary64 (23 / 40) = 5179139571476070 / 2 ^ 53 := by
    rw [toBinary64_eq _ (-1) 5179139571476070 (by norm_num) (by norm_num) (by norm_num)
      (by norm_num)]
    norm_num
  have h3 : toBinary64 (5179139571476070 / 2 ^ 53 * 100) = 8092405580431359 / 2 ^ 47 := by
    rw [toBinary64_eq _ 5 8092405580431359 (by norm_num) (by norm_num) (by norm_num)
      (by norm_num)]
    norm_num
  have h4 : mathRound (8092405580431359 / 2 ^ 47) = 57 := by
    unfold mathRound
    rw [Int.floor_eq_iff]
    constructor <;> norm_num
  have h5 : mathRound (100 * (40 - 17) / 40) = 58 := by
    unfold mathRound
    rw [Int.floor_eq_iff]
    constructor <;> norm_num
  refine ⟨rfl, rfl, ?_, h5⟩
  have hc : productReduced.originalPrice ≠ 0 ∧
      productReduced.originalPrice > productReduced.price := by
    simp only [productReduced]
    norm_num
  have ho : productReduced.originalPrice = 40 := rfl
  have hp : productReduced.price = 17 := rfl
  unfold Product.discountPercentage
  rw [if_pos hc, ho, hp]
  unfold jsMul jsDiv jsSub
  rw [h1, h2, h3, h4]

/-- C24, amended: the virtual `discountPercentage` returns 0 when
`originalPrice` is 0 or at most `price`, and otherwise `Math.round` of
`((originalPrice - price) / originalPrice) * 100` with every operation rounded
to binary64; for `0 <= price < originalPrice`, `originalPrice` being a binary64
number, the result is an integer from 0 to 100 and differs by at most 1 from
the exact percentage rounded to the nearest integer. -/
theorem discountPercentage_spec (p : Product) :
    ((p.originalPrice = 0 ∨ p.originalPrice ≤ p.price) → p.discountPercentage = 0) ∧
    (¬ (p.originalPrice = 0 ∨ p.originalPrice ≤ p.price) →
      p.discountPercentage =
        mathRound (toBinary64 (toBinary64 (toBinary64 (p.originalPrice - p.price) /
          p.originalPrice) * 100))) ∧
    (0 ≤ p.price → p.price < p.originalPrice → toBinary64 p.originalPrice = p.originalPrice →
      0 ≤ p.discountPercentage ∧ p.discountPercentage ≤ 100 ∧
      |p.discountPercentage - mathRound (100 * (p.originalPrice - p.price) / p.originalPrice)|
        ≤ 1) := by
  refine ⟨?_, ?_, ?_⟩
  · intro h
    unfold Product.discountPercentage
    rw [if_neg]
    rintro ⟨h1, h2⟩
    rcases h with h | h
    · exact h1 h
    · exact absurd h2 (not_lt.mpr h)
  · intro h
    push_neg at h
    unfold Product.discountPercentage
    rw [if_pos ⟨h.1, h.2⟩]
    rfl
  · intro h0 hlt hrep
    have hop : 0 < p.originalPrice := lt_of_le_of_lt h0 hlt
    have hd : 0 < p.originalPrice - p.price := by linarith
    have hval : p.discountPercentage =
        mathRound (toBinary64 (toBinary64 (toBinary64 (p.originalPrice - p.price) /
          p.originalPrice) * 100)) := by
      unfold Product.discountPercentage
      rw [if_pos ⟨ne_of_gt hop, hlt⟩]
      rfl
    -- the three rounded operations
    have ha0 : 0 ≤ toBinary64 (p.originalPrice - p.price) := toBinary64_nonneg hd.le
    have ha1 : toBinary64 (p.originalPrice - p.price) ≤ p.originalPrice :=
      toBinary64_le_of_le hd.le (by linarith) hrep
    have hx0 : 0 ≤ toBinary64 (p.originalPrice - p.price) / p.originalPrice :=
      div_nonneg ha0 hop.le
    have hx1 : toBinary64 (p.originalPrice - p.price) / p.originalPrice ≤ 1 :=
      (div_le_one hop).mpr ha1
    have hb0 := toBinary64_nonneg hx0
    have hb1 := toBinary64_le_of_le hx0 hx1 toBinary64_one
    have hy0 : 0 ≤ toBinary64 (toBinary64 (p.originalPrice - p.price) / p.originalPrice) * 100 :=
      by positivity
    have hy1 : toBinary64 (toBinary64 (p.originalPrice - p.price) / p.originalPrice) * 100
        ≤ 100 := by linarith
    have hc0 := toBinary64_nonneg hy0
    have hc1 := toBinary64_le_of_le hy0 hy1 toBinary64_hundred
    have hr0 : 0 ≤ p.discountPercentage := by
      rw [hval]
      have := mathRound_mono hc0
      rwa [show mathRound 0 = 0 from mathRound_intCast 0] at this
    have hr1 : p.discountPercentage ≤ 100 := by
      rw [hval]
      have := mathRound_mono hc1
      rwa [show mathRound 100 = 100 from mathRound_intCast 100] at this
    refine ⟨hr0, hr1, ?_⟩
    -- the error of the three operations
    have ea := abs_le.mp (toBinary64_abs_sub_le hd)
    have hapos : 0 < toBinary64 (p.originalPrice - p.price) := by
      have : (p.originalPrice - p.price) / 2 ^ 53 < p.originalPrice - p.price := by
        rw [div_lt_iff₀ (by positivity)]
        nlinarith
      linarith [ea.1]
    have hxpos : 0 < toBinary64 (p.originalPrice - p.price) / p.originalPrice :=
      div_pos hapos hop
    have eb := abs_le.mp (toBinary64_abs_sub_le hxpos)
    have hbpos : 0 < toBinary64 (toBinary64 (p.originalPrice - p.price) / p.originalPrice) := by
      have : toBinary64 (p.originalPrice - p.price) / p.originalPrice / 2 ^ 53 <
          toBinary64 (p.originalPrice - p.price) / p.originalPrice := by
        rw [div_lt_iff₀ (by positivity)]
        nlinarith
      linarith [eb.1]
    have hypos : 0 <
        toBinary64 (toBinary64 (p.originalPrice - p.price) / p.originalPrice) * 100 := by
      positivity
    have ec := abs_le.mp (toBinary64_abs_sub_le hypos)
    -- the exact percentage
    have ht : 100 * (p.originalPrice - p.price) / p.originalPrice =
        (p.originalPrice - p.price) / p.originalPrice * 100 := by ring
    have ht1 : (p.originalPrice - p.price) / p.originalPrice ≤ 1 :=
      (div_le_one hop).mpr (by linarith)
    have ht0 : 0 ≤ (p.originalPrice - p.price) / p.originalPrice := div_nonneg hd.le hop.le
    have exa : |toBinary64 (p.originalPrice - p.price) / p.originalPrice -
        (p.originalPrice - p.price) / p.originalPrice| ≤ 1 / 2 ^ 53 := by
      rw [← sub_div, abs_div, abs_of_pos hop, div_le_iff₀ hop]
      have h1 : |toBinary64 (p.originalPrice - p.price) - (p.originalPrice - p.price)| ≤
          (p.originalPrice - p.price) / 2 ^ 53 := toBinary64_abs_sub_le hd
      have h2 : (p.originalPrice - p.price) / 2 ^ 53 ≤ 1 / 2 ^ 53 * p.originalPrice := by
        rw [div_le_iff₀ (by positivity)]
        have : (1 : ℚ) / 2 ^ 53 * p.originalPrice * 2 ^ 53 = p.originalPrice := by
          field_simp
        rw [this]
        linarith
      exact h1.trans h2
    have exa' := abs_le.mp exa
    have hclose : |toBinary64 (toBinary64 (toBinary64 (p.originalPrice - p.price) /
        p.originalPrice) * 100) -
        100 * (p.originalPrice - p.price) / p.originalPrice| ≤ 1 / 2 := by
      rw [ht, abs_le]
      have e1 : toBinary64 (p.originalPrice - p.price) / p.originalPrice / 2 ^ 53 ≤
          1 / 2 ^ 53 := by
        apply div_le_div_of_nonneg_right hx1
        positivity
      have e2 : toBinary64 (toBinary64 (p.originalPrice - p.price) / p.originalPrice) * 100 /
          2 ^ 53 ≤ 100 / 2 ^ 53 := by
        apply div_le_div_of_nonneg_right hy1
        positivity
      have hu : (1 : ℚ) / 2 ^ 53 + 100 / 2 ^ 53 + 100 * (1 / 2 ^ 53 + 1 / 2 ^ 53) ≤ 1 / 2 := by
        norm_num
      constructor <;> linarith [ec.1, ec.2, eb.1, eb.2, exa'.1, exa'.2]
    have hclose' := abs_le.mp hclose
    have m1 := mathRound_bounds (toBinary64 (toBinary64 (toBinary64
      (p.originalPrice - p.price) / p.originalPrice) * 100))
    have m2 := mathRound_bounds (100 * (p.originalPrice - p.price) / p.originalPrice)
    rw [hval, abs_le]
    constructor
    · have : ((-2 : ℤ) : ℚ) < ((mathRound (toBinary64 (toBinary64 (toBinary64
          (p.originalPrice - p.price) / p.originalPrice) * 100)) -
          mathRound (100 * (p.originalPrice - p.price) / p.originalPrice) : ℤ) : ℚ) := by
        push_cast
        linarith [m1.1, m1.2, m2.1, m2.2, hclose'.1, hclose'.2]
      have := Int.cast_lt.mp this
      omega
    · have : ((mathRound (toBinary64 (toBinary64 (toBinary64
          (p.originalPrice - p.price) / p.originalPrice) * 100)) -
          mathRound (100 * (p.originalPrice - p.price) / p.originalPrice) : ℤ) : ℚ) <
          ((2 : ℤ) : ℚ) := by
        push_cast
        linarith [m1.1, m1.2, m2.1, m2.2, hclose'.1, hclose'.2]
      have := Int.cast_lt.mp this
      omega

/-- The product reduced from 40 to 17: both prices are binary64 numbers, the
result 57 lies between 0 and 100 and differs by 1 from the rounded exact
percentage 58. -/
theorem discountPercentage_spec_witness :
    (0 : ℚ) ≤ productReduced.price ∧ productReduced.price < productReduced.originalPrice ∧
    toBinary64 productReduced.originalPrice = productReduced.originalPrice ∧
    0 ≤ productReduced.discountPercentage ∧ productReduced.discountPercentage ≤ 100 ∧
    |productReduced.discountPercentage -
      mathRound (100 * (productReduced.originalPrice - productReduced.price) /
        productReduced.originalPrice)| ≤ 1 := by
  have h0 : (0 : ℚ) ≤ productReduced.price := by
    show (0 : ℚ) ≤ 17
    norm_num
  have hlt : productReduced.price < productReduced.originalPrice := by
    show (17 : ℚ) < 40
    norm_num
  have hrep : toBinary64 productReduced.originalPrice = productReduced.originalPrice := by
    show toBinary64 40 = 40
    rw [toBinary64_eq 40 5 5629499534213120 (by norm_num) (by norm_num) (by norm_num)
      (by norm_num)]
    norm_num
  exact ⟨h0, hlt, hrep, (discountPercentage_spec productReduced).2.2 h0 hlt hrep⟩

end TechHub
